import Mathlib

/-!
Verification development for the Birds Party rules engine.

The definitions below are a shallow embedding of the Go package
`birdsparty` (files `types.go`, the grid/connection engine, and the three
fiber handlers).  Go `float64` values are modelled as exact rationals `ℚ`,
Go `int` as `ℤ` (or `ℕ` where the Go value is a length or an index that is
provably nonnegative), Go slices as Lean lists, and the per-request
`*rand.Rand` source as an oracle stream of pre-chosen values (see `Rng`).
Grids are `List (List Symbol)` in row-major order, `grid[y][x]` becoming
`cellAt grid x y`; the transient Go `""` cell marker is the constructor
`Symbol.blank`.
-/

namespace BirdsParty

/-- The closed symbol alphabet of `types.go`, plus `blank` for the Go empty
string marker used transiently during removal/gravity. -/
inductive Symbol where
  | purpleOwl
  | greenOwl
  | yellowOwl
  | blueOwl
  | redOwl
  | freeGame
  | orangeSlice
  | honeyPot
  | strawberry
  | blank
deriving DecidableEq, Repr

/-- Go constant `Level1MinConnection`. -/
def Level1MinConnection : ℕ := 4

/-- Go constant `Level2MinConnection`. -/
def Level2MinConnection : ℕ := 5

/-- Go constant `Level3MinConnection`. -/
def Level3MinConnection : ℕ := 6

/-- Go constant `Level1GridSize`. -/
def Level1GridSize : ℕ := 4

/-- Go constant `Level2GridSize`. -/
def Level2GridSize : ℕ := 5

/-- Go constant `Level3GridSize`. -/
def Level3GridSize : ℕ := 6

/-- Go constant `StageProgressTarget`. -/
def StageProgressTarget : ℤ := 15

/-- Go constant `FreeSpinsAwarded`. -/
def FreeSpinsAwarded : ℤ := 10

/-- Go `Level.GetMinConnection` (switch with a default of level 1). The Go
`Level` type is an `int`; we use `ℕ`, since every Go code path treats all
values outside 1..3 through the same `default` branch that `0` and negative
values take. -/
def GetMinConnection (l : ℕ) : ℕ :=
  match l with
  | 1 => Level1MinConnection
  | 2 => Level2MinConnection
  | 3 => Level3MinConnection
  | _ => Level1MinConnection

/-- Go `Level.GetGridSize`. -/
def GetGridSize (l : ℕ) : ℕ :=
  match l with
  | 1 => Level1GridSize
  | 2 => Level2GridSize
  | 3 => Level3GridSize
  | _ => Level1GridSize

/-- Go `Level.GetStageClearedSymbol`. -/
def GetStageClearedSymbol (l : ℕ) : Symbol :=
  match l with
  | 1 => .orangeSlice
  | 2 => .honeyPot
  | 3 => .strawberry
  | _ => .orangeSlice

/-- Go `AdvanceLevel`. -/
def AdvanceLevel (currentLevel : ℕ) : ℕ :=
  match currentLevel with
  | 1 => 2
  | 2 => 3
  | 3 => 1
  | _ => 1

/-- Go `IsStageClearedSymbol`. -/
def IsStageClearedSymbol (symbol : Symbol) : Bool :=
  decide (symbol = .orangeSlice ∨ symbol = .honeyPot ∨ symbol = .strawberry)

/-- Go `IsRegularBirdSymbol`. -/
def IsRegularBirdSymbol (symbol : Symbol) : Bool :=
  decide (symbol = .purpleOwl ∨ symbol = .greenOwl ∨ symbol = .yellowOwl ∨
    symbol = .blueOwl ∨ symbol = .redOwl)

/-- Go `Position` (fields `X`, `Y`, Go `int`, hence `ℤ`). -/
structure Position where
  x : ℤ
  y : ℤ
deriving DecidableEq, Repr

/-- Go `StageClearedSymbol`. -/
structure StageClearedSymbol where
  symbol : Symbol
  position : Position
deriving DecidableEq, Repr

/-- Go `Connection`. -/
structure Connection where
  symbol : Symbol
  positions : List Position
  count : ℕ
  payout : ℚ
deriving DecidableEq, Repr

/-- A grid is a row-major list of rows, `grid[y][x]`. -/
abbrev Grid := List (List Symbol)

/-- Read `grid[y][x]`; out-of-range reads return `blank` (the Go code only
reads inside explicitly checked bounds). -/
def cellAt (grid : Grid) (x y : ℕ) : Symbol :=
  (grid.getD y []).getD x .blank

/-- Write `grid[y][x] = s` (no-op when out of range, like every write site
in the Go code, all of which are bounds-checked first). -/
def setCell (grid : Grid) (x y : ℕ) (s : Symbol) : Grid :=
  grid.set y ((grid.getD y []).set x s)

/-- Read a cell at a `Position` with `ℤ` coordinates (used after the Go
bounds checks have established nonnegativity). -/
def cellAtP (grid : Grid) (p : Position) : Symbol :=
  cellAt grid p.x.toNat p.y.toNat

/-- Write a cell at a `Position` with `ℤ` coordinates. -/
def setCellP (grid : Grid) (p : Position) (s : Symbol) : Grid :=
  setCell grid p.x.toNat p.y.toNat s

/-- Go `round` in the engine file: `math.Round(val*100) / 100`.
`math.Round` rounds half away from zero; every value it is applied to in
this engine is nonnegative, where that agrees with flooring `val*100 + 1/2`. -/
def round (val : ℚ) : ℚ :=
  ((Rat.floor (val * 100 + 1 / 2) : ℤ) : ℚ) / 100

/-- Go `PaytableLevel1` (the engine's `types.go`): payout rows keyed by
connected count, for bet multiplier 1. -/
def PaytableLevel1 : Symbol → Option (List (ℕ × ℚ))
  | .purpleOwl => some [(4, 4), (5, 5), (6, 6), (7, 7), (8, 8), (9, 9), (10, 10),
      (11, 11), (12, 12), (13, 13), (14, 14), (15, 15), (16, 16)]
  | .greenOwl => some [(4, 2), (5, 4), (6, 5), (7, 8), (8, 10), (9, 20), (10, 30),
      (11, 50), (12, 100), (13, 200), (14, 400), (15, 800), (16, 1600)]
  | .yellowOwl => some [(4, 4), (5, 5), (6, 10), (7, 20), (8, 30), (9, 50), (10, 100),
      (11, 250), (12, 500), (13, 750), (14, 800), (15, 1200), (16, 6000)]
  | .blueOwl => some [(4, 5), (5, 10), (6, 20), (7, 40), (8, 60), (9, 80), (10, 160),
      (11, 500), (12, 1000), (13, 2000), (14, 5000), (15, 7000), (16, 8000)]
  | .redOwl => some [(4, 10), (5, 30), (6, 50), (7, 60), (8, 100), (9, 750), (10, 1000),
      (11, 10000), (12, 20000), (13, 50000), (14, 60000), (15, 80000), (16, 100000)]
  | _ => none

/-- Go `PaytableLevel2`. -/
def PaytableLevel2 : Symbol → Option (List (ℕ × ℚ))
  | .purpleOwl => some [(5, 2), (6, 4), (7, 5), (8, 8), (9, 10), (10, 20), (11, 30),
      (12, 50), (13, 100), (14, 200), (15, 450), (16, 1000), (17, 1200), (18, 1500),
      (19, 2000), (20, 2500), (21, 3000), (22, 4000), (23, 5000), (24, 7500), (25, 10000)]
  | .greenOwl => some [(5, 4), (6, 5), (7, 10), (8, 20), (9, 30), (10, 50), (11, 100),
      (12, 250), (13, 500), (14, 750), (15, 1000), (16, 7000), (17, 8000), (18, 10000),
      (19, 12000), (20, 15000), (21, 18000), (22, 22000), (23, 27000), (24, 32000), (25, 40000)]
  | .yellowOwl => some [(5, 5), (6, 10), (7, 20), (8, 40), (9, 60), (10, 80), (11, 160),
      (12, 500), (13, 1000), (14, 2000), (15, 5000), (16, 8000), (17, 10000), (18, 12000),
      (19, 15000), (20, 20000), (21, 25000), (22, 30000), (23, 40000), (24, 50000), (25, 60000)]
  | .blueOwl => some [(5, 10), (6, 30), (7, 50), (8, 60), (9, 100), (10, 750), (11, 1000),
      (12, 10000), (13, 20000), (14, 50000), (15, 70000), (16, 100000), (17, 120000),
      (18, 150000), (19, 180000), (20, 220000), (21, 270000), (22, 320000), (23, 400000),
      (24, 500000), (25, 600000)]
  | .redOwl => some [(5, 20), (6, 50), (7, 100), (8, 500), (9, 1000), (10, 2000), (11, 5000),
      (12, 20000), (13, 50000), (14, 80000), (15, 100000), (16, 150000), (17, 200000),
      (18, 300000), (19, 400000), (20, 500000), (21, 600000), (22, 800000), (23, 1000000),
      (24, 1200000), (25, 1500000)]
  | _ => none

/-- Go `PaytableLevel3`. -/
def PaytableLevel3 : Symbol → Option (List (ℕ × ℚ))
  | .purpleOwl => some [(6, 2), (7, 4), (8, 5), (9, 8), (10, 10), (11, 20), (12, 30),
      (13, 50), (14, 100), (15, 200), (16, 500), (17, 600), (18, 750), (19, 900),
      (20, 1100), (21, 1300), (22, 1600), (23, 2000), (24, 2500), (25, 3000), (26, 3600),
      (27, 4300), (28, 5100), (29, 6000), (30, 7500), (31, 9000), (32, 11000), (33, 13000),
      (34, 16000), (35, 20000), (36, 25000)]
  | .greenOwl => some [(6, 4), (7, 5), (8, 10), (9, 20), (10, 30), (11, 50), (12, 100),
      (13, 250), (14, 500), (15, 1000), (16, 8000), (17, 9000), (18, 10500), (19, 12000),
      (20, 14000), (21, 16000), (22, 19000), (23, 22000), (24, 26000), (25, 30000),
      (26, 35000), (27, 40000), (28, 46000), (29, 53000), (30, 60000), (31, 68000),
      (32, 77000), (33, 87000), (34, 98000), (35, 110000), (36, 125000)]
  | .yellowOwl => some [(6, 5), (7, 10), (8, 20), (9, 40), (10, 60), (11, 80), (12, 160),
      (13, 500), (14, 1000), (15, 5000), (16, 10000), (17, 12000), (18, 14000), (19, 17000),
      (20, 20000), (21, 24000), (22, 28000), (23, 33000), (24, 39000), (25, 45000),
      (26, 52000), (27, 60000), (28, 69000), (29, 79000), (30, 90000), (31, 102000),
      (32, 115000), (33, 130000), (34, 146000), (35, 165000), (36, 185000)]
  | .blueOwl => some [(6, 10), (7, 30), (8, 50), (9, 60), (10, 100), (11, 750), (12, 1000),
      (13, 10000), (14, 20000), (15, 50000), (16, 100000), (17, 115000), (18, 130000),
      (19, 150000), (20, 170000), (21, 195000), (22, 220000), (23, 250000), (24, 280000),
      (25, 315000), (26, 355000), (27, 400000), (28, 450000), (29, 505000), (30, 565000),
      (31, 630000), (32, 700000), (33, 775000), (34, 860000), (35, 950000), (36, 1050000)]
  | .redOwl => some [(6, 20), (7, 50), (8, 100), (9, 500), (10, 1000), (11, 2000), (12, 5000),
      (13, 20000), (14, 50000), (15, 100000), (16, 200000), (17, 230000), (18, 265000),
      (19, 305000), (20, 350000), (21, 400000), (22, 460000), (23, 530000), (24, 610000),
      (25, 700000), (26, 800000), (27, 920000), (28, 1060000), (29, 1220000), (30, 1400000),
      (31, 1600000), (32, 1840000), (33, 2120000), (34, 2440000), (35, 2800000), (36, 3200000)]
  | _ => none

/-- Go `GetPaytable` (switch with level 1 default). -/
def GetPaytable (level : ℕ) : Symbol → Option (List (ℕ × ℚ)) :=
  match level with
  | 1 => PaytableLevel1
  | 2 => PaytableLevel2
  | 3 => PaytableLevel3
  | _ => PaytableLevel1

/-- Lookup of a count key in a paytable row (the Go `payoutMap[count]`). -/
def lookupPay : List (ℕ × ℚ) → ℕ → Option ℚ
  | [], _ => none
  | (k, v) :: rest, count => if k = count then some v else lookupPay rest count

/-- Go `calculatePayout`: paytable lookup, times denomination 0.01, times
bet multiplier, rounded to 2 decimals; 0 when either map lookup misses. -/
def calculatePayout (symbol : Symbol) (count : ℕ) (level : ℕ) (betMultiplier : ℤ) : ℚ :=
  match GetPaytable level symbol with
  | some payoutMap =>
    match lookupPay payoutMap count with
    | some payout => round (payout * (1 / 100) * (betMultiplier : ℚ))
    | none => 0
  | none => 0

/-- `Rat.floor` agrees with the `⌊⌋` of the `FloorRing ℚ` instance (used to
hand `round` values to `norm_num`). -/
theorem ratFloor_eq_intFloor (q : ℚ) : Rat.floor q = ⌊q⌋ := by
  rw [Rat.floor_def', Rat.floor_def]

/-- Unfold `round` to the `Int.floor` form that `norm_num` can evaluate. -/
theorem round_eq_intFloor (val : ℚ) :
    round val = ((⌊val * 100 + 1 / 2⌋ : ℤ) : ℚ) / 100 := by
  unfold round
  rw [ratFloor_eq_intFloor]

example : calculatePayout .purpleOwl 4 1 1 = mkRat 4 100 := by
  norm_num [calculatePayout, GetPaytable, PaytableLevel1, lookupPay, round_eq_intFloor]
example : calculatePayout .redOwl 16 1 10 = 10000 := by
  norm_num [calculatePayout, GetPaytable, PaytableLevel1, lookupPay, round_eq_intFloor]
example : calculatePayout .redOwl 17 1 10 = 0 := by
  norm_num [calculatePayout, GetPaytable, PaytableLevel1, lookupPay, round_eq_intFloor]
example : calculatePayout .blank 5 2 1 = 0 := by
  norm_num [calculatePayout, GetPaytable, PaytableLevel2]

/-- Shallow model of the per-request `*rand.Rand`: two oracle streams of
pre-chosen draws (one of candidate symbols for the weighted draws, one of
naturals for `Intn`) together with the read cursors.  Universally
quantifying over the oracle covers every sequence of values the Go source
can draw. -/
structure Rng where
  symOracle : ℕ → Symbol
  natOracle : ℕ → ℕ
  si : ℕ
  ni : ℕ

/-- Consume one raw symbol draw from the oracle. -/
def Rng.nextRawSym (r : Rng) : Symbol × Rng :=
  (r.symOracle r.si, { r with si := r.si + 1 })

/-- Go `r.Intn k`: a value in `[0, k)` (modelled as the oracle value mod
`k`; the Go source only calls it with `k > 0`). -/
def Rng.intn (r : Rng) (k : ℕ) : ℕ × Rng :=
  (r.natOracle r.ni % k, { r with ni := r.ni + 1 })

/-- The key set of Go `GetLevelSpecificWeights`: five birds, `free_game`,
plus the level's own stage-cleared symbol (no stage symbol for an invalid
level, mirroring the Go switch without a default). All listed weights are
strictly positive, so every key is drawable. -/
def GetLevelSpecificWeightsKeys (level : ℕ) : List Symbol :=
  [.purpleOwl, .greenOwl, .yellowOwl, .blueOwl, .redOwl, .freeGame] ++
    (match level with
     | 1 => [.orangeSlice]
     | 2 => [.honeyPot]
     | 3 => [.strawberry]
     | _ => [])

/-- Go `WeightedRandomSymbolWithControl`, modelled over the oracle: the Go
function draws uniformly against the cumulative weights of
`GetLevelSpecificWeights(level)` after deleting `free_game` when
`forbidFreeGame` is set.  The oracle's raw value stands for the drawn
candidate; a candidate outside the live key set collapses to the Go
fallback `SymbolPurpleOwl` (in Go such a symbol simply cannot be drawn, so
the model's reachable outputs coincide with Go's: exactly the live keys). -/
def WeightedRandomSymbolWithControl (level : ℕ) (raw : Symbol) (forbidFreeGame : Bool) :
    Symbol :=
  let keys := if forbidFreeGame then (GetLevelSpecificWeightsKeys level).erase .freeGame
    else GetLevelSpecificWeightsKeys level
  if raw ∈ keys then raw else .purpleOwl

/-- One controlled weighted draw consuming the symbol oracle. -/
def Rng.drawSym (r : Rng) (level : ℕ) (forbidFreeGame : Bool) : Symbol × Rng :=
  let (raw, r') := r.nextRawSym
  (WeightedRandomSymbolWithControl level raw forbidFreeGame, r')

/-- Go `hasFreeGameSymbol`. -/
def hasFreeGameSymbol (grid : Grid) : Bool :=
  grid.any (fun row => row.any (fun c => decide (c = .freeGame)))

/-- Go `CountFreeGameSymbols` (indexed double loop over `gridSize = len(grid)`). -/
def CountFreeGameSymbols (grid : Grid) : ℕ :=
  ((List.range grid.length).map
    (fun y => ((List.range grid.length).filter
      (fun x => decide (cellAt grid x y = .freeGame))).length)).sum

/-- Inner cell loop of Go `GenerateGrid`: one row of `gridSize` cells,
threading the `freeGamePlaced` latch and the random source. -/
def generateCells (level : ℕ) (forbidFreeGame : Bool) :
    ℕ → Bool → Rng → List Symbol × Bool × Rng
  | 0, placed, r => ([], placed, r)
  | n + 1, placed, r =>
    let allowFreeGame := !placed && !forbidFreeGame
    let (symbol, r') := r.drawSym level (!allowFreeGame)
    let placed' := placed || decide (symbol = .freeGame)
    let (rest, placedF, rF) := generateCells level forbidFreeGame n placed' r'
    (symbol :: rest, placedF, rF)

/-- Outer row loop of Go `GenerateGrid`. -/
def generateRows (level : ℕ) (forbidFreeGame : Bool) (gridSize : ℕ) :
    ℕ → Bool → Rng → Grid × Bool × Rng
  | 0, placed, r => ([], placed, r)
  | k + 1, placed, r =>
    let (row, placed', r') := generateCells level forbidFreeGame gridSize placed r
    let (rest, placedF, rF) := generateRows level forbidFreeGame gridSize k placed' r'
    (row :: rest, placedF, rF)

/-- Go `GenerateGrid(level, r, forbidFreeGame)` (the engine-file version
with the free-game latch). -/
def GenerateGrid (level : ℕ) (r : Rng) (forbidFreeGame : Bool) : Grid × Rng :=
  let gridSize := GetGridSize level
  let (grid, _, r') := generateRows level forbidFreeGame gridSize gridSize false r
  (grid, r')

/-- Go `FindStageClearedSymbols`: row-major scan for the level's own
stage-cleared symbol. -/
def FindStageClearedSymbols (grid : Grid) (level : ℕ) : List StageClearedSymbol :=
  let expectedSymbol := GetStageClearedSymbol level
  (List.range grid.length).flatMap fun y =>
    ((List.range grid.length).filter
      (fun x => decide (cellAt grid x y = expectedSymbol))).map
      (fun x => ⟨expectedSymbol, ⟨(x : ℤ), (y : ℤ)⟩⟩)

/-- Bounds test of the flood fill (`current.X < 0 || current.X >= gridSize
|| current.Y < 0 || current.Y >= gridSize`, negated). -/
def inBoundsB (gridSize : ℕ) (p : Position) : Bool :=
  decide (0 ≤ p.x ∧ p.x < (gridSize : ℤ) ∧ 0 ≤ p.y ∧ p.y < (gridSize : ℤ))

/-- The stack loop of Go `findConnectedPositions`.  The Go loop has no
fuel; it terminates because every iteration either pops a skipped entry or
marks a fresh cell visited.  We make that measure explicit as a fuel
argument and return `none` on exhaustion; `findConnectedPositions` passes
fuel provably larger than the measure, so `none` is never produced there
(`floodLoop_isSome`). -/
def floodLoop (grid : Grid) (symbol : Symbol) :
    ℕ → List Position → List Position → List Position →
    Option (List Position × List Position)
  | _, [], visited, positions => some (positions, visited)
  | 0, _ :: _, _, _ => none
  | fuel + 1, current :: stack, visited, positions =>
    if inBoundsB grid.length current = false then
      floodLoop grid symbol fuel stack visited positions
    else if current ∈ visited ∨ cellAtP grid current ≠ symbol ∨
        IsRegularBirdSymbol (cellAtP grid current) = false then
      floodLoop grid symbol fuel stack visited positions
    else
      floodLoop grid symbol fuel
        (⟨current.x, current.y - 1⟩ :: ⟨current.x, current.y + 1⟩ ::
          ⟨current.x - 1, current.y⟩ :: ⟨current.x + 1, current.y⟩ :: stack)
        (current :: visited) (positions ++ [current])

/-- Go `findConnectedPositions`. -/
def findConnectedPositions (grid : Grid) (startX startY : ℤ) (symbol : Symbol)
    (visited : List Position) : List Position × List Position :=
  (floodLoop grid symbol (5 * (grid.length * grid.length) + 1)
    [⟨startX, startY⟩] visited []).getD ([], visited)

/-- Row-major cell order of the Go double loops (`(y, x)` pairs). -/
def rowMajorCells (n : ℕ) : List (ℕ × ℕ) :=
  (List.range n).flatMap fun y => (List.range n).map fun x => (y, x)

/-- Scan loop of Go `FindRegularConnections`, threading the shared
`visited` matrix (modelled as the list of marked positions). -/
def frcLoop (grid : Grid) (level : ℕ) :
    List (ℕ × ℕ) → List Position → List Connection → List Connection × List Position
  | [], visited, connections => (connections, visited)
  | (y, x) :: cells, visited, connections =>
    if (⟨(x : ℤ), (y : ℤ)⟩ : Position) ∉ visited ∧
        IsRegularBirdSymbol (cellAt grid x y) = true then
      let symbol := cellAt grid x y
      let (positions, visited') := findConnectedPositions grid x y symbol visited
      if GetMinConnection level ≤ positions.length then
        frcLoop grid level cells visited'
          (connections ++ [⟨symbol, positions, positions.length,
            calculatePayout symbol positions.length level 1⟩])
      else
        frcLoop grid level cells visited' connections
    else
      frcLoop grid level cells visited connections

/-- Go `FindRegularConnections`. -/
def FindRegularConnections (grid : Grid) (level : ℕ) : List Connection :=
  (frcLoop grid level (rowMajorCells grid.length) [] []).1

example :
    ((FindRegularConnections
      [[.purpleOwl, .purpleOwl, .greenOwl, .blueOwl],
       [.purpleOwl, .purpleOwl, .redOwl, .greenOwl],
       [.yellowOwl, .blueOwl, .orangeSlice, .redOwl],
       [.blueOwl, .greenOwl, .redOwl, .yellowOwl]] 1).map
      (fun c => (c.symbol, c.count, c.positions))) =
    [(.purpleOwl, 4, [⟨0, 0⟩, ⟨0, 1⟩, ⟨1, 1⟩, ⟨1, 0⟩])] := by decide

example :
    (FindRegularConnections
      [[.purpleOwl, .purpleOwl, .greenOwl, .blueOwl],
       [.purpleOwl, .redOwl, .redOwl, .greenOwl],
       [.yellowOwl, .blueOwl, .orangeSlice, .redOwl],
       [.blueOwl, .greenOwl, .redOwl, .yellowOwl]] 1) = [] := by decide

/-- Go `FreeSpins` sub-struct of `GameState`. -/
structure FreeSpinsState where
  remaining : ℤ
  totalAwarded : ℤ
  multiplier : ℚ
deriving DecidableEq, Repr

/-- Go `Bet` sub-struct of `GameState`. -/
structure Bet where
  amount : ℚ
  multiplier : ℤ
deriving DecidableEq, Repr

/-- Go `GameState`. -/
structure GameState where
  bet : Bet
  currentLevel : ℕ
  gridSize : ℕ
  grid : Grid
  stageProgress : ℤ
  gameMode : String
  freeSpins : FreeSpinsState
  totalWin : ℚ
  cascading : Bool
  lastConnections : List Connection
  cascadeCount : ℤ
  stageClearedSymbols : List StageClearedSymbol
deriving Repr

/-- Go `InitializeGameState`. -/
def InitializeGameState : GameState where
  bet := { amount := 0, multiplier := 0 }
  currentLevel := 1
  gridSize := Level1GridSize
  grid := []
  stageProgress := 0
  gameMode := "base"
  freeSpins := { remaining := 0, totalAwarded := 0, multiplier := 1 }
  totalWin := 0
  cascading := false
  lastConnections := []
  cascadeCount := 0
  stageClearedSymbols := []

/-- Go `UpdateGameStateForLevel`. -/
def UpdateGameStateForLevel (gameState : GameState) (newLevel : ℕ) : GameState :=
  { gameState with
      currentLevel := newLevel
      gridSize := GetGridSize newLevel
      stageProgress := 0 }

/-- Go `ValidateGridDimensions`. -/
def ValidateGridDimensions (grid : Grid) (level : ℕ) : Bool :=
  let expectedSize := GetGridSize level
  decide (grid.length = expectedSize) &&
    grid.all (fun row => decide (row.length = expectedSize))

/-- Go `RemoveStageClearedSymbolsSurgical`: blank each listed position
after the `0 <= X,Y < len(grid)` bounds check. -/
def RemoveStageClearedSymbolsSurgical (grid : Grid)
    (stageClearedSymbols : List StageClearedSymbol) : Grid :=
  stageClearedSymbols.foldl
    (fun g stageSymbol =>
      let pos := stageSymbol.position
      if 0 ≤ pos.x ∧ pos.x < (g.length : ℤ) ∧ 0 ≤ pos.y ∧ pos.y < (g.length : ℤ) then
        setCellP g pos .blank
      else g)
    grid

/-- Go `RemoveConnectionsSurgical`: blank every member position of every
connection (same bounds check), collecting the affected positions. -/
def RemoveConnectionsSurgical (grid : Grid) (connections : List Connection) :
    Grid × List Position :=
  connections.foldl
    (fun (acc : Grid × List Position) connection =>
      connection.positions.foldl
        (fun (acc : Grid × List Position) pos =>
          let (g, affectedPositions) := acc
          if 0 ≤ pos.x ∧ pos.x < (g.length : ℤ) ∧ 0 ≤ pos.y ∧ pos.y < (g.length : ℤ) then
            (setCellP g pos .blank, affectedPositions ++ [pos])
          else acc)
        acc)
    (grid, [])

/-- Column `x` of a grid, top to bottom. -/
def getColumn (grid : Grid) (x : ℕ) : List Symbol :=
  grid.map (fun row => row.getD x .blank)

/-- Write a column back (row lengths untouched elsewhere). -/
def setColumn (grid : Grid) (x : ℕ) (col : List Symbol) : Grid :=
  List.zipWith (fun row v => row.set x v) grid col

/-- The two-pointer "move existing symbols down" loop of the Go gravity
functions, expressed on the extracted column (the Go code writes
`grid[writePos][x]` and `grid[y][x]` in place; only column `x` is read or
written).  `ys` is `gridSize-1, ..., 0`; `writePos` is a Go `int` and may
end at `-1`, hence `ℤ`. -/
def compactLoop : List ℕ → List Symbol → ℤ → List Symbol × ℤ
  | [], col, writePos => (col, writePos)
  | y :: ys, col, writePos =>
    if col.getD y .blank ≠ .blank then
      let col' :=
        if (y : ℤ) ≠ writePos then
          (col.set writePos.toNat (col.getD y .blank)).set y .blank
        else col
      compactLoop ys col' (writePos - 1)
    else compactLoop ys col writePos

/-- The "fill empty spaces at the top" loop of the Go gravity functions:
for `y = 0 .. writePos`, re-check `hasFreeGameSymbol` on the whole current
grid, draw, write, and record the new position. -/
def refillLoop (level : ℕ) (forbidFreeGame : Bool) (x : ℕ) :
    List ℕ → Grid → Rng → List Position → Grid × Rng × List Position
  | [], g, r, newPositions => (g, r, newPositions)
  | y :: ys, g, r, newPositions =>
    let allowFreeGame := !hasFreeGameSymbol g && !forbidFreeGame
    let (s, r') := r.drawSym level (!allowFreeGame)
    refillLoop level forbidFreeGame x ys (setCell g x y s) r'
      (newPositions ++ [⟨(x : ℤ), (y : ℤ)⟩])

/-- Gravity body for one affected column: compact, then refill the vacated
top cells. -/
def gravityColumn (level : ℕ) (forbidFreeGame : Bool) (g : Grid) (x : ℕ) (r : Rng)
    (newPositions : List Position) : Grid × Rng × List Position :=
  let gridSize := g.length
  let (col', writePos) :=
    compactLoop (List.range gridSize).reverse (getColumn g x) ((gridSize : ℤ) - 1)
  refillLoop level forbidFreeGame x (List.range ((writePos + 1).toNat))
    (setColumn g x col') r newPositions

/-- First-insertion-order deduplication: models both the Go
`map[int]bool` of affected columns and the Go `map[string]bool` of allowed
position keys.  Go map iteration order is unspecified; the claims proved
below hold for every order, and we fix first-insertion order to stay
deterministic. -/
def dedupKeys {α : Type} [DecidableEq α] (xs : List α) : List α :=
  xs.foldl (fun acc x => if x ∈ acc then acc else acc ++ [x]) []

/-- Go `ApplyGravitySurgical`: gravity only on the columns of the removed
stage-cleared symbols, returning the refilled positions. -/
def ApplyGravitySurgical (grid : Grid) (stageClearedSymbols : List StageClearedSymbol)
    (level : ℕ) (r : Rng) (forbidFreeGame : Bool) : Grid × Rng × List Position :=
  let gridSize := grid.length
  let affectedColumns := dedupKeys (stageClearedSymbols.map (fun s => s.position.x))
  affectedColumns.foldl
    (fun (acc : Grid × Rng × List Position) x =>
      let (g, r, newPositions) := acc
      if 0 ≤ x ∧ x < (gridSize : ℤ) then
        gravityColumn level forbidFreeGame g x.toNat r newPositions
      else acc)
    (grid, r, [])

/-- Go `ApplyGravitySurgicalForCascade`: identical to `ApplyGravitySurgical`
except that the affected columns come from a list of removed positions. -/
def ApplyGravitySurgicalForCascade (grid : Grid) (affectedPositions : List Position)
    (level : ℕ) (r : Rng) (forbidFreeGame : Bool) : Grid × Rng × List Position :=
  let gridSize := grid.length
  let affectedColumns := dedupKeys (affectedPositions.map (fun p => p.x))
  affectedColumns.foldl
    (fun (acc : Grid × Rng × List Position) x =>
      let (g, r, newPositions) := acc
      if 0 ≤ x ∧ x < (gridSize : ℤ) then
        gravityColumn level forbidFreeGame g x.toNat r newPositions
      else acc)
    (grid, r, [])

/-- Inner key loop of one surgical-loss attempt: walk the allowed
positions, redraw each (bounds check: `x` against the row count, `y`
against `len(testGrid[0])`, exactly as in Go), stop successfully as soon
as the modified copy has no regular connections, and give up on the
attempt once `modificationsCount` positions were modified. -/
def surgicalLossModLoop (level : ℕ) (forbidFreeGame : Bool) (modificationsCount : ℕ) :
    List Position → ℕ → Grid → Rng → Option Grid × Rng
  | [], _, _, r => (none, r)
  | posKey :: keys, modified, testGrid, r =>
    if modificationsCount ≤ modified then (none, r)
    else if 0 ≤ posKey.x ∧ posKey.x < (testGrid.length : ℤ) ∧ 0 ≤ posKey.y ∧
        posKey.y < (((testGrid.getD 0 []).length : ℕ) : ℤ) then
      let (newSymbol, r') := r.drawSym level forbidFreeGame
      let testGrid' := setCellP testGrid posKey newSymbol
      if FindRegularConnections testGrid' level = [] then (some testGrid', r')
      else surgicalLossModLoop level forbidFreeGame modificationsCount keys (modified + 1)
        testGrid' r'
    else surgicalLossModLoop level forbidFreeGame modificationsCount keys modified testGrid r

/-- The 50-attempt loop of the Go surgical-loss functions; each attempt
starts from a fresh copy of the live grid. -/
def surgicalLossAttemptLoop (level : ℕ) (forbidFreeGame : Bool) (allowed : List Position)
    (modificationsCount : ℕ) (grid : Grid) : ℕ → Rng → Option Grid × Rng
  | 0, r => (none, r)
  | attempts + 1, r =>
    let (result, r') := surgicalLossModLoop level forbidFreeGame modificationsCount
      allowed 0 grid r
    match result with
    | some g => (some g, r')
    | none => surgicalLossAttemptLoop level forbidFreeGame allowed modificationsCount grid
        attempts r'

/-- Go `ApplySurgicalLoss` (the stage-cleared flavour, modification cap
`min(3, len(allowed))`).  `originalGrid` and `stageClearedSymbols` are
parameters of the Go function that its body never reads. -/
def ApplySurgicalLoss (gameState : GameState) (originalGrid : Grid)
    (stageClearedSymbols : List StageClearedSymbol) (level : ℕ) (r : Rng)
    (newPositions : List Position) : Bool × GameState × Rng :=
  let allowed := dedupKeys newPositions
  let connections := FindRegularConnections gameState.grid level
  if connections = [] then (true, gameState, r)
  else
    let modificationsCount := min 3 allowed.length
    let forbidFreeGame := decide (gameState.gameMode = "freeSpins")
    let (result, r') := surgicalLossAttemptLoop level forbidFreeGame allowed
      modificationsCount gameState.grid 50 r
    match result with
    | some g => (true, { gameState with grid := g }, r')
    | none => (false, gameState, r')

/-- Go `ApplySurgicalLossForCascade`: identical except for the cap
`min(4, len(allowed))` and the parameter list. -/
def ApplySurgicalLossForCascade (gameState : GameState) (originalGrid : Grid)
    (newPositions : List Position) (level : ℕ) (r : Rng) : Bool × GameState × Rng :=
  let allowed := dedupKeys newPositions
  let connections := FindRegularConnections gameState.grid level
  if connections = [] then (true, gameState, r)
  else
    let modificationsCount := min 4 allowed.length
    let forbidFreeGame := decide (gameState.gameMode = "freeSpins")
    let (result, r') := surgicalLossAttemptLoop level forbidFreeGame allowed
      modificationsCount gameState.grid 50 r
    match result with
    | some g => (true, { gameState with grid := g }, r')
    | none => (false, gameState, r')

example :
    compactLoop (List.range 4).reverse [.purpleOwl, .blank, .redOwl, .blank] 3 =
      ([.blank, .blank, .purpleOwl, .redOwl], 1) := by decide

example :
    compactLoop (List.range 3).reverse [.purpleOwl, .redOwl, .greenOwl] 2 =
      ([.purpleOwl, .redOwl, .greenOwl], -1) := by decide

example :
    compactLoop (List.range 3).reverse [.blank, .blank, .blank] 2 =
      ([.blank, .blank, .blank], 2) := by decide

/-- The Go local `birdSymbols` slice used by the forced-grid builders. -/
def birdSymbols : List Symbol :=
  [.purpleOwl, .greenOwl, .yellowOwl, .blueOwl, .redOwl]

/-- Go `ForceWinGrid`: fresh grid, then overwrite a random horizontal run
of the minimum connection length with one random bird symbol. -/
def ForceWinGrid (level : ℕ) (r : Rng) (forbidFreeGame : Bool) : Grid × Rng :=
  let gridSize := GetGridSize level
  let (grid, r1) := GenerateGrid level r forbidFreeGame
  let minConnection := GetMinConnection level
  let (i, r2) := r1.intn birdSymbols.length
  let targetSymbol := birdSymbols.getD i .purpleOwl
  let (startX, r3) := r2.intn (gridSize - minConnection + 1)
  let (y, r4) := r3.intn gridSize
  ((List.range minConnection).foldl (fun g j => setCell g (startX + j) y targetSymbol) grid,
    r4)

/-- Retry loop of Go `GenerateGridWithWin` (up to 100 attempts). -/
def generateWithWinLoop (level : ℕ) (forbidFreeGame : Bool) :
    ℕ → Rng → Option Grid × Rng
  | 0, r => (none, r)
  | n + 1, r =>
    let (grid, r') := GenerateGrid level r forbidFreeGame
    let connections := FindRegularConnections grid level
    if connections.length > 0 then (some grid, r')
    else generateWithWinLoop level forbidFreeGame n r'

/-- Go `GenerateGridWithWin`. -/
def GenerateGridWithWin (level : ℕ) (r : Rng) (forbidFreeGame : Bool) : Grid × Rng :=
  match generateWithWinLoop level forbidFreeGame 100 r with
  | (some grid, r') => (grid, r')
  | (none, r') => ForceWinGrid level r' forbidFreeGame

/-- The `availableSymbols` pruning of Go `ForceLossGrid`: drop (the first
occurrence of) the left and upper neighbours when they are bird symbols. -/
def forceLossAvailable (upC leftC : Option Symbol) : List Symbol :=
  let a1 := match leftC with
    | some c => if c ≠ .blank ∧ IsRegularBirdSymbol c = true then birdSymbols.erase c
        else birdSymbols
    | none => birdSymbols
  match upC with
  | some c => if c ≠ .blank ∧ IsRegularBirdSymbol c = true then a1.erase c else a1
  | none => a1

/-- Cell loop of one `ForceLossGrid` row (`row` is the portion of the
current row built so far, supplying the left neighbour). -/
def forceLossRowLoop (prevRow : List Symbol) (hasPrev : Bool) :
    List ℕ → List Symbol → Rng → List Symbol × Rng
  | [], row, r => (row, r)
  | x :: xs, row, r =>
    let leftC : Option Symbol := if 0 < x then some (row.getD (x - 1) .blank) else none
    let upC : Option Symbol := if hasPrev then some (prevRow.getD x .blank) else none
    let availableSymbols := forceLossAvailable upC leftC
    let (s, r') :=
      if 0 < availableSymbols.length then
        let (i, r2) := r.intn availableSymbols.length
        (availableSymbols.getD i .purpleOwl, r2)
      else
        let (i, r2) := r.intn birdSymbols.length
        (birdSymbols.getD i .purpleOwl, r2)
    forceLossRowLoop prevRow hasPrev xs (row ++ [s]) r'

/-- Row loop of Go `ForceLossGrid`. -/
def forceLossRows (n : ℕ) : List ℕ → Grid → Rng → Grid × Rng
  | [], grid, r => (grid, r)
  | y :: ys, grid, r =>
    let (row, r') :=
      forceLossRowLoop (grid.getD (y - 1) []) (decide (0 < y)) (List.range n) [] r
    forceLossRows n ys (grid ++ [row]) r'

/-- Final sweep of Go `ForceLossGrid` when `forbidFreeGame` is set:
replace any `free_game` cell by a random bird (the builder never places
one, so the sweep never fires, but we keep it). -/
def forceLossSweep : List (ℕ × ℕ) → Grid → Rng → Grid × Rng
  | [], g, r => (g, r)
  | (y, x) :: cells, g, r =>
    if cellAt g x y = .freeGame then
      let (i, r') := r.intn birdSymbols.length
      forceLossSweep cells (setCell g x y (birdSymbols.getD i .purpleOwl)) r'
    else forceLossSweep cells g r

/-- Go `ForceLossGrid`. -/
def ForceLossGrid (level : ℕ) (r : Rng) (forbidFreeGame : Bool) : Grid × Rng :=
  let gridSize := GetGridSize level
  let (grid, r1) := forceLossRows gridSize (List.range gridSize) [] r
  if forbidFreeGame then forceLossSweep (rowMajorCells gridSize) grid r1
  else (grid, r1)

/-- Retry loop of Go `GenerateLossGrid` (up to 100 attempts). -/
def generateLossLoop (level : ℕ) (forbidFreeGame : Bool) :
    ℕ → Rng → Option Grid × Rng
  | 0, r => (none, r)
  | n + 1, r =>
    let (grid, r') := GenerateGrid level r forbidFreeGame
    let connections := FindRegularConnections grid level
    if connections.length = 0 then (some grid, r')
    else generateLossLoop level forbidFreeGame n r'

/-- Go `GenerateLossGrid`. -/
def GenerateLossGrid (level : ℕ) (r : Rng) (forbidFreeGame : Bool) : Grid × Rng :=
  match generateLossLoop level forbidFreeGame 100 r with
  | (some grid, r') => (grid, r')
  | (none, r') => ForceLossGrid level r' forbidFreeGame

/-- Go `GetRandomFreeSpinMultiplier`. -/
def GetRandomFreeSpinMultiplier (r : Rng) : ℚ × Rng :=
  let multipliers : List ℚ :=
    [1, mkRat 3 2, 2, mkRat 5 2, 3, mkRat 7 2, 4, mkRat 9 2, 5]
  let (i, r') := r.intn multipliers.length
  (multipliers.getD i 1, r')

/-- Go `isValidBetAmount` (the float literals 0.1 .. 1.0 are modelled as
the exact decimal rationals they denote). -/
def isValidBetAmount (amount : ℚ) : Bool :=
  [mkRat 1 10, mkRat 2 10, mkRat 3 10, mkRat 5 10, (1 : ℚ)].any
    (fun valid => decide (amount = valid))

/-- Go `validateRequest`; `some msg` is the returned error. -/
def validateRequest (clientID gameID playerID betID : String) (betAmount : ℚ) :
    Option String :=
  if clientID = "" then some "client_id is required"
  else if gameID = "" then some "game_id is required"
  else if playerID = "" then some "player_id is required"
  else if betID = "" then some "bet_id is required"
  else if isValidBetAmount betAmount = false then
    some "invalid bet amount, allowed values are 0.1, 0.2, 0.3, 0.5, 1.0"
  else none

/-- Go `BetAmountToMultiplier` (a Go map; indexing a missing key yields the
zero value 0, which is what `SpinHandler` stores for an unmapped amount). -/
def BetAmountToMultiplier (amount : ℚ) : ℤ :=
  if amount = mkRat 1 10 then 1
  else if amount = mkRat 2 10 then 2
  else if amount = mkRat 3 10 then 3
  else if amount = mkRat 5 10 then 5
  else if amount = 1 then 10
  else if amount = 2 then 20
  else if amount = mkRat 5 2 then 25
  else 0

/-- The identifier/state payload shared by the Go `SpinRequest`,
`ProcessStageClearedRequest` and `CascadeRequest` structs (their field
lists are identical). -/
structure Request where
  gameState : GameState
  clientID : String
  gameID : String
  playerID : String
  betID : String

/-- The two outbound services, modelled by their per-request results:
`none` is the corresponding Go error return. -/
structure Services where
  rtp : Option ℚ
  prefOutcome : Option String

/-- Go `SpinResponse`. -/
structure SpinResponse where
  status : String
  message : String
  gameState : GameState
  stageClearedSymbols : List StageClearedSymbol
  hasStageCleared : Bool
  totalCost : ℚ

/-- Go `ProcessStageClearedResponse`. -/
structure ProcessStageClearedResponse where
  status : String
  message : String
  gameState : GameState
  stageClearedCount : ℕ
  levelAdvanced : Bool
  oldLevel : ℕ
  newLevel : ℕ
  connections : List Connection
  totalCost : ℚ

/-- Go `CascadeResponse`. -/
structure CascadeResponse where
  status : String
  message : String
  gameState : GameState
  connections : List Connection
  stageClearedSymbols : List StageClearedSymbol
  hasStageCleared : Bool
  totalCost : ℚ

/-- The `Calculate total winnings` loop shared verbatim by the three
handlers: recompute each connection's payout at the state's bet multiplier,
store it back, and sum. -/
def handlerWinnings (connections : List Connection) (level : ℕ) (betMultiplier : ℤ) :
    List Connection × ℚ :=
  connections.foldl
    (fun (acc : List Connection × ℚ) connection =>
      let payout := calculatePayout connection.symbol connection.count level betMultiplier
      (acc.1 ++ [{ connection with payout := payout }], acc.2 + payout))
    ([], 0)

/-- The free-spin scaling and final rounding the handlers apply to the
summed winnings. -/
def scaleWinnings (totalWinnings : ℚ) (gameMode : String) (fsMultiplier : ℚ) : ℚ :=
  round (if gameMode = "freeSpins" then totalWinnings * fsMultiplier else totalWinnings)

/-- The state-preparation prefix of Go `SpinHandler`: default initialization
for level 0, defaulting the game mode, grid-size correction, and the bet
multiplier assignment. -/
def spinPrepare (req : Request) : GameState :=
  let gameState := if req.gameState.currentLevel = 0 then InitializeGameState
    else req.gameState
  let gameState := if gameState.gameMode = "" then { gameState with gameMode := "base" }
    else gameState
  let expectedGridSize := GetGridSize gameState.currentLevel
  let gameState := if gameState.gridSize ≠ expectedGridSize then
      { gameState with gridSize := expectedGridSize }
    else gameState
  { gameState with
    bet := { gameState.bet with multiplier := BetAmountToMultiplier gameState.bet.amount } }

/-- The `Get RTP and call RNG` block of Go `SpinHandler`: on a preferred
loss, replace the grid by a loss grid, rescan stage-cleared symbols, and
zero the connections and winnings. -/
def spinRngAdjust (gameState : GameState) (connections : List Connection)
    (stageClearedSymbols : List StageClearedSymbol) (totalWinnings : ℚ)
    (svc : Services) (r : Rng) :
    Except String (GameState × List Connection × List StageClearedSymbol × ℚ × Rng) :=
  if 0 < connections.length then
    match svc.rtp with
    | none => .error "Failed to retrieve game settings"
    | some _rtp =>
      match svc.prefOutcome with
      | none => .error "Failed to determine outcome"
      | some prefOutcome =>
        if prefOutcome = "loss" then
          let forbidFreeGame := decide (gameState.gameMode = "freeSpins")
          let (grid, r') := GenerateLossGrid gameState.currentLevel r forbidFreeGame
          let gameState := { gameState with grid := grid }
          let stageClearedSymbols :=
            FindStageClearedSymbols gameState.grid gameState.currentLevel
          let gameState := { gameState with stageClearedSymbols := stageClearedSymbols }
          .ok (gameState, [], stageClearedSymbols, 0, r')
        else .ok (gameState, connections, stageClearedSymbols, totalWinnings, r)
  else .ok (gameState, connections, stageClearedSymbols, totalWinnings, r)

/-- The tail of Go `SpinHandler`: cascade-count reset, free-game trigger
check, free-spin bookkeeping, cost computation and response assembly. -/
def spinFinish (gameState : GameState) (connections : List Connection)
    (stageClearedSymbols : List StageClearedSymbol) (totalWinnings : ℚ) (r : Rng) :
    SpinResponse :=
  let gameState := { gameState with
    cascadeCount := 0
    totalWin := totalWinnings
    lastConnections := connections
    cascading := decide (0 < connections.length) }
  let freeGameCount := CountFreeGameSymbols gameState.grid
  let (gameState, _r) :=
    if gameState.gameMode = "base" ∧ 0 < freeGameCount then
      let (mult, r') := GetRandomFreeSpinMultiplier r
      ({ gameState with
          gameMode := "freeSpins"
          freeSpins := ⟨FreeSpinsAwarded, FreeSpinsAwarded, mult⟩ }, r')
    else (gameState, r)
  let gameState :=
    if gameState.gameMode = "freeSpins" then
      let remaining := gameState.freeSpins.remaining - 1
      if remaining ≤ 0 then
        { gameState with
          gameMode := "base"
          freeSpins := { remaining := 0, totalAwarded := 0, multiplier := 1 } }
      else { gameState with
        freeSpins := { gameState.freeSpins with remaining := remaining } }
    else gameState
  let totalCost : ℚ := if gameState.gameMode = "freeSpins" then 0
    else gameState.bet.amount
  { status := "success"
    message := ""
    gameState := gameState
    stageClearedSymbols := stageClearedSymbols
    hasStageCleared := decide (0 < stageClearedSymbols.length)
    totalCost := totalCost }

/-- Go `SpinHandler` (transport parsing elided; `Except.error` carries the
`message` of the Go error JSON), assembled from its three stages. -/
def SpinHandler (req : Request) (svc : Services) (r : Rng) : Except String SpinResponse :=
  match validateRequest req.clientID req.gameID req.playerID req.betID
      req.gameState.bet.amount with
  | some msg => .error msg
  | none =>
    let gameState := spinPrepare req
    let forbidFreeGame := decide (gameState.gameMode = "freeSpins")
    let (grid, r) := GenerateGridWithWin gameState.currentLevel r forbidFreeGame
    let gameState := { gameState with grid := grid }
    let stageClearedSymbols := FindStageClearedSymbols gameState.grid gameState.currentLevel
    let gameState := { gameState with stageClearedSymbols := stageClearedSymbols }
    let connections := FindRegularConnections gameState.grid gameState.currentLevel
    let (connections, totalWinnings) :=
      handlerWinnings connections gameState.currentLevel gameState.bet.multiplier
    let totalWinnings := scaleWinnings totalWinnings gameState.gameMode
      gameState.freeSpins.multiplier
    match spinRngAdjust gameState connections stageClearedSymbols totalWinnings svc r with
    | .error msg => .error msg
    | .ok (gameState, connections, stageClearedSymbols, totalWinnings, r) =>
      .ok (spinFinish gameState connections stageClearedSymbols totalWinnings r)

/-- The stage-cleared working list of `ProcessStageClearedHandler`: the
request's pending list, or a fresh grid scan when that list is empty. -/
def effectiveStageCleared (gameState : GameState) : List StageClearedSymbol :=
  if gameState.stageClearedSymbols.length = 0 then
    FindStageClearedSymbols gameState.grid gameState.currentLevel
  else gameState.stageClearedSymbols

/-- The `SURGICAL LOSS` block of `ProcessStageClearedHandler` (RTP lookup,
outcome call, surgical loss with bypass-on-failure); the `Bool` in the
result is the handler's `rngBypassed` local. -/
def stageClearedRngSection (gameState : GameState) (originalGrid : Grid)
    (stageClearedSymbols : List StageClearedSymbol) (newPositions : List Position)
    (connections : List Connection) (totalWinnings : ℚ) (svc : Services) (r : Rng) :
    Except String (GameState × List Connection × ℚ × Bool × Rng) :=
  if 0 < connections.length then
    match svc.rtp with
    | none => .error "Failed to retrieve game settings"
    | some _rtp =>
      match svc.prefOutcome with
      | none => .error "Failed to determine outcome"
      | some prefOutcome =>
        if prefOutcome = "loss" then
          let (success, gameState', r') := ApplySurgicalLoss gameState originalGrid
            stageClearedSymbols gameState.currentLevel r newPositions
          if success = false then .ok (gameState', connections, totalWinnings, true, r')
          else .ok (gameState', [], 0, false, r')
        else .ok (gameState, connections, totalWinnings, false, r)
  else .ok (gameState, connections, totalWinnings, false, r)

/-- Go `ProcessStageClearedHandler`. -/
def ProcessStageClearedHandler (req : Request) (svc : Services) (r : Rng) :
    Except String ProcessStageClearedResponse :=
  match validateRequest req.clientID req.gameID req.playerID req.betID
      req.gameState.bet.amount with
  | some msg => .error msg
  | none =>
    if ValidateGridDimensions req.gameState.grid req.gameState.currentLevel = false then
      .error "Invalid grid dimensions"
    else
      let gameState := req.gameState
      let stageClearedSymbols := effectiveStageCleared gameState
      let stageClearedCount := stageClearedSymbols.length
      let originalGrid := gameState.grid
      let oldLevel := gameState.currentLevel
      let grid1 := RemoveStageClearedSymbolsSurgical gameState.grid stageClearedSymbols
      let (grid2, r, newPositions) := ApplyGravitySurgical grid1 stageClearedSymbols
        gameState.currentLevel r (decide (gameState.gameMode = "freeSpins"))
      let gameState := { gameState with
        grid := grid2
        stageProgress := gameState.stageProgress + stageClearedSymbols.length }
      if StageProgressTarget ≤ gameState.stageProgress then
        let newLevel := AdvanceLevel oldLevel
        let excessProgress := gameState.stageProgress - StageProgressTarget
        let gameState := UpdateGameStateForLevel gameState newLevel
        let gameState := { gameState with stageProgress := excessProgress }
        let (grid3, _r) := GenerateGrid newLevel r false
        let gameState := { gameState with grid := grid3, stageClearedSymbols := [] }
        .ok {
          status := "success"
          message := ""
          gameState := gameState
          stageClearedCount := stageClearedSymbols.length
          levelAdvanced := true
          oldLevel := oldLevel
          newLevel := newLevel
          connections := []
          totalCost := 0 }
      else
        let gameState := { gameState with stageClearedSymbols := [] }
        let connections := FindRegularConnections gameState.grid gameState.currentLevel
        let (connections, totalWinnings) :=
          handlerWinnings connections gameState.currentLevel gameState.bet.multiplier
        let totalWinnings := scaleWinnings totalWinnings gameState.gameMode
          gameState.freeSpins.multiplier
        match stageClearedRngSection gameState originalGrid stageClearedSymbols
            newPositions connections totalWinnings svc r with
        | .error msg => .error msg
        | .ok (gameState, connections, totalWinnings, _rngBypassed, _r) =>
          let gameState := { gameState with
            totalWin := totalWinnings
            lastConnections := connections
            cascading := decide (0 < connections.length)
            cascadeCount := if 0 < connections.length then 1 else 0 }
          .ok {
            status := "success"
            message := ""
            gameState := gameState
            stageClearedCount := stageClearedCount
            levelAdvanced := false
            oldLevel := oldLevel
            newLevel := oldLevel
            connections := connections
            totalCost := 0 }

/-- The `SURGICAL LOSS` block of `CascadeHandler`. -/
def cascadeRngSection (gameState : GameState) (originalGrid : Grid)
    (newPositions : List Position) (connections : List Connection) (totalWinnings : ℚ)
    (svc : Services) (r : Rng) :
    Except String (GameState × List Connection × ℚ × Bool × Rng) :=
  if 0 < connections.length then
    match svc.rtp with
    | none => .error "Failed to retrieve game settings"
    | some _rtp =>
      match svc.prefOutcome with
      | none => .error "Failed to determine outcome"
      | some prefOutcome =>
        if prefOutcome = "loss" then
          let (success, gameState', r') := ApplySurgicalLossForCascade gameState
            originalGrid newPositions gameState.currentLevel r
          if success = false then .ok (gameState', connections, totalWinnings, true, r')
          else .ok (gameState', [], 0, false, r')
        else .ok (gameState, connections, totalWinnings, false, r)
  else .ok (gameState, connections, totalWinnings, false, r)

/-- The `Process cascade surgically` block of Go `CascadeHandler`: remove
the previous connections (or detect directly on the first call of a chain),
apply surgical gravity, and report the connections found, the affected
positions and the refilled positions. -/
def cascadeProcess (gameState : GameState) (r : Rng) :
    GameState × List Connection × List Position × List Position × Rng :=
  if 1 ≤ gameState.cascadeCount ∧ 0 < gameState.lastConnections.length then
    let (grid1, affectedPositions) :=
      RemoveConnectionsSurgical gameState.grid gameState.lastConnections
    let (grid2, r', newPositions) := ApplyGravitySurgicalForCascade grid1
      affectedPositions gameState.currentLevel r
      (decide (gameState.gameMode = "freeSpins"))
    ({ gameState with grid := grid2 }, ([] : List Connection), affectedPositions,
      newPositions, r')
  else
    let connections := FindRegularConnections gameState.grid gameState.currentLevel
    if 0 < connections.length then
      let affectedPositions := connections.foldl (fun acc c => acc ++ c.positions) []
      let (grid2, r', newPositions) := ApplyGravitySurgicalForCascade gameState.grid
        affectedPositions gameState.currentLevel r
        (decide (gameState.gameMode = "freeSpins"))
      ({ gameState with grid := grid2 }, connections, affectedPositions,
        newPositions, r')
    else (gameState, connections, [], [], r)

/-- The tail of Go `CascadeHandler`: stage-cleared detection, free-game
trigger check (skipped on an RNG bypass), state update and response
assembly. -/
def cascadeFinish (gameState : GameState) (connections : List Connection)
    (totalWinnings : ℚ) (rngBypassed : Bool) (r : Rng) : CascadeResponse :=
  let stageClearedSymbols := FindStageClearedSymbols gameState.grid gameState.currentLevel
  let hasStageCleared := decide (0 < stageClearedSymbols.length)
  let gameState := { gameState with stageClearedSymbols := stageClearedSymbols }
  let (gameState, _r) :=
    if connections.length = 0 ∧ rngBypassed = false then
      let freeGameCount := CountFreeGameSymbols gameState.grid
      if gameState.gameMode = "base" ∧ 0 < freeGameCount then
        let (mult, r') := GetRandomFreeSpinMultiplier r
        ({ gameState with
            gameMode := "freeSpins"
            freeSpins := ⟨FreeSpinsAwarded, FreeSpinsAwarded, mult⟩ }, r')
      else (gameState, r)
    else (gameState, r)
  let gameState := { gameState with
    totalWin := totalWinnings
    lastConnections := connections
    cascading := decide (0 < connections.length) }
  { status := "success"
    message := ""
    gameState := gameState
    connections := connections
    stageClearedSymbols := gameState.stageClearedSymbols
    hasStageCleared := hasStageCleared
    totalCost := 0 }

/-- The middle of Go `CascadeHandler`: cascade-count increment, surgical
cascade processing, re-detection and winnings computation.  Returns the
working state, the refilled positions, the (payout-updated) connections,
the scaled total winnings, and the threaded random source. -/
def cascadeMid (req : Request) (r : Rng) :
    GameState × List Position × List Connection × ℚ × Rng :=
  let gameState := { req.gameState with cascadeCount := req.gameState.cascadeCount + 1 }
  let (gameState, connections, _affectedPositions, newPositions, r) :=
    cascadeProcess gameState r
  let connections :=
    if 1 ≤ gameState.cascadeCount ∨ connections.length = 0 then
      FindRegularConnections gameState.grid gameState.currentLevel
    else connections
  let (connections, totalWinnings) :=
    handlerWinnings connections gameState.currentLevel gameState.bet.multiplier
  let totalWinnings := scaleWinnings totalWinnings gameState.gameMode
    gameState.freeSpins.multiplier
  (gameState, newPositions, connections, totalWinnings, r)

/-- Go `CascadeHandler`, assembled from its stages (`originalGrid` is the
grid copied before processing; the increment does not touch it, so it equals
the request's grid). -/
def CascadeHandler (req : Request) (svc : Services) (r : Rng) :
    Except String CascadeResponse :=
  match validateRequest req.clientID req.gameID req.playerID req.betID
      req.gameState.bet.amount with
  | some msg => .error msg
  | none =>
    if ValidateGridDimensions req.gameState.grid req.gameState.currentLevel = false then
      .error "Invalid grid dimensions"
    else
      let originalGrid := req.gameState.grid
      let (gameState, newPositions, connections, totalWinnings, r) := cascadeMid req r
      match cascadeRngSection gameState originalGrid newPositions connections
          totalWinnings svc r with
      | .error msg => .error msg
      | .ok (gameState, connections, totalWinnings, rngBypassed, r) =>
        .ok (cascadeFinish gameState connections totalWinnings rngBypassed r)

/-! ### Grid shape lemmas -/

/-- A grid is `n` rows of `n` cells. -/
def gridShape (g : Grid) (n : ℕ) : Prop :=
  g.length = n ∧ ∀ row ∈ g, row.length = n

theorem gridShape_of_validate {g : Grid} {level : ℕ}
    (h : ValidateGridDimensions g level = true) : gridShape g (GetGridSize level) := by
  unfold ValidateGridDimensions at h
  simp only [Bool.and_eq_true, decide_eq_true_eq, List.all_eq_true] at h
  exact ⟨h.1, fun row hrow => h.2 row hrow⟩

theorem setCell_length (g : Grid) (x y : ℕ) (s : Symbol) :
    (setCell g x y s).length = g.length := by
  unfold setCell
  exact List.length_set ..

theorem getD_set_row (g : Grid) (y : ℕ) (row : List Symbol) (j : ℕ) :
    (g.set y row).getD j [] = if y = j ∧ y < g.length then row else g.getD j [] := by
  simp only [List.getD_eq_getElem?_getD, List.getElem?_set]
  by_cases hyj : y = j
  · subst hyj
    by_cases hy : y < g.length
    · simp [hy]
    · rw [if_pos rfl, if_neg hy, if_neg (by simp [hy]),
        List.getElem?_eq_none (Nat.le_of_not_lt hy)]
  · simp [hyj]

theorem getD_mem_of_lt {g : Grid} {y : ℕ} (hy : y < g.length) : g.getD y [] ∈ g := by
  rw [List.getD_eq_getElem?_getD, List.getElem?_eq_getElem hy]
  exact List.getElem_mem hy

theorem setCell_gridShape {g : Grid} {n : ℕ} (hg : gridShape g n) (x y : ℕ) (s : Symbol) :
    gridShape (setCell g x y s) n := by
  obtain ⟨hlen, hrows⟩ := hg
  refine ⟨by rw [setCell_length]; exact hlen, ?_⟩
  intro row hrow
  unfold setCell at hrow
  by_cases hy : y < g.length
  · rcases List.mem_or_eq_of_mem_set hrow with h | h
    · exact hrows row h
    · subst h
      rw [List.length_set]
      exact hrows _ (getD_mem_of_lt hy)
  · rw [List.set_eq_of_length_le (Nat.le_of_not_lt hy)] at hrow
    exact hrows row hrow

/-- A `foldl` preserves any invariant its step preserves. -/
theorem foldl_invariant {α β : Type} {P : α → Prop} (f : α → β → α)
    (hstep : ∀ a b, P a → P (f a b)) :
    ∀ (l : List β) (a : α), P a → P (l.foldl f a) := by
  intro l
  induction l with
  | nil => intro a h; exact h
  | cons b bs ih =>
    intro a h
    simp only [List.foldl_cons]
    exact ih _ (hstep a b h)

theorem setCellP_gridShape {g : Grid} {n : ℕ} (hg : gridShape g n) (p : Position) (s : Symbol) :
    gridShape (setCellP g p s) n :=
  setCell_gridShape hg _ _ s

theorem RemoveStageClearedSymbolsSurgical_gridShape {g : Grid} {n : ℕ} (hg : gridShape g n)
    (scs : List StageClearedSymbol) :
    gridShape (RemoveStageClearedSymbolsSurgical g scs) n := by
  unfold RemoveStageClearedSymbolsSurgical
  induction scs generalizing g with
  | nil => exact hg
  | cons s rest ih =>
    simp only [List.foldl_cons]
    apply ih
    split
    · exact setCellP_gridShape hg _ _
    · exact hg

theorem RemoveConnectionsSurgical_gridShape {g : Grid} {n : ℕ} (hg : gridShape g n)
    (connections : List Connection) :
    gridShape (RemoveConnectionsSurgical g connections).1 n := by
  unfold RemoveConnectionsSurgical
  suffices H : ∀ (cs : List Connection) (acc : Grid × List Position),
      gridShape acc.1 n → gridShape (cs.foldl _ acc).1 n from
    H connections (g, []) hg
  intro cs
  induction cs with
  | nil => intro acc h; exact h
  | cons c rest ih =>
    intro acc hacc
    simp only [List.foldl_cons]
    apply ih
    clear ih
    induction c.positions generalizing acc with
    | nil => exact hacc
    | cons p ps ihp =>
      simp only [List.foldl_cons]
      apply ihp
      obtain ⟨gacc, pacc⟩ := acc
      dsimp only
      split
      · exact ⟨setCellP_gridShape hacc _ _ |>.1, (setCellP_gridShape hacc _ _).2⟩
      · exact hacc

theorem compactLoop_length (ys : List ℕ) (col : List Symbol) (wp : ℤ) :
    (compactLoop ys col wp).1.length = col.length := by
  induction ys generalizing col wp with
  | nil => rfl
  | cons y ys ih =>
    unfold compactLoop
    split
    · split
      · rw [ih]
        simp [List.length_set]
      · rw [ih]
    · rw [ih]

theorem getColumn_length (g : Grid) (x : ℕ) : (getColumn g x).length = g.length := by
  unfold getColumn
  exact List.length_map ..

theorem setColumn_gridShape {g : Grid} {n : ℕ} (hg : gridShape g n) (x : ℕ)
    {col : List Symbol} (hcol : col.length = g.length) :
    gridShape (setColumn g x col) n := by
  obtain ⟨hlen, hrows⟩ := hg
  constructor
  · unfold setColumn
    rw [List.length_zipWith, hcol, hlen, min_self]
  · intro row hrow
    unfold setColumn at hrow
    rw [List.mem_iff_getElem] at hrow
    obtain ⟨i, hi, hrow⟩ := hrow
    rw [List.getElem_zipWith] at hrow
    rw [← hrow, List.length_set]
    apply hrows
    apply List.getElem_mem

theorem refillLoop_gridShape {n : ℕ} (level : ℕ) (forbid : Bool) (x : ℕ) (ys : List ℕ)
    {g : Grid} (hg : gridShape g n) (r : Rng) (nps : List Position) :
    gridShape (refillLoop level forbid x ys g r nps).1 n := by
  induction ys generalizing g r nps with
  | nil => exact hg
  | cons y ys ih =>
    unfold refillLoop
    exact ih (setCell_gridShape hg _ _ _) _ _

theorem gravityColumn_gridShape {n : ℕ} (level : ℕ) (forbid : Bool) {g : Grid}
    (hg : gridShape g n) (x : ℕ) (r : Rng) (nps : List Position) :
    gridShape (gravityColumn level forbid g x r nps).1 n := by
  unfold gravityColumn
  apply refillLoop_gridShape
  apply setColumn_gridShape hg
  rw [compactLoop_length, getColumn_length]

theorem ApplyGravitySurgical_gridShape {g : Grid} {n : ℕ} (hg : gridShape g n)
    (scs : List StageClearedSymbol) (level : ℕ) (r : Rng) (forbid : Bool) :
    gridShape (ApplyGravitySurgical g scs level r forbid).1 n := by
  unfold ApplyGravitySurgical
  apply foldl_invariant (P := fun acc : Grid × Rng × List Position => gridShape acc.1 n)
  · rintro ⟨g, r, nps⟩ x hacc
    dsimp only
    split
    · exact gravityColumn_gridShape level forbid hacc _ _ _
    · exact hacc
  · exact hg

theorem ApplyGravitySurgicalForCascade_gridShape {g : Grid} {n : ℕ} (hg : gridShape g n)
    (ps : List Position) (level : ℕ) (r : Rng) (forbid : Bool) :
    gridShape (ApplyGravitySurgicalForCascade g ps level r forbid).1 n := by
  unfold ApplyGravitySurgicalForCascade
  apply foldl_invariant (P := fun acc : Grid × Rng × List Position => gridShape acc.1 n)
  · rintro ⟨g, r, nps⟩ x hacc
    dsimp only
    split
    · exact gravityColumn_gridShape level forbid hacc _ _ _
    · exact hacc
  · exact hg

theorem generateCells_length (level : ℕ) (forbid : Bool) (m : ℕ) (placed : Bool) (r : Rng) :
    (generateCells level forbid m placed r).1.length = m := by
  induction m generalizing placed r with
  | zero => rfl
  | succ m ih =>
    unfold generateCells
    simp only [List.length_cons]
    rw [ih]

theorem generateRows_shape (level : ℕ) (forbid : Bool) (gridSize k : ℕ) (placed : Bool)
    (r : Rng) :
    (generateRows level forbid gridSize k placed r).1.length = k ∧
      ∀ row ∈ (generateRows level forbid gridSize k placed r).1, row.length = gridSize := by
  induction k generalizing placed r with
  | zero => exact ⟨rfl, by intro row h; cases h⟩
  | succ k ih =>
    unfold generateRows
    constructor
    · simp only [List.length_cons]
      rw [(ih _ _).1]
    · intro row hrow
      rcases List.mem_cons.1 hrow with h | h
      · subst h; exact generateCells_length ..
      · exact (ih _ _).2 row h

theorem GenerateGrid_gridShape (level : ℕ) (r : Rng) (forbid : Bool) :
    gridShape (GenerateGrid level r forbid).1 (GetGridSize level) := by
  unfold GenerateGrid
  exact ⟨(generateRows_shape ..).1, (generateRows_shape ..).2⟩

/-! ### Surgical-loss bookkeeping lemmas -/

theorem surgicalLossModLoop_shape {n : ℕ} (level : ℕ) (forbid : Bool) (cap : ℕ)
    (keys : List Position) (modified : ℕ) {testGrid : Grid} (hg : gridShape testGrid n)
    (r : Rng) {g : Grid}
    (h : (surgicalLossModLoop level forbid cap keys modified testGrid r).1 = some g) :
    gridShape g n := by
  induction keys generalizing modified testGrid r with
  | nil => simp [surgicalLossModLoop] at h
  | cons k keys ih =>
    rw [surgicalLossModLoop] at h
    split at h
    · simp at h
    · split at h
      · simp only at h
        split at h
        · simp only [Option.some.injEq] at h
          rw [← h]
          exact setCellP_gridShape hg _ _
        · exact ih _ (setCellP_gridShape hg _ _) _ h
      · exact ih _ hg _ h

theorem surgicalLossAttemptLoop_shape {n : ℕ} (level : ℕ) (forbid : Bool)
    (allowed : List Position) (cap : ℕ) {grid : Grid} (hg : gridShape grid n)
    (attempts : ℕ) (r : Rng) {g : Grid}
    (h : (surgicalLossAttemptLoop level forbid allowed cap grid attempts r).1 = some g) :
    gridShape g n := by
  induction attempts generalizing r with
  | zero => simp [surgicalLossAttemptLoop] at h
  | succ a ih =>
    rw [surgicalLossAttemptLoop] at h
    simp only at h
    split at h
    next heq =>
      simp only [Option.some.injEq] at h
      subst h
      exact surgicalLossModLoop_shape level forbid cap allowed 0 hg _ heq
    next => exact ih _ h

theorem ApplySurgicalLoss_sameExceptGrid (gs : GameState) (og : Grid)
    (scs : List StageClearedSymbol) (level : ℕ) (r : Rng) (nps : List Position) :
    (ApplySurgicalLoss gs og scs level r nps).2.1 =
      { gs with grid := (ApplySurgicalLoss gs og scs level r nps).2.1.grid } := by
  simp only [ApplySurgicalLoss]
  split
  · rfl
  · split <;> rfl

theorem ApplySurgicalLoss_grid_shape {n : ℕ} {gs : GameState} (hg : gridShape gs.grid n)
    (og : Grid) (scs : List StageClearedSymbol) (level : ℕ) (r : Rng)
    (nps : List Position) :
    gridShape (ApplySurgicalLoss gs og scs level r nps).2.1.grid n := by
  simp only [ApplySurgicalLoss]
  split
  · exact hg
  · split
    next g _ heq => exact surgicalLossAttemptLoop_shape level _ _ _ hg 50 r heq
    next => exact hg

theorem ApplySurgicalLoss_false_state {gs : GameState} {og : Grid}
    {scs : List StageClearedSymbol} {level : ℕ} {r : Rng} {nps : List Position}
    {gs' : GameState} {r' : Rng}
    (h : ApplySurgicalLoss gs og scs level r nps = (false, gs', r')) : gs' = gs := by
  simp only [ApplySurgicalLoss] at h
  split at h
  · simp at h
  · split at h
    · simp at h
    · simp only [Prod.mk.injEq] at h
      exact h.2.1.symm

theorem ApplySurgicalLossForCascade_sameExceptGrid (gs : GameState) (og : Grid)
    (nps : List Position) (level : ℕ) (r : Rng) :
    (ApplySurgicalLossForCascade gs og nps level r).2.1 =
      { gs with grid := (ApplySurgicalLossForCascade gs og nps level r).2.1.grid } := by
  simp only [ApplySurgicalLossForCascade]
  split
  · rfl
  · split <;> rfl

theorem ApplySurgicalLossForCascade_grid_shape {n : ℕ} {gs : GameState}
    (hg : gridShape gs.grid n) (og : Grid) (nps : List Position) (level : ℕ) (r : Rng) :
    gridShape (ApplySurgicalLossForCascade gs og nps level r).2.1.grid n := by
  simp only [ApplySurgicalLossForCascade]
  split
  · exact hg
  · split
    next g _ heq => exact surgicalLossAttemptLoop_shape level _ _ _ hg 50 r heq
    next => exact hg

theorem ApplySurgicalLossForCascade_false_state {gs : GameState} {og : Grid}
    {nps : List Position} {level : ℕ} {r : Rng} {gs' : GameState} {r' : Rng}
    (h : ApplySurgicalLossForCascade gs og nps level r = (false, gs', r')) : gs' = gs := by
  simp only [ApplySurgicalLossForCascade] at h
  split at h
  · simp at h
  · split at h
    · simp at h
    · simp only [Prod.mk.injEq] at h
      exact h.2.1.symm

theorem stageClearedRngSection_ok {gs : GameState} {og : Grid}
    {scs : List StageClearedSymbol} {nps : List Position} {conns : List Connection}
    {tw : ℚ} {svc : Services} {r : Rng}
    {out : GameState × List Connection × ℚ × Bool × Rng}
    (h : stageClearedRngSection gs og scs nps conns tw svc r = .ok out) :
    out.1 = { gs with grid := out.1.grid } ∧
      (∀ n, gridShape gs.grid n → gridShape out.1.grid n) := by
  simp only [stageClearedRngSection] at h
  split at h
  · split at h
    · exact absurd h (by simp)
    · split at h
      · exact absurd h (by simp)
      · split at h
        · split at h
          · simp only [Except.ok.injEq] at h
            subst h
            exact ⟨ApplySurgicalLoss_sameExceptGrid .., fun n hn =>
              ApplySurgicalLoss_grid_shape hn ..⟩
          · simp only [Except.ok.injEq] at h
            subst h
            exact ⟨ApplySurgicalLoss_sameExceptGrid .., fun n hn =>
              ApplySurgicalLoss_grid_shape hn ..⟩
        · simp only [Except.ok.injEq] at h
          subst h
          exact ⟨rfl, fun n hn => hn⟩
  · simp only [Except.ok.injEq] at h
    subst h
    exact ⟨rfl, fun n hn => hn⟩

set_option maxHeartbeats 1600000 in
/-- C3: For every game state with stage progress p and every non-empty found
list of size f, if p + f >= 15 then after stage-cleared processing the new
progress equals (p + f) - 15, the level equals the cyclic successor of the old
level (1->2, 2->3, 3->1), the grid is regenerated at the new level's dimension,
and advanced = true with the old and new level reported; if p + f < 15 the
level and grid dimension are unchanged and progress equals p + f. -/
theorem spec_C3 (req : Request) (svc : Services) (r : Rng)
    (resp : ProcessStageClearedResponse)
    (hlv : req.gameState.currentLevel = 1 ∨ req.gameState.currentLevel = 2 ∨
      req.gameState.currentLevel = 3)
    (hf : effectiveStageCleared req.gameState ≠ [])
    (hok : ProcessStageClearedHandler req svc r = .ok resp) :
    (AdvanceLevel 1 = 2 ∧ AdvanceLevel 2 = 3 ∧ AdvanceLevel 3 = 1) ∧
    (StageProgressTarget ≤ req.gameState.stageProgress +
        (effectiveStageCleared req.gameState).length →
      resp.gameState.stageProgress = req.gameState.stageProgress +
        (effectiveStageCleared req.gameState).length - StageProgressTarget ∧
      resp.gameState.currentLevel = AdvanceLevel req.gameState.currentLevel ∧
      resp.gameState.gridSize = GetGridSize (AdvanceLevel req.gameState.currentLevel) ∧
      gridShape resp.gameState.grid (GetGridSize (AdvanceLevel req.gameState.currentLevel)) ∧
      resp.levelAdvanced = true ∧
      resp.oldLevel = req.gameState.currentLevel ∧
      resp.newLevel = AdvanceLevel req.gameState.currentLevel) ∧
    (req.gameState.stageProgress + (effectiveStageCleared req.gameState).length <
        StageProgressTarget →
      resp.gameState.currentLevel = req.gameState.currentLevel ∧
      resp.gameState.gridSize = req.gameState.gridSize ∧
      gridShape resp.gameState.grid (GetGridSize req.gameState.currentLevel) ∧
      resp.gameState.stageProgress = req.gameState.stageProgress +
        (effectiveStageCleared req.gameState).length ∧
      resp.levelAdvanced = false) := by
  refine ⟨⟨rfl, rfl, rfl⟩, ?_⟩
  rw [ProcessStageClearedHandler] at hok
  split at hok
  · exact absurd hok (by simp)
  · split at hok
    · exact absurd hok (by simp)
    next hdims =>
      rw [Bool.not_eq_false] at hdims
      have hshape := gridShape_of_validate hdims
      dsimp only at hok
      split at hok
      next hcond =>
        simp only [Except.ok.injEq] at hok
        subst hok
        constructor
        · intro _
          refine ⟨rfl, rfl, rfl, ?_, rfl, rfl, rfl⟩
          exact GenerateGrid_gridShape ..
        · intro hlt
          exact absurd hcond (by push_neg; exact_mod_cast hlt)
      next hcond =>
        split at hok
        · exact absurd hok (by simp)
        next gs2 conns2 tw2 byp2 r2 hsec =>
          simp only [Except.ok.injEq] at hok
          subst hok
          obtain ⟨hsame, hsh⟩ := stageClearedRngSection_ok hsec
          dsimp only at hsame hsh
          constructor
          · intro hge
            exact absurd hge (by exact hcond)
          · intro _
            have hshape2 : gridShape
                (ApplyGravitySurgical
                  (RemoveStageClearedSymbolsSurgical req.gameState.grid
                    (effectiveStageCleared req.gameState))
                  (effectiveStageCleared req.gameState) req.gameState.currentLevel r
                  (decide (req.gameState.gameMode = "freeSpins"))).1
                (GetGridSize req.gameState.currentLevel) :=
              ApplyGravitySurgical_gridShape
                (RemoveStageClearedSymbolsSurgical_gridShape hshape _) _ _ _ _
            refine ⟨?_, ?_, ?_, ?_, rfl⟩
            · dsimp only
              rw [hsame]
            · dsimp only
              rw [hsame]
            · dsimp only
              rw [hsame]
              exact hsh _ hshape2
            · dsimp only
              rw [hsame]

/-- An oracle that always proposes the same symbol and draws 0 from `Intn`. -/
def constRng (s : Symbol) : Rng := ⟨fun _ => s, fun _ => 0, 0, 0⟩

/-- Services that succeed and prefer a win. -/
def svcWin : Services := ⟨some 95, some "win"⟩

/-- Services that succeed and prefer a loss. -/
def svcLoss : Services := ⟨some 95, some "loss"⟩

/-- Extract the payload of a successful handler result. -/
def okOr {ε α : Type} (dflt : α) : Except ε α → α
  | .ok a => a
  | .error _ => dflt

/-- A placeholder response used as the `okOr` default. -/
def emptyPSCResponse : ProcessStageClearedResponse :=
  ⟨"", "", InitializeGameState, 0, false, 0, 0, [], 0⟩

/-- Concrete request for the stage-cleared scenarios: level 1, progress 14,
one pending orange slice at the origin. -/
def reqC3 : Request where
  gameState := {
    bet := { amount := mkRat 1 10, multiplier := 1 }
    currentLevel := 1
    gridSize := 4
    grid := [[.orangeSlice, .greenOwl, .blueOwl, .greenOwl],
             [.blueOwl, .yellowOwl, .redOwl, .yellowOwl],
             [.yellowOwl, .redOwl, .blueOwl, .redOwl],
             [.redOwl, .purpleOwl, .greenOwl, .yellowOwl]]
    stageProgress := 14
    gameMode := "base"
    freeSpins := { remaining := 0, totalAwarded := 0, multiplier := 1 }
    totalWin := 0
    cascading := false
    lastConnections := []
    cascadeCount := 0
    stageClearedSymbols := [⟨.orangeSlice, ⟨0, 0⟩⟩] }
  clientID := "c"
  gameID := "g"
  playerID := "p"
  betID := "b"

/-- The computed response for `reqC3`. -/
def respC3 : ProcessStageClearedResponse :=
  okOr emptyPSCResponse (ProcessStageClearedHandler reqC3 svcWin (constRng .greenOwl))

/-- Witness for `spec_C3`: a level-1 request with progress 14 and one pending
stage-cleared symbol takes the advancing branch. -/
theorem spec_C3_witness :
    (reqC3.gameState.currentLevel = 1 ∨ reqC3.gameState.currentLevel = 2 ∨
      reqC3.gameState.currentLevel = 3) ∧
    effectiveStageCleared reqC3.gameState ≠ [] ∧
    ProcessStageClearedHandler reqC3 svcWin (constRng .greenOwl) = .ok respC3 ∧
    ((AdvanceLevel 1 = 2 ∧ AdvanceLevel 2 = 3 ∧ AdvanceLevel 3 = 1) ∧
    (StageProgressTarget ≤ reqC3.gameState.stageProgress +
        (effectiveStageCleared reqC3.gameState).length →
      respC3.gameState.stageProgress = reqC3.gameState.stageProgress +
        (effectiveStageCleared reqC3.gameState).length - StageProgressTarget ∧
      respC3.gameState.currentLevel = AdvanceLevel reqC3.gameState.currentLevel ∧
      respC3.gameState.gridSize = GetGridSize (AdvanceLevel reqC3.gameState.currentLevel) ∧
      gridShape respC3.gameState.grid
        (GetGridSize (AdvanceLevel reqC3.gameState.currentLevel)) ∧
      respC3.levelAdvanced = true ∧
      respC3.oldLevel = reqC3.gameState.currentLevel ∧
      respC3.newLevel = AdvanceLevel reqC3.gameState.currentLevel) ∧
    (reqC3.gameState.stageProgress + (effectiveStageCleared reqC3.gameState).length <
        StageProgressTarget →
      respC3.gameState.currentLevel = reqC3.gameState.currentLevel ∧
      respC3.gameState.gridSize = reqC3.gameState.gridSize ∧
      gridShape respC3.gameState.grid (GetGridSize reqC3.gameState.currentLevel) ∧
      respC3.gameState.stageProgress = reqC3.gameState.stageProgress +
        (effectiveStageCleared reqC3.gameState).length ∧
      respC3.levelAdvanced = false)) :=
  ⟨Or.inl rfl, by decide, rfl,
    spec_C3 reqC3 svcWin (constRng .greenOwl) respC3 (Or.inl rfl) (by decide) rfl⟩

set_option maxHeartbeats 1600000 in
/-- C10: For every ProcessStageCleared call in which the accumulated stage
progress reaches the threshold (the level advances), the handler returns
immediately after regenerating the grid: the response carries an empty
connection list, no connection detection and no RTP/outcome service call is
performed on the regenerated grid (the result is independent of the service
environment), the pending stage-cleared symbol list is cleared, and TotalWin
and CascadeCount retain the values supplied by the caller. -/
theorem spec_C10 (req : Request) (svc : Services) (r : Rng)
    (resp : ProcessStageClearedResponse)
    (hge : StageProgressTarget ≤ req.gameState.stageProgress +
      (effectiveStageCleared req.gameState).length)
    (hok : ProcessStageClearedHandler req svc r = .ok resp) :
    resp.connections = [] ∧
    resp.gameState.stageClearedSymbols = [] ∧
    resp.gameState.totalWin = req.gameState.totalWin ∧
    resp.gameState.cascadeCount = req.gameState.cascadeCount ∧
    resp.gameState.lastConnections = req.gameState.lastConnections ∧
    resp.levelAdvanced = true ∧
    resp.status = "success" ∧
    resp.totalCost = 0 ∧
    (∀ svc' : Services, ProcessStageClearedHandler req svc' r = .ok resp) := by
  rw [ProcessStageClearedHandler] at hok
  split at hok
  · exact absurd hok (by simp)
  next hval =>
    split at hok
    · exact absurd hok (by simp)
    next hdims =>
      dsimp only at hok
      split at hok
      next hcond =>
        simp only [Except.ok.injEq] at hok
        refine ⟨?_, ?_, ?_, ?_, ?_, ?_, ?_, ?_, ?_⟩
        · rw [← hok]
        · rw [← hok]
        · rw [← hok]; rfl
        · rw [← hok]; rfl
        · rw [← hok]; rfl
        · rw [← hok]
        · rw [← hok]
        · rw [← hok]
        · intro svc'
          rw [ProcessStageClearedHandler]
          split
          next msg heq2 => simp [hval] at heq2
          · split
            next heq3 => exact absurd heq3 hdims
            · dsimp only
              rw [if_pos hcond, hok]
      next hcond =>
        exact absurd (by exact_mod_cast hge) hcond

/-- Witness for `spec_C10`: the advancing request `reqC3`. -/
theorem spec_C10_witness :
    (StageProgressTarget ≤ reqC3.gameState.stageProgress +
      (effectiveStageCleared reqC3.gameState).length) ∧
    ProcessStageClearedHandler reqC3 svcWin (constRng .greenOwl) = .ok respC3 ∧
    (respC3.connections = [] ∧
      respC3.gameState.stageClearedSymbols = [] ∧
      respC3.gameState.totalWin = reqC3.gameState.totalWin ∧
      respC3.gameState.cascadeCount = reqC3.gameState.cascadeCount ∧
      respC3.gameState.lastConnections = reqC3.gameState.lastConnections ∧
      respC3.levelAdvanced = true ∧
      respC3.status = "success" ∧
      respC3.totalCost = 0 ∧
      (∀ svc' : Services,
        ProcessStageClearedHandler reqC3 svc' (constRng .greenOwl) = .ok respC3)) :=
  ⟨by decide, rfl, spec_C10 reqC3 svcWin (constRng .greenOwl) respC3 (by decide) rfl⟩

theorem spinPrepare_bet_amount (req : Request) :
    (spinPrepare req).bet.amount =
      (if req.gameState.currentLevel = 0 then (0 : ℚ) else req.gameState.bet.amount) := by
  rw [spinPrepare]
  dsimp only
  split
  · split <;> split <;> rfl
  · split <;> split <;> rfl

theorem spinPrepare_bet_multiplier (req : Request) :
    (spinPrepare req).bet.multiplier = BetAmountToMultiplier (spinPrepare req).bet.amount :=
  rfl

theorem spinRngAdjust_ok_bet {gs : GameState} {cs : List Connection}
    {scs : List StageClearedSymbol} {tw : ℚ} {svc : Services} {r : Rng}
    {out : GameState × List Connection × List StageClearedSymbol × ℚ × Rng}
    (h : spinRngAdjust gs cs scs tw svc r = .ok out) : out.1.bet = gs.bet := by
  rw [spinRngAdjust] at h
  repeat' (split at h)
  all_goals first
    | exact Except.noConfusion h
    | (simp only [Except.ok.injEq] at h
       rw [← h])

theorem spinFinish_status (gs : GameState) (cs : List Connection)
    (scs : List StageClearedSymbol) (tw : ℚ) (r : Rng) :
    (spinFinish gs cs scs tw r).status = "success" := rfl

theorem spinFinish_cost (gs : GameState) (cs : List Connection)
    (scs : List StageClearedSymbol) (tw : ℚ) (r : Rng) :
    (spinFinish gs cs scs tw r).totalCost =
      (if (spinFinish gs cs scs tw r).gameState.gameMode = "freeSpins" then 0
        else (spinFinish gs cs scs tw r).gameState.bet.amount) := rfl

theorem spinFinish_bet (gs : GameState) (cs : List Connection)
    (scs : List StageClearedSymbol) (tw : ℚ) (r : Rng) :
    (spinFinish gs cs scs tw r).gameState.bet = gs.bet := by
  rw [spinFinish]
  dsimp only
  repeat' split
  all_goals rfl

/-- Anatomy of every successful spin: status, the cost rule (computed from
the final, post-bookkeeping game mode and the state's own bet amount), and
the bet fields stored in the returned state. -/
theorem SpinHandler_ok_anatomy (req : Request) (svc : Services) (r : Rng)
    {resp : SpinResponse} (hok : SpinHandler req svc r = .ok resp) :
    resp.status = "success" ∧
    resp.totalCost =
      (if resp.gameState.gameMode = "freeSpins" then 0 else resp.gameState.bet.amount) ∧
    resp.gameState.bet.amount =
      (if req.gameState.currentLevel = 0 then (0 : ℚ) else req.gameState.bet.amount) ∧
    resp.gameState.bet.multiplier = BetAmountToMultiplier resp.gameState.bet.amount := by
  rw [SpinHandler] at hok
  split at hok
  · exact Except.noConfusion hok
  · dsimp only at hok
    split at hok
    next => exact Except.noConfusion hok
    next gs2 cs2 scs2 tw2 r2 heq =>
      simp only [Except.ok.injEq] at hok
      subst hok
      have hbet : gs2.bet = (spinPrepare req).bet := spinRngAdjust_ok_bet heq
      refine ⟨spinFinish_status .., spinFinish_cost .., ?_, ?_⟩
      · rw [spinFinish_bet, hbet, spinPrepare_bet_amount]
      · rw [spinFinish_bet, hbet, spinPrepare_bet_multiplier]

/-- Concrete spin request on the last free spin: mode freeSpins with one
spin remaining. -/
def reqC8 : Request where
  gameState := {
    bet := { amount := mkRat 1 10, multiplier := 1 }
    currentLevel := 1
    gridSize := 4
    grid := []
    stageProgress := 0
    gameMode := "freeSpins"
    freeSpins := { remaining := 1, totalAwarded := 10, multiplier := 2 }
    totalWin := 0
    cascading := false
    lastConnections := []
    cascadeCount := 0
    stageClearedSymbols := [] }
  clientID := "c"
  gameID := "g"
  playerID := "p"
  betID := "b"

/-- C8 counterexample: the claim says a spin played during free spins is
never charged, but a spin entered in freeSpins mode with one remaining spin
ends (remaining reaches 0, mode flips to base) and is charged the full bet
amount. -/
theorem spec_C8_counterexample :
    reqC8.gameState.gameMode = "freeSpins" ∧
    0 < reqC8.gameState.freeSpins.remaining ∧
    (SpinHandler reqC8 svcWin (constRng .purpleOwl)).map (fun resp => resp.totalCost) =
      .ok (mkRat 1 10) ∧
    (mkRat 1 10 : ℚ) ≠ 0 := by
  refine ⟨rfl, by decide, by rfl, by decide⟩

/-- C8 (amended): For every successful Spin call, the returned TotalCost is
0 if the returned game state's mode after the spin's free-spin bookkeeping
is freeSpins, and otherwise equals the returned game state's (possibly
re-initialized) bet amount. -/
theorem spec_C8 (req : Request) (svc : Services) (r : Rng) (resp : SpinResponse)
    (hok : SpinHandler req svc r = .ok resp) :
    resp.status = "success" ∧
    resp.totalCost =
      (if resp.gameState.gameMode = "freeSpins" then 0 else resp.gameState.bet.amount) := by
  obtain ⟨h1, h2, _, _⟩ := SpinHandler_ok_anatomy req svc r hok
  exact ⟨h1, h2⟩

/-- The response computed for `reqC8`. -/
def respC8 : SpinResponse :=
  okOr ⟨"", "", InitializeGameState, [], false, 0⟩
    (SpinHandler reqC8 svcWin (constRng .purpleOwl))

/-- Witness for `spec_C8`: the last-free-spin request. -/
theorem spec_C8_witness :
    SpinHandler reqC8 svcWin (constRng .purpleOwl) = .ok respC8 ∧
    (respC8.status = "success" ∧
      respC8.totalCost =
        (if respC8.gameState.gameMode = "freeSpins" then 0
          else respC8.gameState.bet.amount)) :=
  ⟨rfl, spec_C8 reqC8 svcWin (constRng .purpleOwl) respC8 rfl⟩

/-- Concrete level-0 spin request with a valid bet amount. -/
def reqC9 : Request where
  gameState := { InitializeGameState with
    bet := { amount := mkRat 1 10, multiplier := 0 }
    currentLevel := 0 }
  clientID := "c"
  gameID := "g"
  playerID := "p"
  betID := "b"

/-- Concrete request carrying the disallowed bet amount 0.15. -/
def reqBadBet : Request where
  gameState := { InitializeGameState with
    bet := { amount := mkRat 3 20, multiplier := 0 }
    currentLevel := 1
    grid := [[.purpleOwl, .greenOwl, .blueOwl, .greenOwl],
             [.blueOwl, .yellowOwl, .redOwl, .yellowOwl],
             [.yellowOwl, .redOwl, .blueOwl, .redOwl],
             [.redOwl, .purpleOwl, .greenOwl, .yellowOwl]] }
  clientID := "c"
  gameID := "g"
  playerID := "p"
  betID := "b"

/-- C9 counterexample: a level-0 request with the accepted bet amount 0.1 is
re-initialized, so the multiplier stored in the game state is 0, not the
claimed corresponding element of the set of five multipliers. -/
theorem spec_C9_counterexample :
    isValidBetAmount reqC9.gameState.bet.amount = true ∧
    (SpinHandler reqC9 svcWin (constRng .purpleOwl)).map
      (fun resp => resp.gameState.bet.multiplier) = .ok 0 ∧
    (0 : ℤ) ∉ ([1, 2, 3, 5, 10] : List ℤ) := by
  refine ⟨by decide, by rfl, by decide⟩

theorem validateRequest_invalid_bet {c g p b : String} {a : ℚ}
    (hc : c ≠ "") (hg : g ≠ "") (hp : p ≠ "") (hb : b ≠ "")
    (ha : isValidBetAmount a = false) :
    validateRequest c g p b a =
      some "invalid bet amount, allowed values are 0.1, 0.2, 0.3, 0.5, 1.0" := by
  rw [validateRequest, if_neg hc, if_neg hg, if_neg hp, if_neg hb,
    if_pos (by rw [ha])]

/-- C9 (amended): a bet amount outside the enumerated set is rejected by
validation in all three handlers before any core logic or service access
(the error result does not depend on the service environment or the random
source); each accepted amount maps to its multiplier via
`BetAmountToMultiplier`; and the spin handler stores that multiplier in the
game state whenever the request's level is nonzero (a level-0 request is
first re-initialized, zeroing the bet). -/
theorem spec_C9 :
    (∀ a : ℚ, isValidBetAmount a = true ↔
      (a = mkRat 1 10 ∨ a = mkRat 2 10 ∨ a = mkRat 3 10 ∨ a = mkRat 5 10 ∨ a = 1)) ∧
    (BetAmountToMultiplier (mkRat 1 10) = 1 ∧ BetAmountToMultiplier (mkRat 2 10) = 2 ∧
      BetAmountToMultiplier (mkRat 3 10) = 3 ∧ BetAmountToMultiplier (mkRat 5 10) = 5 ∧
      BetAmountToMultiplier 1 = 10) ∧
    (∀ (req : Request) (svc : Services) (r : Rng),
      req.clientID ≠ "" → req.gameID ≠ "" → req.playerID ≠ "" → req.betID ≠ "" →
      isValidBetAmount req.gameState.bet.amount = false →
      SpinHandler req svc r =
        .error "invalid bet amount, allowed values are 0.1, 0.2, 0.3, 0.5, 1.0" ∧
      ProcessStageClearedHandler req svc r =
        .error "invalid bet amount, allowed values are 0.1, 0.2, 0.3, 0.5, 1.0" ∧
      CascadeHandler req svc r =
        .error "invalid bet amount, allowed values are 0.1, 0.2, 0.3, 0.5, 1.0") ∧
    (∀ (req : Request) (svc : Services) (r : Rng) (resp : SpinResponse),
      SpinHandler req svc r = .ok resp → req.gameState.currentLevel ≠ 0 →
      resp.gameState.bet.multiplier = BetAmountToMultiplier req.gameState.bet.amount) := by
  refine ⟨?_, ⟨by decide, by decide, by decide, by decide, by decide⟩, ?_, ?_⟩
  · intro a
    simp [isValidBetAmount, List.any_cons, List.any_nil, Bool.or_eq_true,
      decide_eq_true_eq, or_assoc]
  · intro req svc r hc hg hp hb ha
    have hval := validateRequest_invalid_bet hc hg hp hb ha
    refine ⟨?_, ?_, ?_⟩
    · rw [SpinHandler, hval]
    · rw [ProcessStageClearedHandler, hval]
    · rw [CascadeHandler, hval]
  · intro req svc r resp hok hne
    obtain ⟨_, _, h3, h4⟩ := SpinHandler_ok_anatomy req svc r hok
    rw [h4, h3, if_neg hne]

/-- Witness for `spec_C9`: rejection of the 0.15 bet, and the multiplier
stored for a valid level-1 spin. -/
theorem spec_C9_witness :
    (reqBadBet.clientID ≠ "" ∧ reqBadBet.gameID ≠ "" ∧ reqBadBet.playerID ≠ "" ∧
      reqBadBet.betID ≠ "" ∧ isValidBetAmount reqBadBet.gameState.bet.amount = false) ∧
    SpinHandler reqBadBet svcWin (constRng .purpleOwl) =
      .error "invalid bet amount, allowed values are 0.1, 0.2, 0.3, 0.5, 1.0" ∧
    (SpinHandler reqC8 svcWin (constRng .purpleOwl) = .ok respC8 ∧
      reqC8.gameState.currentLevel ≠ 0 ∧
      respC8.gameState.bet.multiplier = BetAmountToMultiplier reqC8.gameState.bet.amount) :=
  ⟨⟨by decide, by decide, by decide, by decide, by decide⟩,
    (spec_C9.2.2.1 reqBadBet svcWin (constRng .purpleOwl) (by decide) (by decide)
      (by decide) (by decide) (by decide)).1,
    rfl, by decide,
    spec_C9.2.2.2 reqC8 svcWin (constRng .purpleOwl) respC8 rfl (by decide)⟩

/-! ### Frame lemmas for the surgical-loss edit surface (C5) -/

theorem cellAt_setCell_ne (g : Grid) (x y : ℕ) (s : Symbol) (x' y' : ℕ)
    (hne : ¬(x = x' ∧ y = y')) : cellAt (setCell g x y s) x' y' = cellAt g x' y' := by
  unfold cellAt setCell
  rw [getD_set_row]
  by_cases hy : y = y'
  · subst hy
    have hx : x ≠ x' := fun hx => hne ⟨hx, rfl⟩
    split
    · simp only [List.getD_eq_getElem?_getD, List.getElem?_set_ne hx]
    · rfl
  · rw [if_neg (fun hc => hy hc.1)]

theorem cellAt_setCellP_ne (g : Grid) (q : Position) (s : Symbol) (x y : ℕ)
    (hne : ¬(q.x.toNat = x ∧ q.y.toNat = y)) :
    cellAt (setCellP g q s) x y = cellAt g x y :=
  cellAt_setCell_ne g q.x.toNat q.y.toNat s x y hne

theorem mem_dedupKeys {α : Type} [DecidableEq α] (xs : List α) (a : α) :
    a ∈ dedupKeys xs ↔ a ∈ xs := by
  unfold dedupKeys
  suffices H : ∀ acc : List α, a ∈ xs.foldl
      (fun acc x => if x ∈ acc then acc else acc ++ [x]) acc ↔ a ∈ acc ∨ a ∈ xs by
    simpa using H []
  induction xs with
  | nil => intro acc; simp
  | cons x xs ih =>
    intro acc
    simp only [List.foldl_cons]
    by_cases hx : x ∈ acc
    · rw [if_pos hx, ih]
      constructor
      · rintro (h | h)
        · exact Or.inl h
        · exact Or.inr (List.mem_cons_of_mem _ h)
      · rintro (h | h)
        · exact Or.inl h
        · rcases List.mem_cons.1 h with rfl | h
          · exact Or.inl hx
          · exact Or.inr h
    · rw [if_neg hx, ih]
      constructor
      · rintro (h | h)
        · rcases List.mem_append.1 h with h | h
          · exact Or.inl h
          · exact Or.inr (List.mem_cons.2 (Or.inl (List.mem_singleton.1 h)))
        · exact Or.inr (List.mem_cons_of_mem _ h)
      · rintro (h | h)
        · exact Or.inl (List.mem_append.2 (Or.inl h))
        · rcases List.mem_cons.1 h with rfl | h
          · exact Or.inl (List.mem_append.2 (Or.inr (List.mem_singleton.2 rfl)))
          · exact Or.inr h

theorem surgicalLossModLoop_frame (level : ℕ) (forbid : Bool) (cap : ℕ)
    (keys : List Position) (modified : ℕ) (tg : Grid) (r : Rng) {g : Grid}
    (h : (surgicalLossModLoop level forbid cap keys modified tg r).1 = some g)
    (x y : ℕ) (hx : (⟨(x : ℤ), (y : ℤ)⟩ : Position) ∉ keys) :
    cellAt g x y = cellAt tg x y := by
  induction keys generalizing modified tg r with
  | nil => simp [surgicalLossModLoop] at h
  | cons k keys ih =>
    have hk : k ≠ (⟨(x : ℤ), (y : ℤ)⟩ : Position) :=
      fun he => hx (he ▸ List.mem_cons_self k keys)
    have hxs : (⟨(x : ℤ), (y : ℤ)⟩ : Position) ∉ keys :=
      fun hm => hx (List.mem_cons_of_mem _ hm)
    rw [surgicalLossModLoop] at h
    split at h
    · simp at h
    · split at h
      next hb =>
        have hfr : ∀ s, cellAt (setCellP tg k s) x y = cellAt tg x y := by
          intro s
          refine cellAt_setCellP_ne tg k s x y ?_
          rintro ⟨hxe, hye⟩
          refine hk ?_
          obtain ⟨hx0, _, hy0, _⟩ := hb
          have hkx : k.x = (x : ℤ) := by omega
          have hky : k.y = (y : ℤ) := by omega
          cases k
          simp_all
        simp only at h
        split at h
        · simp only [Option.some.injEq] at h
          rw [← h]
          exact hfr _
        · rw [ih _ _ _ h hxs]
          exact hfr _
      next => exact ih _ _ _ h hxs

theorem surgicalLossAttemptLoop_frame (level : ℕ) (forbid : Bool)
    (allowed : List Position) (cap : ℕ) (grid : Grid) (attempts : ℕ) (r : Rng) {g : Grid}
    (h : (surgicalLossAttemptLoop level forbid allowed cap grid attempts r).1 = some g)
    (x y : ℕ) (hx : (⟨(x : ℤ), (y : ℤ)⟩ : Position) ∉ allowed) :
    cellAt g x y = cellAt grid x y := by
  induction attempts generalizing r with
  | zero => simp [surgicalLossAttemptLoop] at h
  | succ a ih =>
    rw [surgicalLossAttemptLoop] at h
    simp only at h
    split at h
    next heq =>
      simp only [Option.some.injEq] at h
      subst h
      exact surgicalLossModLoop_frame level forbid cap allowed 0 grid _ heq x y hx
    next => exact ih _ h

/-- C5: For every Reconcile (surgical-loss) call with editable position set E,
every grid cell at a position not in E is identical after the call to its
value before the call, both when reconciliation succeeds and when it fails
(bypass); no cell outside E is ever modified by ApplySurgicalLoss or
ApplySurgicalLossForCascade. -/
theorem spec_C5 (gs : GameState) (og : Grid) (scs : List StageClearedSymbol)
    (level : ℕ) (r : Rng) (nps : List Position) (x y : ℕ)
    (hx : (⟨(x : ℤ), (y : ℤ)⟩ : Position) ∉ nps) :
    cellAt (ApplySurgicalLoss gs og scs level r nps).2.1.grid x y = cellAt gs.grid x y ∧
    cellAt (ApplySurgicalLossForCascade gs og nps level r).2.1.grid x y =
      cellAt gs.grid x y := by
  have hx' : (⟨(x : ℤ), (y : ℤ)⟩ : Position) ∉ dedupKeys nps :=
    fun hm => hx ((mem_dedupKeys nps _).1 hm)
  constructor
  · simp only [ApplySurgicalLoss]
    split
    · rfl
    · split
      next g' heq => exact surgicalLossAttemptLoop_frame _ _ _ _ _ 50 r heq x y hx'
      next => rfl
  · simp only [ApplySurgicalLossForCascade]
    split
    · rfl
    · split
      next g' heq => exact surgicalLossAttemptLoop_frame _ _ _ _ _ 50 r heq x y hx'
      next => rfl

/-- A base-mode state with exactly one live `free_game` symbol (at `(0,0)`)
and one regular connection (the purple row at `y = 3`). -/
def gsC4 : GameState where
  bet := { amount := mkRat 1 10, multiplier := 1 }
  currentLevel := 1
  gridSize := 4
  grid := [[.freeGame, .greenOwl, .blueOwl, .greenOwl],
           [.blueOwl, .yellowOwl, .redOwl, .yellowOwl],
           [.yellowOwl, .redOwl, .blueOwl, .redOwl],
           [.purpleOwl, .purpleOwl, .purpleOwl, .purpleOwl]]
  stageProgress := 0
  gameMode := "base"
  freeSpins := { remaining := 0, totalAwarded := 0, multiplier := 1 }
  totalWin := 0
  cascading := false
  lastConnections := []
  cascadeCount := 0
  stageClearedSymbols := []

/-- Witness for `spec_C5`: cell `(0,0)` of `gsC4` lies outside the editable
set `[(3,3)]` and survives both surgical-loss flavours unchanged. -/
theorem spec_C5_witness :
    ((⟨((0 : ℕ) : ℤ), ((0 : ℕ) : ℤ)⟩ : Position) ∉ ([⟨3, 3⟩] : List Position)) ∧
    (cellAt (ApplySurgicalLoss gsC4 [] [] 1 (constRng .freeGame) [⟨3, 3⟩]).2.1.grid 0 0 =
        cellAt gsC4.grid 0 0 ∧
      cellAt (ApplySurgicalLossForCascade gsC4 [] [⟨3, 3⟩] 1 (constRng .freeGame)).2.1.grid
          0 0 = cellAt gsC4.grid 0 0) :=
  ⟨by decide, spec_C5 gsC4 [] [] 1 (constRng .freeGame) [⟨3, 3⟩] 0 0 (by decide)⟩

/-- C4 counterexample: in base mode, a surgical-loss redraw may place a
second `free_game`.  `gsC4` holds one live `free_game`; reconciliation over
the single editable position `(3,3)` succeeds by drawing `free_game` there
(the draw is only forbidden in free-spins mode), leaving a committed grid
with two live `free_game` symbols. -/
theorem spec_C4_counterexample :
    gsC4.gameMode = "base" ∧
    CountFreeGameSymbols gsC4.grid = 1 ∧
    (ApplySurgicalLoss gsC4 [] [] 1 (constRng .freeGame) [⟨3, 3⟩]).1 = true ∧
    CountFreeGameSymbols
      (ApplySurgicalLoss gsC4 [] [] 1 (constRng .freeGame) [⟨3, 3⟩]).2.1.grid = 2 :=
  ⟨rfl, by decide, by decide, by decide⟩

/-! ### Column frame lemmas (surgical gravity touches only its column) -/

theorem foldl_invariant_mem {α β : Type} {P : α → Prop} (f : α → β → α) :
    ∀ (l : List β) (a : α), (∀ x b, b ∈ l → P x → P (f x b)) → P a → P (l.foldl f a) := by
  intro l
  induction l with
  | nil => intro a _ h; exact h
  | cons b bs ih =>
    intro a hstep h
    simp only [List.foldl_cons]
    exact ih _ (fun x c hc hx => hstep x c (List.mem_cons_of_mem b hc) hx)
      (hstep a b (List.mem_cons_self b bs) h)

theorem cellAt_setColumn_ne (g : Grid) (x : ℕ) (col : List Symbol) (x' y : ℕ)
    (hlen : col.length = g.length) (hx : x ≠ x') :
    cellAt (setColumn g x col) x' y = cellAt g x' y := by
  induction g generalizing col y with
  | nil =>
    rw [List.length_nil, List.length_eq_zero] at hlen
    subst hlen
    rfl
  | cons row g ih =>
    cases col with
    | nil => simp at hlen
    | cons v col =>
      cases y with
      | zero =>
        show ((row.set x v)).getD x' .blank = row.getD x' .blank
        simp only [List.getD_eq_getElem?_getD, List.getElem?_set_ne hx]
      | succ y =>
        show cellAt (setColumn g x col) x' y = cellAt g x' y
        exact ih col y (by simpa using hlen)

theorem refillLoop_cellAt_ne (level : ℕ) (forbid : Bool) (x : ℕ) (ys : List ℕ)
    (g : Grid) (r : Rng) (nps : List Position) (x' y : ℕ) (hx : x ≠ x') :
    cellAt (refillLoop level forbid x ys g r nps).1 x' y = cellAt g x' y := by
  induction ys generalizing g r nps with
  | nil => rfl
  | cons y0 ys ih =>
    unfold refillLoop
    rw [ih]
    exact cellAt_setCell_ne g x y0 _ x' y (fun hc => hx hc.1)

theorem gravityColumn_cellAt_ne (level : ℕ) (forbid : Bool) (g : Grid) (x : ℕ)
    (r : Rng) (nps : List Position) (x' y : ℕ) (hx : x ≠ x') :
    cellAt (gravityColumn level forbid g x r nps).1 x' y = cellAt g x' y := by
  unfold gravityColumn
  rw [refillLoop_cellAt_ne _ _ _ _ _ _ _ _ _ hx]
  exact cellAt_setColumn_ne g x _ x' y (by rw [compactLoop_length, getColumn_length]) hx

theorem ApplyGravitySurgical_cellAt_ne (g : Grid) (scs : List StageClearedSymbol)
    (level : ℕ) (r : Rng) (forbid : Bool) (x' y : ℕ)
    (hx : ∀ s ∈ scs, s.position.x ≠ (x' : ℤ)) :
    cellAt (ApplyGravitySurgical g scs level r forbid).1 x' y = cellAt g x' y := by
  unfold ApplyGravitySurgical
  apply foldl_invariant_mem
    (P := fun acc : Grid × Rng × List Position => cellAt acc.1 x' y = cellAt g x' y)
  · rintro ⟨g0, r0, nps0⟩ c hc hacc
    dsimp only
    split
    next hb =>
      rw [← hacc]
      apply gravityColumn_cellAt_ne
      intro he
      obtain ⟨s, hs, hsx⟩ := List.mem_map.1 ((mem_dedupKeys _ _).1 hc)
      exact hx s hs (by rw [hsx]; omega)
    next => exact hacc
  · rfl

theorem ApplyGravitySurgicalForCascade_cellAt_ne (g : Grid) (ps : List Position)
    (level : ℕ) (r : Rng) (forbid : Bool) (x' y : ℕ)
    (hx : ∀ p ∈ ps, p.x ≠ (x' : ℤ)) :
    cellAt (ApplyGravitySurgicalForCascade g ps level r forbid).1 x' y = cellAt g x' y := by
  unfold ApplyGravitySurgicalForCascade
  apply foldl_invariant_mem
    (P := fun acc : Grid × Rng × List Position => cellAt acc.1 x' y = cellAt g x' y)
  · rintro ⟨g0, r0, nps0⟩ c hc hacc
    dsimp only
    split
    next hb =>
      rw [← hacc]
      apply gravityColumn_cellAt_ne
      intro he
      obtain ⟨p, hp, hpx⟩ := List.mem_map.1 ((mem_dedupKeys _ _).1 hc)
      exact hx p hp (by rw [hpx]; omega)
    next => exact hacc
  · rfl

theorem RemoveStageClearedSymbolsSurgical_cellAt_ne (g : Grid)
    (scs : List StageClearedSymbol) (x' y : ℕ)
    (hx : ∀ s ∈ scs, s.position.x ≠ (x' : ℤ)) :
    cellAt (RemoveStageClearedSymbolsSurgical g scs) x' y = cellAt g x' y := by
  unfold RemoveStageClearedSymbolsSurgical
  apply foldl_invariant_mem (P := fun g0 : Grid => cellAt g0 x' y = cellAt g x' y)
  · intro g0 s hs hacc
    dsimp only
    split
    next hb =>
      rw [← hacc]
      apply cellAt_setCellP_ne
      rintro ⟨hex, -⟩
      exact hx s hs (by omega)
    next => exact hacc
  · rfl

/-! ### Compaction characterization -/

theorem replicate_set_last {α : Type} (k : ℕ) (b a : α) :
    (List.replicate (k + 1) b).set k a = List.replicate k b ++ [a] := by
  induction k with
  | zero => rfl
  | succ k ih => simpa [List.replicate_succ] using ih

set_option maxHeartbeats 1000000 in
theorem compactLoop_spec : ∀ (pre : List Symbol) (k : ℕ) (kept : List Symbol) (wp : ℤ),
    wp = (pre.length : ℤ) + k - 1 →
    compactLoop (List.range pre.length).reverse
        (pre ++ List.replicate k Symbol.blank ++ kept) wp =
      (List.replicate (pre.count Symbol.blank + k) Symbol.blank ++
          pre.filter (fun c => c ≠ Symbol.blank) ++ kept,
        (pre.count Symbol.blank : ℤ) + k - 1) := by
  intro pre
  induction pre using List.reverseRecOn with
  | nil =>
    intro k kept wp hwp
    subst hwp
    simp [compactLoop]
  | append_singleton pre a ih =>
    intro k kept wp hwp
    have hlen : (pre ++ [a]).length = pre.length + 1 := by simp
    rw [hlen, List.range_succ, List.reverse_append, List.reverse_singleton,
      List.singleton_append, compactLoop]
    have hget : (pre ++ [a] ++ List.replicate k Symbol.blank ++ kept).getD
        pre.length Symbol.blank = a := by
      rw [List.getD_append _ _ _ _ (by simp), List.getD_append _ _ _ _ (by simp),
        List.getD_append_right _ _ _ _ (Nat.le_refl _), Nat.sub_self]
      rfl
    have hc : ((pre ++ [a]).count Symbol.blank) =
        pre.count Symbol.blank + (if a = Symbol.blank then 1 else 0) := by
      by_cases ha : a = Symbol.blank
      · subst ha; simp
      · simp [List.count_append, List.count_cons, Ne.symm ha, ha]
    by_cases ha : a = Symbol.blank
    · rw [if_neg (fun h => h (by rw [hget, ha]))]
      have hcol : pre ++ [a] ++ List.replicate k Symbol.blank ++ kept =
          pre ++ List.replicate (k + 1) Symbol.blank ++ kept := by
        subst ha
        simp [List.replicate_succ, List.append_assoc]
      rw [hcol, ih (k + 1) kept wp (by simp only [hlen] at hwp; push_cast at hwp ⊢; omega)]
      have hf : (pre ++ [a]).filter (fun c => c ≠ Symbol.blank) =
          pre.filter (fun c => c ≠ Symbol.blank) := by
        subst ha
        simp [List.filter_append]
      rw [hc, hf, if_pos ha, Prod.mk.injEq]
      constructor
      · have h2 : pre.count Symbol.blank + (k + 1) =
            pre.count Symbol.blank + 1 + k := by omega
        rw [h2]
      · push_cast
        ring
    · rw [if_pos (by rw [hget]; exact ha)]
      have hf : (pre ++ [a]).filter (fun c => c ≠ Symbol.blank) =
          pre.filter (fun c => c ≠ Symbol.blank) ++ [a] := by
        simp [List.filter_append, List.filter_cons, ha]
      dsimp only
      cases k with
      | zero =>
        have hwp0 : wp = (pre.length : ℤ) := by
          simp only [hlen] at hwp; push_cast at hwp ⊢; omega
        rw [if_neg (fun h => h hwp0.symm)]
        have hcol : pre ++ [a] ++ List.replicate 0 Symbol.blank ++ kept =
            pre ++ List.replicate 0 Symbol.blank ++ ([a] ++ kept) := by
          simp
        rw [hcol, ih 0 ([a] ++ kept) (wp - 1)
          (by simp only [hlen] at hwp; push_cast at hwp ⊢; omega)]
        rw [hc, hf, if_neg ha, Prod.mk.injEq]
        constructor
        · simp [List.append_assoc]
        · push_cast
          ring
      | succ kp =>
        have hne : (↑pre.length : ℤ) ≠ wp := by
          simp only [hlen] at hwp; push_cast at hwp; omega
        rw [if_pos hne]
        have htn : wp.toNat = pre.length + (kp + 1) := by
          simp only [hlen] at hwp; push_cast at hwp; omega
        rw [htn, hget]
        have e1 : (pre ++ [a] ++ List.replicate (kp + 1) Symbol.blank ++ kept).set
              (pre.length + (kp + 1)) a =
            pre ++ [a] ++ (List.replicate kp Symbol.blank ++ [a]) ++ kept := by
          rw [List.set_append_left _ _ (by simp)]
          rw [List.set_append_right _ _ (by simp)]
          have hidx : pre.length + (kp + 1) - (pre ++ [a]).length = kp := by
            simp only [List.length_append, List.length_singleton]
            omega
          rw [hidx, replicate_set_last]
        have e2 : (pre ++ [a] ++ (List.replicate kp Symbol.blank ++ [a]) ++ kept).set
              pre.length Symbol.blank =
            pre ++ [Symbol.blank] ++ (List.replicate kp Symbol.blank ++ [a]) ++ kept := by
          rw [List.set_append_left _ _ (by simp)]
          rw [List.set_append_left _ _ (by simp)]
          rw [List.set_append_right _ _ (Nat.le_refl _)]
          simp
        rw [e1, e2]
        have hcol : pre ++ [Symbol.blank] ++ (List.replicate kp Symbol.blank ++ [a]) ++
              kept =
            pre ++ List.replicate (kp + 1) Symbol.blank ++ ([a] ++ kept) := by
          simp [List.replicate_succ, List.append_assoc]
        rw [hcol, ih (kp + 1) ([a] ++ kept) (wp - 1)
          (by simp only [hlen] at hwp; push_cast at hwp ⊢; omega)]
        rw [hc, hf, if_neg ha, Prod.mk.injEq]
        constructor
        · simp [List.append_assoc]
        · push_cast
          ring

theorem compactLoop_full (col : List Symbol) :
    compactLoop (List.range col.length).reverse col ((col.length : ℤ) - 1) =
      (List.replicate (col.count Symbol.blank) Symbol.blank ++
          col.filter (fun c => c ≠ Symbol.blank),
        (col.count Symbol.blank : ℤ) - 1) := by
  have h := compactLoop_spec col 0 [] ((col.length : ℤ) + 0 - 1) rfl
  simpa using h

/-! ### Column compaction through surgical gravity -/

theorem getColumn_eq_of_cellAt {g g' : Grid} (x : ℕ) (hlen : g.length = g'.length)
    (h : ∀ y, y < g.length → cellAt g x y = cellAt g' x y) :
    getColumn g x = getColumn g' x := by
  apply List.ext_get (by simp [getColumn, hlen])
  intro i hi hi'
  simp only [getColumn, List.get_eq_getElem, List.getElem_map]
  have hig : i < g.length := by simpa [getColumn] using hi
  have hig' : i < g'.length := hlen ▸ hig
  have := h i hig
  unfold cellAt at this
  rwa [List.getD_eq_getElem _ _ hig, List.getD_eq_getElem _ _ hig'] at this

theorem refillLoop_length (level : ℕ) (forbid : Bool) (x : ℕ) (ys : List ℕ)
    (g : Grid) (r : Rng) (nps : List Position) :
    (refillLoop level forbid x ys g r nps).1.length = g.length := by
  induction ys generalizing g r nps with
  | nil => rfl
  | cons y ys ih =>
    unfold refillLoop
    rw [ih]
    unfold setCell
    exact List.length_set ..

theorem setColumn_length (g : Grid) (x : ℕ) (col : List Symbol)
    (hcol : col.length = g.length) : (setColumn g x col).length = g.length := by
  unfold setColumn
  rw [List.length_zipWith, hcol, min_self]

theorem gravityColumn_length (level : ℕ) (forbid : Bool) (g : Grid) (x : ℕ) (r : Rng)
    (nps : List Position) : (gravityColumn level forbid g x r nps).1.length = g.length := by
  unfold gravityColumn
  rw [refillLoop_length, setColumn_length]
  rw [compactLoop_length, getColumn_length]

theorem gravityColumn_getColumn_ne (level : ℕ) (forbid : Bool) (g : Grid) (x : ℕ)
    (r : Rng) (nps : List Position) (x' : ℕ) (hx : x ≠ x') :
    getColumn (gravityColumn level forbid g x r nps).1 x' = getColumn g x' := by
  apply getColumn_eq_of_cellAt x' (gravityColumn_length ..)
  intro y _
  exact gravityColumn_cellAt_ne level forbid g x r nps x' y hx

theorem cellAt_setColumn_self (g : Grid) (x : ℕ) (col : List Symbol) (y : ℕ)
    (hlen : col.length = g.length) (hx : ∀ row ∈ g, x < row.length) (hy : y < g.length) :
    cellAt (setColumn g x col) x y = col.getD y Symbol.blank := by
  induction g generalizing col y with
  | nil => exact absurd hy (by simp)
  | cons row g ih =>
    cases col with
    | nil => simp at hlen
    | cons v col =>
      cases y with
      | zero =>
        show ((row.set x v)).getD x Symbol.blank = v
        have hxr : x < row.length := hx row (List.mem_cons_self ..)
        rw [List.getD_eq_getElem?_getD, List.getElem?_set_self (by simpa using hxr)]
        rfl
      | succ y =>
        show cellAt (setColumn g x col) x y = col.getD y Symbol.blank
        exact ih col y (by simpa using hlen)
          (fun row hrow => hx row (List.mem_cons_of_mem _ hrow)) (by simpa using hy)

theorem refillLoop_cellAt_notmem (level : ℕ) (forbid : Bool) (x : ℕ) (ys : List ℕ)
    (g : Grid) (r : Rng) (nps : List Position) (y : ℕ) (hy : ∀ y0 ∈ ys, y0 ≠ y) :
    cellAt (refillLoop level forbid x ys g r nps).1 x y = cellAt g x y := by
  induction ys generalizing g r nps with
  | nil => rfl
  | cons y0 ys ih =>
    unfold refillLoop
    rw [ih _ _ _ (fun y1 hy1 => hy y1 (List.mem_cons_of_mem _ hy1))]
    exact cellAt_setCell_ne g x y0 _ x y
      (fun hc => hy y0 (List.mem_cons_self ..) hc.2)

theorem gravityColumn_compacted (level : ℕ) (forbid : Bool) (g : Grid) (x : ℕ)
    (r : Rng) (nps : List Position) (hsq : ∀ row ∈ g, row.length = g.length)
    (hx : x < g.length) (y : ℕ)
    (hy1 : (getColumn g x).count Symbol.blank ≤ y) (hy2 : y < g.length) :
    cellAt (gravityColumn level forbid g x r nps).1 x y =
      ((getColumn g x).filter (fun c => c ≠ Symbol.blank)).getD
        (y - (getColumn g x).count Symbol.blank) Symbol.blank := by
  have hcomp := compactLoop_full (getColumn g x)
  rw [getColumn_length] at hcomp
  have hlen' : (List.replicate ((getColumn g x).count Symbol.blank) Symbol.blank ++
      (getColumn g x).filter (fun c => c ≠ Symbol.blank)).length = g.length := by
    have h := compactLoop_length (List.range g.length).reverse (getColumn g x)
      ((g.length : ℤ) - 1)
    rw [hcomp] at h
    simpa [getColumn_length] using h
  unfold gravityColumn
  dsimp only
  rw [hcomp]
  dsimp only
  have htn : (((getColumn g x).count Symbol.blank : ℤ) - 1 + 1).toNat =
      (getColumn g x).count Symbol.blank := by omega
  rw [htn]
  rw [refillLoop_cellAt_notmem _ _ _ _ _ _ _ _
    (fun y0 hy0 => by have := List.mem_range.1 hy0; omega)]
  rw [cellAt_setColumn_self _ _ _ _ (by rw [hlen']) (fun row hrow => by rw [hsq row hrow]; exact hx) hy2]
  rw [List.getD_append_right _ _ _ _ (by simpa using hy1)]
  simp

/-- The per-column step shared by the two surgical gravity functions
(`gridSize` is the grid length captured before the fold). -/
def gravityStep (level : ℕ) (forbid : Bool) (gridSize : ℕ) :
    Grid × Rng × List Position → ℤ → Grid × Rng × List Position :=
  fun acc x =>
    let (g, r, newPositions) := acc
    if 0 ≤ x ∧ x < (gridSize : ℤ) then
      gravityColumn level forbid g x.toNat r newPositions
    else acc

theorem ApplyGravitySurgical_eq_fold (g : Grid) (scs : List StageClearedSymbol)
    (level : ℕ) (r : Rng) (forbid : Bool) :
    ApplyGravitySurgical g scs level r forbid =
      (dedupKeys (scs.map (fun s => s.position.x))).foldl
        (gravityStep level forbid g.length) (g, r, []) := rfl

theorem ApplyGravitySurgicalForCascade_eq_fold (g : Grid) (ps : List Position)
    (level : ℕ) (r : Rng) (forbid : Bool) :
    ApplyGravitySurgicalForCascade g ps level r forbid =
      (dedupKeys (ps.map (fun p => p.x))).foldl
        (gravityStep level forbid g.length) (g, r, []) := rfl

theorem dedupKeys_nodup {α : Type} [DecidableEq α] (xs : List α) :
    (dedupKeys xs).Nodup := by
  unfold dedupKeys
  suffices H : ∀ acc : List α, acc.Nodup →
      (xs.foldl (fun acc x => if x ∈ acc then acc else acc ++ [x]) acc).Nodup from
    H [] List.nodup_nil
  induction xs with
  | nil => intro acc h; exact h
  | cons x xs ih =>
    intro acc hacc
    simp only [List.foldl_cons]
    by_cases hx : x ∈ acc
    · rw [if_pos hx]
      exact ih acc hacc
    · rw [if_neg hx]
      refine ih _ ?_
      rw [List.nodup_append]
      exact ⟨hacc, List.nodup_singleton x,
        fun a ha hax => hx (by rwa [List.mem_singleton.1 hax] at ha)⟩

theorem gravityFold_cellAt_ne (level : ℕ) (forbid : Bool) (gridSize : ℕ)
    (cols : List ℤ) (acc : Grid × Rng × List Position) (x' y : ℕ)
    (hx : ∀ c ∈ cols, c ≠ (x' : ℤ)) :
    cellAt (cols.foldl (gravityStep level forbid gridSize) acc).1 x' y =
      cellAt acc.1 x' y := by
  apply foldl_invariant_mem
    (P := fun a : Grid × Rng × List Position => cellAt a.1 x' y = cellAt acc.1 x' y)
  · rintro ⟨g0, r0, nps0⟩ c hc hacc
    unfold gravityStep
    dsimp only
    split
    next hb =>
      rw [← hacc]
      apply gravityColumn_cellAt_ne
      intro he
      exact hx c hc (by omega)
    next => exact hacc
  · rfl

theorem gravityStep_getColumn_ne (level : ℕ) (forbid : Bool) (gridSize : ℕ)
    (acc : Grid × Rng × List Position) (c : ℤ) (x' : ℕ) (h : c ≠ (x' : ℤ)) :
    getColumn (gravityStep level forbid gridSize acc c).1 x' = getColumn acc.1 x' := by
  obtain ⟨g0, r0, nps0⟩ := acc
  unfold gravityStep
  dsimp only
  split
  next hb => exact gravityColumn_getColumn_ne _ _ _ _ _ _ _ (fun he => h (by omega))
  next => rfl

theorem gravityStep_gridShape {n : ℕ} (level : ℕ) (forbid : Bool) (gridSize : ℕ)
    {acc : Grid × Rng × List Position} (hg : gridShape acc.1 n) (c : ℤ) :
    gridShape (gravityStep level forbid gridSize acc c).1 n := by
  obtain ⟨g0, r0, nps0⟩ := acc
  unfold gravityStep
  dsimp only
  split
  · exact gravityColumn_gridShape level forbid hg _ _ _
  · exact hg

theorem gravityFold_compacted (level : ℕ) (forbid : Bool) (gridSize : ℕ) :
    ∀ (cols : List ℤ) (g : Grid) (r : Rng) (nps : List Position) (c : ℤ),
    cols.Nodup → c ∈ cols → 0 ≤ c → c < (gridSize : ℤ) → gridShape g gridSize →
    ∀ y, (getColumn g c.toNat).count Symbol.blank ≤ y → y < gridSize →
      cellAt (cols.foldl (gravityStep level forbid gridSize) (g, r, nps)).1 c.toNat y =
        ((getColumn g c.toNat).filter (fun s => s ≠ Symbol.blank)).getD
          (y - (getColumn g c.toNat).count Symbol.blank) Symbol.blank := by
  intro cols
  induction cols with
  | nil =>
    intro g r nps c _ hc
    exact absurd hc (by simp)
  | cons c0 cols ih =>
    intro g r nps c hnd hc hcnn hclt hshape y hy1 hy2
    obtain ⟨hnotmem, hnd2⟩ := List.nodup_cons.1 hnd
    rw [List.foldl_cons]
    by_cases hceq : c0 = c
    · subst hceq
      have hstep : gravityStep level forbid gridSize (g, r, nps) c0 =
          gravityColumn level forbid g c0.toNat r nps := by
        unfold gravityStep
        dsimp only
        rw [if_pos ⟨hcnn, hclt⟩]
      rw [hstep, gravityFold_cellAt_ne _ _ _ _ _ _ _
        (fun c' hc' he => hnotmem (by rw [show c0 = c' by omega]; exact hc'))]
      exact gravityColumn_compacted level forbid g c0.toNat r nps
        (fun row hrow => by rw [hshape.2 row hrow, hshape.1])
        (by rw [hshape.1]; omega) y hy1 (by rw [hshape.1]; exact hy2)
    · have hc2 : c ∈ cols := by
        rcases List.mem_cons.1 hc with h | h
        · exact absurd h (fun hh => hceq hh.symm)
        · exact h
      have hcol : getColumn (gravityStep level forbid gridSize (g, r, nps) c0).1 c.toNat =
          getColumn g c.toNat :=
        gravityStep_getColumn_ne level forbid gridSize (g, r, nps) c0 c.toNat
          (fun he => hceq (by omega))
      have hshape1 : gridShape (gravityStep level forbid gridSize (g, r, nps) c0).1
          gridSize := gravityStep_gridShape level forbid gridSize hshape c0
      have hres := ih (gravityStep level forbid gridSize (g, r, nps) c0).1
        (gravityStep level forbid gridSize (g, r, nps) c0).2.1
        (gravityStep level forbid gridSize (g, r, nps) c0).2.2
        c hnd2 hc2 hcnn hclt hshape1 y (by rw [hcol]; exact hy1) hy2
      rw [hcol] at hres
      exact hres

/-- C7: For every surgical-scope Grid Editor call (surgical removal of the
stage-cleared positions followed by surgical gravity, or cascade surgical
gravity over a set of removed positions), every cell in a column containing
no removed position keeps its pre-call value, and within each affected
in-range column the surviving non-blank symbols are compacted downward
preserving their relative order (below the refilled top cells, row
`y ≥ #blanks` holds the `y - #blanks`-th surviving symbol of the
post-removal column, top to bottom). -/
theorem spec_C7 :
    (∀ (grid : Grid) (scs : List StageClearedSymbol) (level : ℕ) (r : Rng)
      (forbid : Bool) (x' y : ℕ), (∀ s ∈ scs, s.position.x ≠ (x' : ℤ)) →
      cellAt (ApplyGravitySurgical (RemoveStageClearedSymbolsSurgical grid scs) scs
        level r forbid).1 x' y = cellAt grid x' y) ∧
    (∀ (grid : Grid) (ps : List Position) (level : ℕ) (r : Rng) (forbid : Bool)
      (x' y : ℕ), (∀ p ∈ ps, p.x ≠ (x' : ℤ)) →
      cellAt (ApplyGravitySurgicalForCascade grid ps level r forbid).1 x' y =
        cellAt grid x' y) ∧
    (∀ (grid : Grid) (scs : List StageClearedSymbol) (level : ℕ) (r : Rng)
      (forbid : Bool) (x : ℤ) (y : ℕ), gridShape grid grid.length →
      x ∈ scs.map (fun s => s.position.x) → 0 ≤ x → x < (grid.length : ℤ) →
      (getColumn (RemoveStageClearedSymbolsSurgical grid scs) x.toNat).count
          Symbol.blank ≤ y →
      y < grid.length →
      cellAt (ApplyGravitySurgical (RemoveStageClearedSymbolsSurgical grid scs) scs
          level r forbid).1 x.toNat y =
        ((getColumn (RemoveStageClearedSymbolsSurgical grid scs) x.toNat).filter
            (fun s => s ≠ Symbol.blank)).getD
          (y - (getColumn (RemoveStageClearedSymbolsSurgical grid scs) x.toNat).count
            Symbol.blank) Symbol.blank) ∧
    (∀ (grid : Grid) (ps : List Position) (level : ℕ) (r : Rng) (forbid : Bool)
      (x : ℤ) (y : ℕ), gridShape grid grid.length →
      x ∈ ps.map (fun p => p.x) → 0 ≤ x → x < (grid.length : ℤ) →
      (getColumn grid x.toNat).count Symbol.blank ≤ y → y < grid.length →
      cellAt (ApplyGravitySurgicalForCascade grid ps level r forbid).1 x.toNat y =
        ((getColumn grid x.toNat).filter (fun s => s ≠ Symbol.blank)).getD
          (y - (getColumn grid x.toNat).count Symbol.blank) Symbol.blank) := by
  refine ⟨?_, ?_, ?_, ?_⟩
  · intro grid scs level r forbid x' y hx
    rw [ApplyGravitySurgical_cellAt_ne _ _ _ _ _ _ _ hx]
    exact RemoveStageClearedSymbolsSurgical_cellAt_ne grid scs x' y hx
  · intro grid ps level r forbid x' y hx
    exact ApplyGravitySurgicalForCascade_cellAt_ne grid ps level r forbid x' y hx
  · intro grid scs level r forbid x y hshape hmem hnn hlt hy1 hy2
    have hshape2 : gridShape (RemoveStageClearedSymbolsSurgical grid scs) grid.length :=
      RemoveStageClearedSymbolsSurgical_gridShape hshape scs
    have hlen2 : (RemoveStageClearedSymbolsSurgical grid scs).length = grid.length :=
      hshape2.1
    rw [ApplyGravitySurgical_eq_fold, hlen2]
    exact gravityFold_compacted level forbid grid.length _ _ r [] x
      (dedupKeys_nodup _) ((mem_dedupKeys _ _).2 hmem) hnn hlt
      (hlen2 ▸ hshape2) y hy1 hy2
  · intro grid ps level r forbid x y hshape hmem hnn hlt hy1 hy2
    rw [ApplyGravitySurgicalForCascade_eq_fold]
    exact gravityFold_compacted level forbid grid.length _ _ r [] x
      (dedupKeys_nodup _) ((mem_dedupKeys _ _).2 hmem) hnn hlt hshape y hy1 hy2

/-- The stage-cleared removal list used in the C7 witness. -/
def scsC7 : List StageClearedSymbol := [⟨Symbol.orangeSlice, ⟨1, 1⟩⟩]

/-- Witness for `spec_C7` on `gsC4.grid` with the single removed position
`(1,1)`: column 0 is untouched by both flavours, and row 1 of affected
column 1 receives the first surviving symbol of that column. -/
theorem spec_C7_witness :
    ((∀ s ∈ scsC7, s.position.x ≠ ((0 : ℕ) : ℤ)) ∧
      cellAt (ApplyGravitySurgical (RemoveStageClearedSymbolsSurgical gsC4.grid scsC7)
        scsC7 1 (constRng Symbol.greenOwl) false).1 0 0 = cellAt gsC4.grid 0 0) ∧
    ((∀ p ∈ ([⟨1, 1⟩] : List Position), p.x ≠ ((0 : ℕ) : ℤ)) ∧
      cellAt (ApplyGravitySurgicalForCascade gsC4.grid [⟨1, 1⟩] 1
        (constRng Symbol.greenOwl) false).1 0 0 = cellAt gsC4.grid 0 0) ∧
    (gridShape gsC4.grid gsC4.grid.length ∧
      (1 : ℤ) ∈ scsC7.map (fun s => s.position.x) ∧
      (getColumn (RemoveStageClearedSymbolsSurgical gsC4.grid scsC7)
        (1 : ℤ).toNat).count Symbol.blank ≤ 1 ∧
      cellAt (ApplyGravitySurgical (RemoveStageClearedSymbolsSurgical gsC4.grid scsC7)
          scsC7 1 (constRng Symbol.greenOwl) false).1 (1 : ℤ).toNat 1 =
        ((getColumn (RemoveStageClearedSymbolsSurgical gsC4.grid scsC7)
            (1 : ℤ).toNat).filter (fun s => s ≠ Symbol.blank)).getD
          (1 - (getColumn (RemoveStageClearedSymbolsSurgical gsC4.grid scsC7)
            (1 : ℤ).toNat).count Symbol.blank) Symbol.blank) ∧
    ((1 : ℤ) ∈ ([⟨1, 1⟩] : List Position).map (fun p => p.x) ∧
      cellAt (ApplyGravitySurgicalForCascade gsC4.grid [⟨1, 1⟩] 1
          (constRng Symbol.greenOwl) false).1 (1 : ℤ).toNat 0 =
        ((getColumn gsC4.grid (1 : ℤ).toNat).filter
            (fun s => s ≠ Symbol.blank)).getD
          (0 - (getColumn gsC4.grid (1 : ℤ).toNat).count Symbol.blank) Symbol.blank) :=
  ⟨⟨by decide, spec_C7.1 gsC4.grid scsC7 1 (constRng Symbol.greenOwl) false 0 0
      (by decide)⟩,
    ⟨by decide, spec_C7.2.1 gsC4.grid [⟨1, 1⟩] 1 (constRng Symbol.greenOwl) false 0 0
      (by decide)⟩,
    ⟨⟨rfl, by decide⟩, by decide, by decide,
      spec_C7.2.2.1 gsC4.grid scsC7 1 (constRng Symbol.greenOwl) false 1 1
        ⟨rfl, by decide⟩ (by decide) (by decide) (by decide) (by decide) (by decide)⟩,
    ⟨by decide,
      spec_C7.2.2.2 gsC4.grid [⟨1, 1⟩] 1 (constRng Symbol.greenOwl) false 1 0
        ⟨rfl, by decide⟩ (by decide) (by decide) (by decide) (by decide) (by decide)⟩⟩

/-! ### Free-game cap -/

theorem freeGame_not_mem_erase (level : ℕ) :
    Symbol.freeGame ∉ (GetLevelSpecificWeightsKeys level).erase Symbol.freeGame := by
  unfold GetLevelSpecificWeightsKeys
  split <;> decide

theorem WeightedRandomSymbolWithControl_forbid_ne (level : ℕ) (raw : Symbol) :
    WeightedRandomSymbolWithControl level raw true ≠ Symbol.freeGame := by
  unfold WeightedRandomSymbolWithControl
  dsimp only
  rw [if_pos rfl]
  split
  next h => exact fun he => freeGame_not_mem_erase level (he ▸ h)
  next => decide

theorem drawSym_forbid_ne (r : Rng) (level : ℕ) :
    (r.drawSym level true).1 ≠ Symbol.freeGame :=
  WeightedRandomSymbolWithControl_forbid_ne level (r.symOracle r.si)

theorem generateCells_fg (level : ℕ) (forbid : Bool) (n : ℕ) :
    ∀ (placed : Bool) (r : Rng),
    (generateCells level forbid n placed r).1.count Symbol.freeGame +
        cond placed 1 0 =
      cond (generateCells level forbid n placed r).2.1 1 0 := by
  induction n with
  | zero => intro placed r; simp [generateCells]
  | succ n ih =>
    intro placed r
    cases placed with
    | true =>
      unfold generateCells
      dsimp only
      simp only [Bool.not_true, Bool.false_and, Bool.not_false]
      rcases hdraw : r.drawSym level true with ⟨sym, r2⟩
      have hs : sym ≠ Symbol.freeGame := by
        have := drawSym_forbid_ne r level
        rwa [hdraw] at this
      dsimp only
      rcases hrest : generateCells level forbid n (true || decide (sym = Symbol.freeGame))
          r2 with ⟨rest, placedF, rF⟩
      dsimp only
      have h := ih (true || decide (sym = Symbol.freeGame)) r2
      rw [hrest] at h
      dsimp only at h
      simp only [Bool.true_or, cond_true] at h
      simp [Ne.symm hs, hs, List.count_cons]
      omega
    | false =>
      unfold generateCells
      dsimp only
      simp only [Bool.not_false, Bool.true_and]
      rcases hdraw : r.drawSym level (!!forbid) with ⟨sym, r2⟩
      dsimp only
      rcases hrest : generateCells level forbid n (false || decide (sym = Symbol.freeGame))
          r2 with ⟨rest, placedF, rF⟩
      dsimp only
      have h := ih (false || decide (sym = Symbol.freeGame)) r2
      rw [hrest] at h
      dsimp only at h
      simp only [Bool.false_or] at h
      by_cases hsym : sym = Symbol.freeGame
      · subst hsym
        simp at h ⊢
        omega
      · simp [hsym, Ne.symm hsym] at h ⊢
        omega

theorem generateRows_fg (level : ℕ) (forbid : Bool) (gs : ℕ) (k : ℕ) :
    ∀ (placed : Bool) (r : Rng),
    (((generateRows level forbid gs k placed r).1.map
        (fun row => row.count Symbol.freeGame)).sum + cond placed 1 0) =
      cond (generateRows level forbid gs k placed r).2.1 1 0 := by
  induction k with
  | zero => intro placed r; simp [generateRows]
  | succ k ih =>
    intro placed r
    unfold generateRows
    rcases hrow : generateCells level forbid gs placed r with ⟨row, placed2, r2⟩
    dsimp only
    rcases hrest : generateRows level forbid gs k placed2 r2 with ⟨rest, placedF, rF⟩
    dsimp only
    have h1 := generateCells_fg level forbid gs placed r
    rw [hrow] at h1
    dsimp only at h1
    have h2 := ih placed2 r2
    rw [hrest] at h2
    dsimp only at h2
    simp only [List.map_cons, List.sum_cons]
    omega

theorem count_range_getD (row : List Symbol) :
    ((List.range row.length).filter
      (fun x => decide (row.getD x Symbol.blank = Symbol.freeGame))).length =
    row.count Symbol.freeGame := by
  induction row with
  | nil => rfl
  | cons a row ih =>
    have hcomp : ((fun x => decide ((a :: row).getD x Symbol.blank = Symbol.freeGame)) ∘
        Nat.succ) = (fun x => decide (row.getD x Symbol.blank = Symbol.freeGame)) := by
      funext x
      simp [Function.comp, List.getD_cons_succ]
    rw [List.length_cons, List.range_succ_eq_map, List.filter_cons]
    simp only [List.filter_map, hcomp, List.length_map]
    by_cases ha : a = Symbol.freeGame
    · subst ha
      rw [if_pos (by simp)]
      simp only [List.length_cons, List.length_map, ih]
      simp [List.count_cons]
    · rw [if_neg (by simp [ha])]
      simp only [List.length_map, ih]
      simp [List.count_cons, Ne.symm ha, ha]

theorem CountFreeGameSymbols_eq_sum (g : Grid)
    (hsq : ∀ row ∈ g, row.length = g.length) :
    CountFreeGameSymbols g = (g.map (fun row => row.count Symbol.freeGame)).sum := by
  unfold CountFreeGameSymbols
  congr 1
  apply List.ext_get (by simp)
  intro y hy hy'
  simp only [List.get_eq_getElem, List.getElem_map, List.getElem_range]
  have hyg : y < g.length := by simpa using hy'
  have hrow : g.getD y [] = g[y] := List.getD_eq_getElem g [] hyg
  have hlen : (g[y]).length = g.length := hsq _ (List.getElem_mem hyg)
  unfold cellAt
  rw [hrow]
  have hgen : ∀ (row : List Symbol) (n : ℕ), row.length = n →
      ((List.range n).filter
        (fun x => decide (row.getD x Symbol.blank = Symbol.freeGame))).length =
      row.count Symbol.freeGame := by
    intro row n hn
    subst hn
    exact count_range_getD row
  exact hgen (g[y]) g.length hlen

theorem GenerateGrid_fg_cap (level : ℕ) (forbid : Bool) (r : Rng) :
    CountFreeGameSymbols (GenerateGrid level r forbid).1 ≤ 1 := by
  have hshape := GenerateGrid_gridShape level r forbid
  rw [CountFreeGameSymbols_eq_sum _ (fun row hrow => by
    rw [hshape.2 row hrow, hshape.1])]
  unfold GenerateGrid
  dsimp only
  rcases hrows : generateRows level forbid (GetGridSize level) (GetGridSize level)
      false r with ⟨grid, placedF, rF⟩
  dsimp only
  have h := generateRows_fg level forbid (GetGridSize level) (GetGridSize level) false r
  rw [hrows] at h
  dsimp only at h
  simp only [cond_false] at h
  cases placedF <;> simp only [cond_true, cond_false] at h <;> omega

/-- Total number of `free_game` cells, as a sum of per-row counts. -/
def fgSum (g : Grid) : ℕ := (g.map (fun row => row.count Symbol.freeGame)).sum

theorem count_set_le (row : List Symbol) :
    ∀ (x : ℕ) (v a : Symbol),
    (row.set x v).count a ≤ row.count a + (if v = a then 1 else 0) := by
  induction row with
  | nil => intro x v a; simp
  | cons b row ih =>
    intro x v a
    cases x with
    | zero =>
      simp only [List.set_cons_zero, List.count_cons, beq_iff_eq]
      omega
    | succ x =>
      simp only [List.set_cons_succ, List.count_cons, beq_iff_eq]
      have := ih x v a
      omega

theorem fgSum_setCell_le (g : Grid) :
    ∀ (y x : ℕ) (s : Symbol),
    fgSum (setCell g x y s) ≤ fgSum g + (if s = Symbol.freeGame then 1 else 0) := by
  induction g with
  | nil => intro y x s; simp [fgSum, setCell]
  | cons row g ih =>
    intro y x s
    cases y with
    | zero =>
      show fgSum ((row.set x s) :: g) ≤ _
      simp only [fgSum, List.map_cons, List.sum_cons] at *
      have := count_set_le row x s Symbol.freeGame
      omega
    | succ y =>
      show fgSum (row :: setCell g x y s) ≤ _
      simp only [fgSum, List.map_cons, List.sum_cons] at *
      have := ih y x s
      omega

theorem hasFreeGameSymbol_false {g : Grid} (h : hasFreeGameSymbol g = false) :
    fgSum g = 0 := by
  unfold hasFreeGameSymbol at h
  rw [List.any_eq_false] at h
  unfold fgSum
  apply List.sum_eq_zero
  intro n hn
  obtain ⟨row, hrow, hcount⟩ := List.mem_map.1 hn
  rw [← hcount, List.count_eq_zero]
  intro hmem
  have h2 := h row hrow
  exact h2 (List.any_eq_true.2 ⟨Symbol.freeGame, hmem, by simp⟩)

theorem refillLoop_fgSum (level : ℕ) (forbid : Bool) (x : ℕ) (ys : List ℕ) :
    ∀ (g : Grid) (r : Rng) (nps : List Position), fgSum g ≤ 1 →
    fgSum (refillLoop level forbid x ys g r nps).1 ≤ 1 := by
  induction ys with
  | nil => intro g r nps h; exact h
  | cons y ys ih =>
    intro g r nps h
    unfold refillLoop
    dsimp only
    apply ih
    cases hFree : hasFreeGameSymbol g with
    | true =>
      simp only [Bool.not_true, Bool.false_and, Bool.not_false]
      have hdraw := drawSym_forbid_ne r level
      have hle := fgSum_setCell_le g y x (r.drawSym level true).1
      rw [if_neg hdraw] at hle
      omega
    | false =>
      simp only [Bool.not_false, Bool.true_and, Bool.not_not]
      have h0 : fgSum g = 0 := hasFreeGameSymbol_false hFree
      have hle := fgSum_setCell_le g y x (r.drawSym level forbid).1
      have hone : (if (r.drawSym level forbid).1 = Symbol.freeGame then 1 else 0) ≤ 1 := by
        split <;> omega
      omega

theorem count_set_exchange (row : List Symbol) :
    ∀ (x : ℕ) (v a : Symbol), x < row.length →
    (row.set x v).count a + (if row.getD x Symbol.blank = a then 1 else 0) =
      row.count a + (if v = a then 1 else 0) := by
  induction row with
  | nil => intro x v a hx; simp at hx
  | cons b row ih =>
    intro x v a hx
    cases x with
    | zero =>
      simp only [List.set_cons_zero, List.count_cons, beq_iff_eq, List.getD_cons_zero]
      omega
    | succ x =>
      simp only [List.set_cons_succ, List.count_cons, beq_iff_eq, List.getD_cons_succ]
      have := ih x v a (by simpa using hx)
      omega

theorem fgSum_setColumn (g : Grid) :
    ∀ (x : ℕ) (col : List Symbol), col.length = g.length →
    (∀ row ∈ g, x < row.length) →
    fgSum (setColumn g x col) + (getColumn g x).count Symbol.freeGame =
      fgSum g + col.count Symbol.freeGame := by
  induction g with
  | nil =>
    intro x col hlen _
    rw [List.length_nil, List.length_eq_zero] at hlen
    subst hlen
    rfl
  | cons row g ih =>
    intro x col hlen hx
    cases col with
    | nil => simp at hlen
    | cons v col =>
      show fgSum ((row.set x v) :: setColumn g x col) +
          ((row.getD x Symbol.blank) :: getColumn g x).count Symbol.freeGame = _
      simp only [fgSum, List.map_cons, List.sum_cons, List.count_cons, beq_iff_eq]
      have h1 := count_set_exchange row x v Symbol.freeGame
        (hx row (List.mem_cons_self ..))
      have h2 := ih x col (by simpa using hlen)
        (fun rw2 hrw2 => hx rw2 (List.mem_cons_of_mem _ hrw2))
      simp only [fgSum] at h2
      omega

theorem gravityColumn_fgSum (level : ℕ) (forbid : Bool) (g : Grid) (x : ℕ) (r : Rng)
    (nps : List Position) (hsq : ∀ row ∈ g, row.length = g.length) (hx : x < g.length)
    (h : fgSum g ≤ 1) : fgSum (gravityColumn level forbid g x r nps).1 ≤ 1 := by
  have hcomp := compactLoop_full (getColumn g x)
  rw [getColumn_length] at hcomp
  unfold gravityColumn
  dsimp only
  rw [hcomp]
  dsimp only
  apply refillLoop_fgSum
  have hlen' : (List.replicate ((getColumn g x).count Symbol.blank) Symbol.blank ++
      (getColumn g x).filter (fun c => c ≠ Symbol.blank)).length = g.length := by
    have hl := compactLoop_length (List.range g.length).reverse (getColumn g x)
      ((g.length : ℤ) - 1)
    rw [hcomp] at hl
    simpa [getColumn_length] using hl
  have hexch := fgSum_setColumn g x
    (List.replicate ((getColumn g x).count Symbol.blank) Symbol.blank ++
      (getColumn g x).filter (fun c => c ≠ Symbol.blank)) hlen'
    (fun row hrow => by rw [hsq row hrow]; exact hx)
  have hcnt : (List.replicate ((getColumn g x).count Symbol.blank) Symbol.blank ++
      (getColumn g x).filter (fun c => c ≠ Symbol.blank)).count Symbol.freeGame =
      (getColumn g x).count Symbol.freeGame := by
    rw [List.count_append]
    simp [List.count_replicate, List.count_filter]
  rw [hcnt] at hexch
  omega

theorem gravityFold_fgSum (level : ℕ) (forbid : Bool) (gridSize : ℕ) (cols : List ℤ)
    (acc : Grid × Rng × List Position)
    (h : fgSum acc.1 ≤ 1 ∧ gridShape acc.1 gridSize) :
    fgSum ((cols.foldl (gravityStep level forbid gridSize) acc).1) ≤ 1 := by
  refine (foldl_invariant (gravityStep level forbid gridSize)
    (P := fun a : Grid × Rng × List Position => fgSum a.1 ≤ 1 ∧ gridShape a.1 gridSize)
    ?_ cols acc h).1
  rintro ⟨g0, r0, nps0⟩ c ⟨hsum, hshape⟩
  unfold gravityStep
  dsimp only
  split
  next hb =>
    constructor
    · apply gravityColumn_fgSum level forbid g0 c.toNat r0 nps0
        (fun row hrow => by rw [hshape.2 row hrow, hshape.1])
        (by rw [hshape.1]; omega) hsum
    · exact gravityColumn_gridShape level forbid hshape _ _ _
  next => exact ⟨hsum, hshape⟩

theorem ApplyGravitySurgical_fg_cap (g : Grid) (scs : List StageClearedSymbol)
    (level : ℕ) (r : Rng) (forbid : Bool) (hshape : gridShape g g.length)
    (h : CountFreeGameSymbols g ≤ 1) :
    CountFreeGameSymbols (ApplyGravitySurgical g scs level r forbid).1 ≤ 1 := by
  have hshape' : gridShape (ApplyGravitySurgical g scs level r forbid).1 g.length :=
    ApplyGravitySurgical_gridShape hshape scs level r forbid
  rw [CountFreeGameSymbols_eq_sum g (fun row hrow => hshape.2 row hrow)] at h
  rw [CountFreeGameSymbols_eq_sum _ (fun row hrow => by
    rw [hshape'.2 row hrow, hshape'.1])]
  rw [ApplyGravitySurgical_eq_fold]
  exact gravityFold_fgSum level forbid g.length _ _ ⟨h, hshape⟩

theorem ApplyGravitySurgicalForCascade_fg_cap (g : Grid) (ps : List Position)
    (level : ℕ) (r : Rng) (forbid : Bool) (hshape : gridShape g g.length)
    (h : CountFreeGameSymbols g ≤ 1) :
    CountFreeGameSymbols (ApplyGravitySurgicalForCascade g ps level r forbid).1 ≤ 1 := by
  have hshape' : gridShape (ApplyGravitySurgicalForCascade g ps level r forbid).1
      g.length := ApplyGravitySurgicalForCascade_gridShape hshape ps level r forbid
  rw [CountFreeGameSymbols_eq_sum g (fun row hrow => hshape.2 row hrow)] at h
  rw [CountFreeGameSymbols_eq_sum _ (fun row hrow => by
    rw [hshape'.2 row hrow, hshape'.1])]
  rw [ApplyGravitySurgicalForCascade_eq_fold]
  exact gravityFold_fgSum level forbid g.length _ _ ⟨h, hshape⟩

theorem setCellP_fgSum_le_of_ne (g : Grid) (p : Position) {s : Symbol}
    (hs : s ≠ Symbol.freeGame) : fgSum (setCellP g p s) ≤ fgSum g := by
  have h := fgSum_setCell_le g p.y.toNat p.x.toNat s
  rw [if_neg hs] at h
  simpa [setCellP] using h

theorem surgicalLossModLoop_fgSum (level : ℕ) (cap : ℕ) :
    ∀ (keys : List Position) (modified : ℕ) (tg : Grid) (r : Rng) (g' : Grid),
    (surgicalLossModLoop level true cap keys modified tg r).1 = some g' →
    fgSum g' ≤ fgSum tg := by
  intro keys
  induction keys with
  | nil => intro modified tg r g' h; simp [surgicalLossModLoop] at h
  | cons k keys ih =>
    intro modified tg r g' h
    rw [surgicalLossModLoop] at h
    split at h
    · simp at h
    · split at h
      · simp only at h
        split at h
        · simp only [Option.some.injEq] at h
          rw [← h]
          exact setCellP_fgSum_le_of_ne tg k (drawSym_forbid_ne r level)
        · exact le_trans (ih _ _ _ _ h)
            (setCellP_fgSum_le_of_ne tg k (drawSym_forbid_ne r level))
      · exact ih _ _ _ _ h

theorem surgicalLossAttemptLoop_fgSum (level : ℕ) (allowed : List Position) (cap : ℕ)
    (grid : Grid) : ∀ (attempts : ℕ) (r : Rng) (g' : Grid),
    (surgicalLossAttemptLoop level true allowed cap grid attempts r).1 = some g' →
    fgSum g' ≤ fgSum grid := by
  intro attempts
  induction attempts with
  | zero => intro r g' h; simp [surgicalLossAttemptLoop] at h
  | succ a ih =>
    intro r g' h
    rw [surgicalLossAttemptLoop] at h
    simp only at h
    split at h
    next heq =>
      simp only [Option.some.injEq] at h
      subst h
      exact surgicalLossModLoop_fgSum level cap allowed 0 grid _ _ heq
    next => exact ih _ _ h

theorem ApplySurgicalLoss_fg_cap (gs : GameState) (og : Grid)
    (scs : List StageClearedSymbol) (level : ℕ) (r : Rng) (nps : List Position)
    (hmode : gs.gameMode = "freeSpins") (hshape : gridShape gs.grid gs.grid.length)
    (h : CountFreeGameSymbols gs.grid ≤ 1) :
    CountFreeGameSymbols (ApplySurgicalLoss gs og scs level r nps).2.1.grid ≤ 1 := by
  have hshape2 := ApplySurgicalLoss_grid_shape hshape og scs level r nps
  rw [CountFreeGameSymbols_eq_sum _ (fun row hrow => hshape.2 row hrow)] at h
  rw [CountFreeGameSymbols_eq_sum _ (fun row hrow => by
    rw [hshape2.2 row hrow, hshape2.1])]
  have hforb : decide (("freeSpins" : String) = "freeSpins") = true := by decide
  simp only [ApplySurgicalLoss, hmode, hforb]
  split
  · exact h
  · split
    next g2 _ heq =>
      exact le_trans (surgicalLossAttemptLoop_fgSum level _ _ _ 50 r _ heq) h
    next => exact h

theorem ApplySurgicalLossForCascade_fg_cap (gs : GameState) (og : Grid)
    (nps : List Position) (level : ℕ) (r : Rng)
    (hmode : gs.gameMode = "freeSpins") (hshape : gridShape gs.grid gs.grid.length)
    (h : CountFreeGameSymbols gs.grid ≤ 1) :
    CountFreeGameSymbols (ApplySurgicalLossForCascade gs og nps level r).2.1.grid ≤ 1 := by
  have hshape2 := ApplySurgicalLossForCascade_grid_shape hshape og nps level r
  rw [CountFreeGameSymbols_eq_sum _ (fun row hrow => hshape.2 row hrow)] at h
  rw [CountFreeGameSymbols_eq_sum _ (fun row hrow => by
    rw [hshape2.2 row hrow, hshape2.1])]
  have hforb : decide (("freeSpins" : String) = "freeSpins") = true := by decide
  simp only [ApplySurgicalLossForCascade, hmode, hforb]
  split
  · exact h
  · split
    next g2 _ heq =>
      exact le_trans (surgicalLossAttemptLoop_fgSum level _ _ _ 50 r _ heq) h
    next => exact h

/-- C4 (amended): the free-game cap.  Every grid produced by `GenerateGrid`
holds at most one `free_game` cell (for every oracle and both latch modes);
both surgical gravity refill passes preserve the cap on any square grid; and
the surgical-loss reconciliation redraws preserve the cap whenever the game
is in free-spins mode (the mode in which the Go code forbids the
`free_game` key).  In base mode a reconciliation redraw can violate the cap
(see the counterexample). -/
theorem spec_C4 :
    (∀ (level : ℕ) (r : Rng) (forbid : Bool),
      CountFreeGameSymbols (GenerateGrid level r forbid).1 ≤ 1) ∧
    (∀ (g : Grid) (scs : List StageClearedSymbol) (level : ℕ) (r : Rng) (forbid : Bool),
      gridShape g g.length → CountFreeGameSymbols g ≤ 1 →
      CountFreeGameSymbols (ApplyGravitySurgical g scs level r forbid).1 ≤ 1) ∧
    (∀ (g : Grid) (ps : List Position) (level : ℕ) (r : Rng) (forbid : Bool),
      gridShape g g.length → CountFreeGameSymbols g ≤ 1 →
      CountFreeGameSymbols (ApplyGravitySurgicalForCascade g ps level r forbid).1 ≤ 1) ∧
    (∀ (gs : GameState) (og : Grid) (scs : List StageClearedSymbol) (level : ℕ)
      (r : Rng) (nps : List Position), gs.gameMode = "freeSpins" →
      gridShape gs.grid gs.grid.length → CountFreeGameSymbols gs.grid ≤ 1 →
      CountFreeGameSymbols (ApplySurgicalLoss gs og scs level r nps).2.1.grid ≤ 1) ∧
    (∀ (gs : GameState) (og : Grid) (nps : List Position) (level : ℕ) (r : Rng),
      gs.gameMode = "freeSpins" →
      gridShape gs.grid gs.grid.length → CountFreeGameSymbols gs.grid ≤ 1 →
      CountFreeGameSymbols (ApplySurgicalLossForCascade gs og nps level r).2.1.grid
        ≤ 1) :=
  ⟨fun level r forbid => GenerateGrid_fg_cap level forbid r,
    fun g scs level r forbid h1 h2 => ApplyGravitySurgical_fg_cap g scs level r forbid h1 h2,
    fun g ps level r forbid h1 h2 =>
      ApplyGravitySurgicalForCascade_fg_cap g ps level r forbid h1 h2,
    fun gs og scs level r nps h0 h1 h2 =>
      ApplySurgicalLoss_fg_cap gs og scs level r nps h0 h1 h2,
    fun gs og nps level r h0 h1 h2 =>
      ApplySurgicalLossForCascade_fg_cap gs og nps level r h0 h1 h2⟩

/-- `gsC4` switched into free-spins mode, for the C4 witness. -/
def gsC4fs : GameState := { gsC4 with gameMode := "freeSpins" }

/-- Witness for `spec_C4`: the cap holds on a freshly generated level-1 grid
under an oracle that always proposes `free_game`, is preserved by both
gravity flavours on `gsC4.grid`, and is preserved by both surgical-loss
flavours in free-spins mode. -/
theorem spec_C4_witness :
    CountFreeGameSymbols (GenerateGrid 1 (constRng Symbol.freeGame) false).1 ≤ 1 ∧
    (gridShape gsC4.grid gsC4.grid.length ∧ CountFreeGameSymbols gsC4.grid ≤ 1 ∧
      CountFreeGameSymbols (ApplyGravitySurgical gsC4.grid scsC7 1
        (constRng Symbol.freeGame) false).1 ≤ 1) ∧
    CountFreeGameSymbols (ApplyGravitySurgicalForCascade gsC4.grid [⟨1, 1⟩] 1
      (constRng Symbol.freeGame) false).1 ≤ 1 ∧
    (gsC4fs.gameMode = "freeSpins" ∧
      CountFreeGameSymbols (ApplySurgicalLoss gsC4fs [] [] 1 (constRng Symbol.freeGame)
        [⟨3, 3⟩]).2.1.grid ≤ 1) ∧
    CountFreeGameSymbols (ApplySurgicalLossForCascade gsC4fs [] [⟨3, 3⟩] 1
      (constRng Symbol.freeGame)).2.1.grid ≤ 1 :=
  ⟨spec_C4.1 1 (constRng Symbol.freeGame) false,
    ⟨⟨rfl, by decide⟩, by decide,
      spec_C4.2.1 gsC4.grid scsC7 1 (constRng Symbol.freeGame) false ⟨rfl, by decide⟩
        (by decide)⟩,
    spec_C4.2.2.1 gsC4.grid [⟨1, 1⟩] 1 (constRng Symbol.freeGame) false ⟨rfl, by decide⟩
      (by decide),
    ⟨rfl, spec_C4.2.2.2.1 gsC4fs [] [] 1 (constRng Symbol.freeGame) [⟨3, 3⟩] rfl
      ⟨rfl, by decide⟩ (by decide)⟩,
    spec_C4.2.2.2.2 gsC4fs [] [⟨3, 3⟩] 1 (constRng Symbol.freeGame) rfl
      ⟨rfl, by decide⟩ (by decide)⟩

/-! ### Reconciliation fail-closed lemmas -/

theorem stageClearedRngSection_bypass (gs : GameState) (og : Grid)
    (scs : List StageClearedSymbol) (nps : List Position) (conns : List Connection)
    (tw : ℚ) (rtp : ℚ) (r : Rng) (hconn : 0 < conns.length)
    (hfail : (ApplySurgicalLoss gs og scs gs.currentLevel r nps).1 = false) :
    stageClearedRngSection gs og scs nps conns tw ⟨some rtp, some "loss"⟩ r =
      .ok (gs, conns, tw, true,
        (ApplySurgicalLoss gs og scs gs.currentLevel r nps).2.2) := by
  unfold stageClearedRngSection
  rw [if_pos hconn]
  dsimp only
  rw [if_pos rfl]
  rcases hres : ApplySurgicalLoss gs og scs gs.currentLevel r nps with ⟨b, gs2, r2⟩
  have hb : b = false := by rw [hres] at hfail; exact hfail
  subst hb
  dsimp only
  rw [if_pos rfl]
  rw [ApplySurgicalLoss_false_state hres]

theorem cascadeRngSection_bypass (gs : GameState) (og : Grid) (nps : List Position)
    (conns : List Connection) (tw : ℚ) (rtp : ℚ) (r : Rng) (hconn : 0 < conns.length)
    (hfail : (ApplySurgicalLossForCascade gs og nps gs.currentLevel r).1 = false) :
    cascadeRngSection gs og nps conns tw ⟨some rtp, some "loss"⟩ r =
      .ok (gs, conns, tw, true,
        (ApplySurgicalLossForCascade gs og nps gs.currentLevel r).2.2) := by
  unfold cascadeRngSection
  rw [if_pos hconn]
  dsimp only
  rw [if_pos rfl]
  rcases hres : ApplySurgicalLossForCascade gs og nps gs.currentLevel r with ⟨b, gs2, r2⟩
  have hb : b = false := by rw [hres] at hfail; exact hfail
  subst hb
  dsimp only
  rw [if_pos rfl]
  rw [ApplySurgicalLossForCascade_false_state hres]

theorem cascadeFinish_spec (gs : GameState) (conns : List Connection) (tw : ℚ)
    (byp : Bool) (r : Rng) :
    (cascadeFinish gs conns tw byp r).status = "success" ∧
    (cascadeFinish gs conns tw byp r).connections = conns ∧
    (cascadeFinish gs conns tw byp r).gameState.totalWin = tw ∧
    (cascadeFinish gs conns tw byp r).gameState.grid = gs.grid ∧
    (cascadeFinish gs conns tw byp r).totalCost = 0 := by
  unfold cascadeFinish
  dsimp only
  refine ⟨rfl, rfl, rfl, ?_, rfl⟩
  split
  · split <;> rfl
  · rfl

theorem CascadeHandler_ok_of_section (req : Request) (svc : Services) (r : Rng)
    (hval : validateRequest req.clientID req.gameID req.playerID req.betID
      req.gameState.bet.amount = none)
    (hdim : ValidateGridDimensions req.gameState.grid req.gameState.currentLevel = true)
    (gs2 : GameState) (conns2 : List Connection) (tw2 : ℚ) (byp2 : Bool) (r2 : Rng)
    (hsec : cascadeRngSection (cascadeMid req r).1 req.gameState.grid
        (cascadeMid req r).2.1 (cascadeMid req r).2.2.1 (cascadeMid req r).2.2.2.1 svc
        (cascadeMid req r).2.2.2.2 = .ok (gs2, conns2, tw2, byp2, r2)) :
    CascadeHandler req svc r = .ok (cascadeFinish gs2 conns2 tw2 byp2 r2) := by
  unfold CascadeHandler
  rw [hval]
  dsimp only
  rw [if_neg (by rw [hdim]; simp)]
  rcases hmid : cascadeMid req r with ⟨gs1, nps1, conns1, tw1, r1⟩
  rw [hmid] at hsec
  dsimp only at hsec
  dsimp only
  rw [hsec]

theorem ProcessStageClearedHandler_ok_status (req : Request) (svc : Services) (r : Rng)
    (resp : ProcessStageClearedResponse)
    (h : ProcessStageClearedHandler req svc r = .ok resp) :
    resp.status = "success" ∧ resp.totalCost = 0 := by
  unfold ProcessStageClearedHandler at h
  split at h
  · exact Except.noConfusion h
  · split at h
    · exact Except.noConfusion h
    · dsimp only at h
      split at h
      · simp only [Except.ok.injEq] at h
        subst h
        exact ⟨rfl, rfl⟩
      · split at h
        · exact Except.noConfusion h
        · simp only [Except.ok.injEq] at h
          subst h
          exact ⟨rfl, rfl⟩

/-- C6: If no surgical-loss attempt within the 50-attempt cap eliminates all
regular connections, reconciliation fails closed in both handlers: the RNG
section returns `ok` (not an error) with the game state (hence the grid),
the connections and the total winnings computed before reconciliation
unchanged and the bypass flag set; the cascade handler then completes with
the response assembled by `cascadeFinish`, whose status is "success" and
which carries those preserved values; and every `ok` response of the
stage-cleared handler likewise has status "success". -/
theorem spec_C6 :
    (∀ (gs : GameState) (og : Grid) (scs : List StageClearedSymbol)
      (nps : List Position) (conns : List Connection) (tw rtp : ℚ) (r : Rng),
      0 < conns.length →
      (ApplySurgicalLoss gs og scs gs.currentLevel r nps).1 = false →
      stageClearedRngSection gs og scs nps conns tw ⟨some rtp, some "loss"⟩ r =
        .ok (gs, conns, tw, true,
          (ApplySurgicalLoss gs og scs gs.currentLevel r nps).2.2)) ∧
    (∀ (gs : GameState) (og : Grid) (nps : List Position) (conns : List Connection)
      (tw rtp : ℚ) (r : Rng), 0 < conns.length →
      (ApplySurgicalLossForCascade gs og nps gs.currentLevel r).1 = false →
      cascadeRngSection gs og nps conns tw ⟨some rtp, some "loss"⟩ r =
        .ok (gs, conns, tw, true,
          (ApplySurgicalLossForCascade gs og nps gs.currentLevel r).2.2)) ∧
    (∀ (gs : GameState) (conns : List Connection) (tw : ℚ) (byp : Bool) (r : Rng),
      (cascadeFinish gs conns tw byp r).status = "success" ∧
      (cascadeFinish gs conns tw byp r).connections = conns ∧
      (cascadeFinish gs conns tw byp r).gameState.totalWin = tw ∧
      (cascadeFinish gs conns tw byp r).gameState.grid = gs.grid ∧
      (cascadeFinish gs conns tw byp r).totalCost = 0) ∧
    (∀ (req : Request) (svc : Services) (r : Rng) (gs2 : GameState)
      (conns2 : List Connection) (tw2 : ℚ) (byp2 : Bool) (r2 : Rng),
      validateRequest req.clientID req.gameID req.playerID req.betID
        req.gameState.bet.amount = none →
      ValidateGridDimensions req.gameState.grid req.gameState.currentLevel = true →
      cascadeRngSection (cascadeMid req r).1 req.gameState.grid
        (cascadeMid req r).2.1 (cascadeMid req r).2.2.1 (cascadeMid req r).2.2.2.1 svc
        (cascadeMid req r).2.2.2.2 = .ok (gs2, conns2, tw2, byp2, r2) →
      CascadeHandler req svc r = .ok (cascadeFinish gs2 conns2 tw2 byp2 r2)) ∧
    (∀ (req : Request) (svc : Services) (r : Rng) (resp : ProcessStageClearedResponse),
      ProcessStageClearedHandler req svc r = .ok resp →
      resp.status = "success" ∧ resp.totalCost = 0) :=
  ⟨stageClearedRngSection_bypass, cascadeRngSection_bypass,
    cascadeFinish_spec,
    fun req svc r gs2 conns2 tw2 byp2 r2 hval hdim hsec =>
      CascadeHandler_ok_of_section req svc r hval hdim gs2 conns2 tw2 byp2 r2 hsec,
    ProcessStageClearedHandler_ok_status⟩

/-- A grid whose purple 2-by-2 block at columns 2-3, rows 2-3 cannot be
broken by edits at position `(0,0)`: reconciliation over that editable set
must exhaust its attempts. -/
def gridC6 : Grid :=
  [[.redOwl, .yellowOwl, .blueOwl, .yellowOwl],
   [.yellowOwl, .blueOwl, .yellowOwl, .blueOwl],
   [.blueOwl, .yellowOwl, .purpleOwl, .purpleOwl],
   [.yellowOwl, .redOwl, .purpleOwl, .purpleOwl]]

/-- `gridC6` after the cascade removal of `(0,0)` and the gravity refill
(the refilled cell drew `green_owl`). -/
def gsC6post : GameState where
  bet := { amount := mkRat 1 10, multiplier := 1 }
  currentLevel := 1
  gridSize := 4
  grid := [[.greenOwl, .yellowOwl, .blueOwl, .yellowOwl],
           [.yellowOwl, .blueOwl, .yellowOwl, .blueOwl],
           [.blueOwl, .yellowOwl, .purpleOwl, .purpleOwl],
           [.yellowOwl, .redOwl, .purpleOwl, .purpleOwl]]
  stageProgress := 0
  gameMode := "base"
  freeSpins := { remaining := 0, totalAwarded := 0, multiplier := 1 }
  totalWin := 0
  cascading := true
  lastConnections := []
  cascadeCount := 2
  stageClearedSymbols := []

/-- A nonempty placeholder connection list. -/
def connsC6 : List Connection := [⟨Symbol.purpleOwl, [], 4, 0⟩]

/-- The cascade request driving the C6 exhaustion witness: cascade count 1
with one previous single-cell connection at `(0,0)`. -/
def reqC6 : Request where
  gameState := {
    bet := { amount := mkRat 1 10, multiplier := 1 }
    currentLevel := 1
    gridSize := 4
    grid := gridC6
    stageProgress := 0
    gameMode := "base"
    freeSpins := { remaining := 0, totalAwarded := 0, multiplier := 1 }
    totalWin := 0
    cascading := true
    lastConnections := [⟨Symbol.redOwl, [⟨0, 0⟩], 1, 0⟩]
    cascadeCount := 1
    stageClearedSymbols := [] }
  clientID := "c"
  gameID := "g"
  playerID := "p"
  betID := "b"

/-- The oracle used in the C6 witness. -/
def rC6 : Rng := constRng Symbol.greenOwl

/-- The RNG-section output of the C6 cascade run. -/
def outC6 : GameState × List Connection × ℚ × Bool × Rng :=
  okOr (InitializeGameState, ([] : List Connection), (0 : ℚ), false, rC6)
    (cascadeRngSection (cascadeMid reqC6 rC6).1 reqC6.gameState.grid
      (cascadeMid reqC6 rC6).2.1 (cascadeMid reqC6 rC6).2.2.1
      (cascadeMid reqC6 rC6).2.2.2.1 svcLoss (cascadeMid reqC6 rC6).2.2.2.2)

/-- Witness for `spec_C6`: on `gsC6post` with editable set `[(0,0)]` all 50
attempts of both surgical-loss flavours fail, both RNG sections return the
bypassed `ok` tuple, the full cascade call on `reqC6` completes as
`cascadeFinish` of its section output, and a successful stage-cleared call
reports status "success". -/
theorem spec_C6_witness :
    ((0 < connsC6.length ∧
      (ApplySurgicalLoss gsC6post [] [] gsC6post.currentLevel rC6 [⟨0, 0⟩]).1 = false) ∧
      stageClearedRngSection gsC6post [] [] [⟨0, 0⟩] connsC6 5 ⟨some 95, some "loss"⟩
          rC6 =
        .ok (gsC6post, connsC6, 5, true,
          (ApplySurgicalLoss gsC6post [] [] gsC6post.currentLevel rC6 [⟨0, 0⟩]).2.2)) ∧
    (((ApplySurgicalLossForCascade gsC6post [] [⟨0, 0⟩] gsC6post.currentLevel rC6).1 =
        false) ∧
      cascadeRngSection gsC6post [] [⟨0, 0⟩] connsC6 5 ⟨some 95, some "loss"⟩ rC6 =
        .ok (gsC6post, connsC6, 5, true,
          (ApplySurgicalLossForCascade gsC6post [] [⟨0, 0⟩] gsC6post.currentLevel
            rC6).2.2)) ∧
    ((cascadeFinish gsC6post connsC6 5 true rC6).status = "success" ∧
      (cascadeFinish gsC6post connsC6 5 true rC6).gameState.grid = gsC6post.grid) ∧
    (CascadeHandler reqC6 svcLoss rC6 =
      .ok (cascadeFinish outC6.1 outC6.2.1 outC6.2.2.1 outC6.2.2.2.1 outC6.2.2.2.2)) ∧
    (ProcessStageClearedHandler reqC3 svcWin (constRng Symbol.greenOwl) = .ok respC3 ∧
      respC3.status = "success" ∧ respC3.totalCost = 0) :=
  ⟨⟨⟨by decide, by decide⟩,
      spec_C6.1 gsC6post [] [] [⟨0, 0⟩] connsC6 5 95 rC6 (by decide) (by decide)⟩,
    ⟨by decide,
      spec_C6.2.1 gsC6post [] [⟨0, 0⟩] connsC6 5 95 rC6 (by decide) (by decide)⟩,
    ⟨(spec_C6.2.2.1 gsC6post connsC6 5 true rC6).1,
      (spec_C6.2.2.1 gsC6post connsC6 5 true rC6).2.2.2.1⟩,
    spec_C6.2.2.2.1 reqC6 svcLoss rC6 outC6.1 outC6.2.1 outC6.2.2.1 outC6.2.2.2.1
      outC6.2.2.2.2 (by decide) (by decide) (by rfl),
    ⟨by rfl, spec_C6.2.2.2.2 reqC3 svcWin (constRng Symbol.greenOwl) respC3 (by rfl)⟩⟩

/-! ### Flood-fill correctness -/

/-- The four cells pushed by the Go flood fill: up, down, left, right. -/
def neighbors (p : Position) : List Position :=
  [⟨p.x, p.y - 1⟩, ⟨p.x, p.y + 1⟩, ⟨p.x - 1, p.y⟩, ⟨p.x + 1, p.y⟩]

/-- 4-directional adjacency (no diagonals). -/
def adjacent (p q : Position) : Prop := q ∈ neighbors p

theorem adjacent_symm {p q : Position} (h : adjacent p q) : adjacent q p := by
  obtain ⟨px, py⟩ := p
  obtain ⟨qx, qy⟩ := q
  simp only [adjacent, neighbors, List.mem_cons, List.not_mem_nil, or_false,
    Position.mk.injEq] at h ⊢
  omega

theorem getMinConnection_pos (level : ℕ) : 0 < GetMinConnection level := by
  unfold GetMinConnection
  split <;> decide

theorem floodLoop_delta (grid : Grid) (sym : Symbol) :
    ∀ (fuel : ℕ) (stack visited positions res vis' : List Position),
    floodLoop grid sym fuel stack visited positions = some (res, vis') →
    ∃ Δ, res = positions ++ Δ ∧ vis' = Δ.reverse ++ visited ∧ Δ.Nodup ∧
      ∀ p ∈ Δ, p ∉ visited ∧ inBoundsB grid.length p = true ∧
        cellAtP grid p = sym ∧ IsRegularBirdSymbol sym = true := by
  intro fuel
  induction fuel with
  | zero =>
    intro stack visited positions res vis' h
    cases stack with
    | nil =>
      simp only [floodLoop, Option.some.injEq, Prod.mk.injEq] at h
      exact ⟨[], by simp [h.1], by simp [h.2], List.nodup_nil, by simp⟩
    | cons current tail => exact Option.noConfusion h
  | succ fuel ih =>
    intro stack visited positions res vis' h
    cases stack with
    | nil =>
      simp only [floodLoop, Option.some.injEq, Prod.mk.injEq] at h
      exact ⟨[], by simp [h.1], by simp [h.2], List.nodup_nil, by simp⟩
    | cons current tail =>
      rw [floodLoop] at h
      split at h
      · exact ih tail visited positions res vis' h
      · split at h
        · exact ih tail visited positions res vis' h
        · next hb hskip =>
          obtain ⟨Δ, h1, h2, h3, h4⟩ := ih _ _ _ _ _ h
          push_neg at hskip
          obtain ⟨hnv, hcell, hreg⟩ := hskip
          have hbt : inBoundsB grid.length current = true :=
            eq_true_of_ne_false hb
          have hregt : IsRegularBirdSymbol (cellAtP grid current) = true :=
            eq_true_of_ne_false hreg
          refine ⟨current :: Δ, ?_, ?_, ?_, ?_⟩
          · rw [h1]
            simp
          · rw [h2]
            simp
          · exact List.nodup_cons.2
              ⟨fun hmem => (h4 current hmem).1 (List.mem_cons_self ..), h3⟩
          · intro p hp
            rcases List.mem_cons.1 hp with hp | hp
            · subst hp
              exact ⟨hnv, hbt, hcell, hcell ▸ hregt⟩
            · obtain ⟨hpv, hpb, hpc, hpr⟩ := h4 p hp
              exact ⟨fun hm => hpv (List.mem_cons_of_mem _ hm), hpb, hpc, hpr⟩

/-- A cell is dead for this flood if it is out of bounds, holds another
symbol, or is not a regular bird. -/
def deadFor (grid : Grid) (sym : Symbol) (q : Position) : Prop :=
  ¬(inBoundsB grid.length q = true ∧ cellAtP grid q = sym ∧
    IsRegularBirdSymbol (cellAtP grid q) = true)

theorem floodLoop_closure (grid : Grid) (sym : Symbol) :
    ∀ (fuel : ℕ) (stack visited positions res vis' : List Position),
    floodLoop grid sym fuel stack visited positions = some (res, vis') →
    (∀ p ∈ positions, ∀ q, adjacent p q → q ∈ visited ∨ q ∈ stack ∨
      deadFor grid sym q) →
    ∀ p ∈ res, ∀ q, adjacent p q → q ∈ vis' ∨ deadFor grid sym q := by
  intro fuel
  induction fuel with
  | zero =>
    intro stack visited positions res vis' h hinv
    cases stack with
    | nil =>
      simp only [floodLoop, Option.some.injEq, Prod.mk.injEq] at h
      obtain ⟨h1, h2⟩ := h
      subst h1
      subst h2
      intro p hp q hq
      rcases hinv p hp q hq with hv | hs | hd
      · exact Or.inl hv
      · exact absurd hs (List.not_mem_nil q)
      · exact Or.inr hd
    | cons current tail => exact Option.noConfusion h
  | succ fuel ih =>
    intro stack visited positions res vis' h hinv
    cases stack with
    | nil =>
      simp only [floodLoop, Option.some.injEq, Prod.mk.injEq] at h
      obtain ⟨h1, h2⟩ := h
      subst h1
      subst h2
      intro p hp q hq
      rcases hinv p hp q hq with hv | hs | hd
      · exact Or.inl hv
      · exact absurd hs (List.not_mem_nil q)
      · exact Or.inr hd
    | cons current tail =>
      rw [floodLoop] at h
      split at h
      next hoob =>
        refine ih tail visited positions res vis' h ?_
        intro p hp q hq
        rcases hinv p hp q hq with hv | hs | hd
        · exact Or.inl hv
        · rcases List.mem_cons.1 hs with hc | ht
          · subst hc
            refine Or.inr (Or.inr (fun hcond => ?_))
            rw [hcond.1] at hoob
            exact Bool.noConfusion hoob
          · exact Or.inr (Or.inl ht)
        · exact Or.inr (Or.inr hd)
      next hoob =>
        split at h
        next hskip =>
          refine ih tail visited positions res vis' h ?_
          intro p hp q hq
          rcases hinv p hp q hq with hv | hs | hd
          · exact Or.inl hv
          · rcases List.mem_cons.1 hs with hc | ht
            · subst hc
              rcases hskip with hv2 | hc2 | hr2
              · exact Or.inl hv2
              · exact Or.inr (Or.inr (fun hcond => hc2 hcond.2.1))
              · refine Or.inr (Or.inr (fun hcond => ?_))
                rw [hcond.2.2] at hr2
                exact Bool.noConfusion hr2
            · exact Or.inr (Or.inl ht)
          · exact Or.inr (Or.inr hd)
        next hskip =>
          refine ih _ _ _ _ _ h ?_
          intro p hp q hq
          rcases List.mem_append.1 hp with hpold | hpnew
          · rcases hinv p hpold q hq with hv | hs | hd
            · exact Or.inl (List.mem_cons_of_mem _ hv)
            · rcases List.mem_cons.1 hs with hc | ht
              · subst hc
                exact Or.inl (List.mem_cons_self ..)
              · refine Or.inr (Or.inl ?_)
                simp only [List.mem_cons]
                exact Or.inr (Or.inr (Or.inr (Or.inr ht)))
            · exact Or.inr (Or.inr hd)
          · have hpc : p = current := List.mem_singleton.1 hpnew
            subst hpc
            refine Or.inr (Or.inl ?_)
            have hq2 : q ∈ neighbors p := hq
            simp only [neighbors, List.mem_cons, List.not_mem_nil, or_false] at hq2
            simp only [List.mem_cons]
            rcases hq2 with h1 | h1 | h1 | h1
            · exact Or.inl h1
            · exact Or.inr (Or.inl h1)
            · exact Or.inr (Or.inr (Or.inl h1))
            · exact Or.inr (Or.inr (Or.inr (Or.inl h1)))

theorem floodLoop_reach (grid : Grid) (sym : Symbol) (start : Position) :
    ∀ (fuel : ℕ) (stack visited positions res vis' : List Position),
    floodLoop grid sym fuel stack visited positions = some (res, vis') →
    (∀ q ∈ stack, q = start ∨ ∃ p ∈ positions, adjacent p q) →
    (∀ p ∈ positions, Relation.ReflTransGen
      (fun a b => adjacent a b ∧ a ∈ res ∧ b ∈ res) start p) →
    ∀ p ∈ res, Relation.ReflTransGen
      (fun a b => adjacent a b ∧ a ∈ res ∧ b ∈ res) start p := by
  intro fuel
  induction fuel with
  | zero =>
    intro stack visited positions res vis' h hstk hpos
    cases stack with
    | nil =>
      simp only [floodLoop, Option.some.injEq, Prod.mk.injEq] at h
      obtain ⟨h1, _⟩ := h
      subst h1
      exact hpos
    | cons current tail => exact Option.noConfusion h
  | succ fuel ih =>
    intro stack visited positions res vis' h hstk hpos
    cases stack with
    | nil =>
      simp only [floodLoop, Option.some.injEq, Prod.mk.injEq] at h
      obtain ⟨h1, _⟩ := h
      subst h1
      exact hpos
    | cons current tail =>
      rw [floodLoop] at h
      split at h
      next hoob =>
        exact ih tail visited positions res vis' h
          (fun q hq => hstk q (List.mem_cons_of_mem _ hq)) hpos
      next hoob =>
        split at h
        next hskip =>
          exact ih tail visited positions res vis' h
            (fun q hq => hstk q (List.mem_cons_of_mem _ hq)) hpos
        next hskip =>
          obtain ⟨Δ, hres, _, _, _⟩ := floodLoop_delta grid sym fuel _ _ _ _ _ h
          have hsub : positions ++ [current] ⊆ res := by
            rw [hres]
            exact List.subset_append_left ..
          have hcur : current ∈ res :=
            hsub (List.mem_append.2 (Or.inr (List.mem_singleton.2 rfl)))
          refine ih _ _ _ _ _ h ?_ ?_
          · intro q hq
            simp only [List.mem_cons] at hq
            rcases hq with h1 | h1 | h1 | h1 | h1
            · exact Or.inr ⟨current,
                List.mem_append.2 (Or.inr (List.mem_singleton.2 rfl)),
                by rw [h1]; simp [adjacent, neighbors]⟩
            · exact Or.inr ⟨current,
                List.mem_append.2 (Or.inr (List.mem_singleton.2 rfl)),
                by rw [h1]; simp [adjacent, neighbors]⟩
            · exact Or.inr ⟨current,
                List.mem_append.2 (Or.inr (List.mem_singleton.2 rfl)),
                by rw [h1]; simp [adjacent, neighbors]⟩
            · exact Or.inr ⟨current,
                List.mem_append.2 (Or.inr (List.mem_singleton.2 rfl)),
                by rw [h1]; simp [adjacent, neighbors]⟩
            · rcases hstk q (List.mem_cons_of_mem _ h1) with hs | ⟨p, hp, hadj⟩
              · exact Or.inl hs
              · exact Or.inr ⟨p, List.mem_append.2 (Or.inl hp), hadj⟩
          · intro p hp
            rcases List.mem_append.1 hp with hpold | hpnew
            · exact hpos p hpold
            · have hpc : p = current := List.mem_singleton.1 hpnew
              subst hpc
              rcases hstk p (List.mem_cons_self ..) with hs | ⟨p2, hp2, hadj⟩
              · rw [← hs]
              · exact Relation.ReflTransGen.tail (hpos p2 hp2)
                  ⟨hadj, hsub (List.mem_append.2 (Or.inl hp2)), hcur⟩

/-- What claim C2 asserts of one returned connection: regular-bird symbol,
count = component size ≥ level minimum, no duplicate members, every member
in bounds holding the symbol, 4-directionally connected inside the member
set, and maximal (no same-symbol in-bounds neighbour outside it). -/
def connOK (grid : Grid) (level : ℕ) (c : Connection) : Prop :=
  IsRegularBirdSymbol c.symbol = true ∧
  c.count = c.positions.length ∧
  GetMinConnection level ≤ c.positions.length ∧
  c.positions.Nodup ∧
  (∀ p ∈ c.positions, inBoundsB grid.length p = true ∧ cellAtP grid p = c.symbol) ∧
  (∀ p ∈ c.positions, ∀ q ∈ c.positions, Relation.ReflTransGen
    (fun a b => adjacent a b ∧ a ∈ c.positions ∧ b ∈ c.positions) p q) ∧
  (∀ p ∈ c.positions, ∀ q, adjacent p q → inBoundsB grid.length q = true →
    cellAtP grid q = c.symbol → q ∈ c.positions)

/-- Every same-symbol in-bounds neighbour of a visited cell is visited. -/
def closedVisited (grid : Grid) (vis : List Position) : Prop :=
  ∀ v ∈ vis, ∀ w, adjacent v w → inBoundsB grid.length w = true →
    cellAtP grid w = cellAtP grid v → w ∈ vis

theorem frcLoop_connOK (grid : Grid) (level : ℕ) :
    ∀ (cells : List (ℕ × ℕ)) (visited : List Position) (conns : List Connection),
    closedVisited grid visited → (∀ c ∈ conns, connOK grid level c) →
    ∀ c ∈ (frcLoop grid level cells visited conns).1, connOK grid level c := by
  intro cells
  induction cells with
  | nil =>
    intro visited conns _ hconns
    simp only [frcLoop]
    exact hconns
  | cons yx cells ih =>
    obtain ⟨y, x⟩ := yx
    intro visited conns hcl hconns
    rw [frcLoop]
    split
    next hguard =>
      dsimp only
      rcases hflood : floodLoop grid (cellAt grid x y)
          (5 * (grid.length * grid.length) + 1) [⟨(x : ℤ), (y : ℤ)⟩] visited []
        with _ | ⟨res, vis2⟩
      · have hfcp : findConnectedPositions grid x y (cellAt grid x y) visited =
            ([], visited) := by
          unfold findConnectedPositions
          rw [hflood]
          rfl
        rw [hfcp]
        dsimp only
        rw [if_neg (by have := getMinConnection_pos level; simp; omega)]
        exact ih visited conns hcl hconns
      · have hfcp : findConnectedPositions grid x y (cellAt grid x y) visited =
            (res, vis2) := by
          unfold findConnectedPositions
          rw [hflood]
          rfl
        obtain ⟨Δ, hres, hvis, hnd, hmem⟩ :=
          floodLoop_delta grid (cellAt grid x y) _ _ _ _ _ _ hflood
        rw [List.nil_append] at hres
        subst hres
        have hclo := floodLoop_closure grid (cellAt grid x y) _ _ _ _ _ _ hflood
          (fun p hp => absurd hp (List.not_mem_nil p))
        have hclosed2 : closedVisited grid vis2 := by
          intro v hv w hadj hwb hwc
          rw [hvis] at hv
          rcases List.mem_append.1 hv with hvD | hvold
          · rw [List.mem_reverse] at hvD
            obtain ⟨hvnv, hvb, hvc, hvr⟩ := hmem v hvD
            rcases hclo v hvD w hadj with hw | hdead
            · exact hw
            · exact absurd ⟨hwb, by rw [hwc, hvc], by rw [hwc, hvc]; exact hvr⟩ hdead
          · have hw := hcl v hvold w hadj hwb hwc
            rw [hvis]
            exact List.mem_append.2 (Or.inr hw)
        rw [hfcp]
        dsimp only
        split
        next hmin =>
          refine ih vis2 _ hclosed2 ?_
          intro c hc
          rcases List.mem_append.1 hc with hold | hnew
          · exact hconns c hold
          · rw [List.mem_singleton.1 hnew]
            have hreach := floodLoop_reach grid (cellAt grid x y)
              ⟨(x : ℤ), (y : ℤ)⟩ _ _ _ _ _ _ hflood
              (fun q hq => Or.inl (List.mem_singleton.1 hq))
              (fun p hp => absurd hp (List.not_mem_nil p))
            refine ⟨hguard.2, rfl, hmin, hnd, ?_, ?_, ?_⟩
            · intro p hp
              obtain ⟨_, hpb, hpc, _⟩ := hmem p hp
              exact ⟨hpb, hpc⟩
            · intro p hp q hq
              have hsymm : Symmetric
                  (fun a b => adjacent a b ∧ a ∈ res ∧ b ∈ res) :=
                fun a b hab => ⟨adjacent_symm hab.1, hab.2.2, hab.2.1⟩
              exact Relation.ReflTransGen.trans
                (Relation.ReflTransGen.symmetric hsymm (hreach p hp))
                (hreach q hq)
            · intro p hp q hadj hqb hqc
              obtain ⟨hpnv, hpb, hpc, hpr⟩ := hmem p hp
              rcases hclo p hp q hadj with hq2 | hdead
              · rw [hvis] at hq2
                rcases List.mem_append.1 hq2 with hqD | hqold
                · exact List.mem_reverse.1 hqD
                · exfalso
                  have := hcl q hqold p (adjacent_symm hadj) hpb (by rw [hpc, hqc])
                  exact hpnv this
              · exact absurd ⟨hqb, hqc, by rw [hqc]; exact hguard.2⟩ hdead
        next hmin => exact ih vis2 conns hclosed2 hconns
    next hguard => exact ih visited conns hcl hconns

/-- C2: every connection returned by `FindRegularConnections` is a maximal
4-directionally-adjacent same-symbol component of regular bird cells with
size at least the level minimum: its symbol is a regular bird, its count is
its member count, its members are distinct in-bounds cells holding that
symbol (hence never a stage-cleared or trigger cell), any two members are
joined by a 4-adjacency path inside the member set, and every in-bounds
same-symbol neighbour of a member is itself a member. -/
theorem spec_C2 (grid : Grid) (level : ℕ) (c : Connection)
    (hc : c ∈ FindRegularConnections grid level) :
    IsRegularBirdSymbol c.symbol = true ∧
    c.count = c.positions.length ∧
    GetMinConnection level ≤ c.positions.length ∧
    c.positions.Nodup ∧
    (∀ p ∈ c.positions, inBoundsB grid.length p = true ∧ cellAtP grid p = c.symbol ∧
      IsStageClearedSymbol (cellAtP grid p) = false ∧
      cellAtP grid p ≠ Symbol.freeGame) ∧
    (∀ p ∈ c.positions, ∀ q ∈ c.positions, Relation.ReflTransGen
      (fun a b => adjacent a b ∧ a ∈ c.positions ∧ b ∈ c.positions) p q) ∧
    (∀ p ∈ c.positions, ∀ q, adjacent p q → inBoundsB grid.length q = true →
      cellAtP grid q = c.symbol → q ∈ c.positions) := by
  have hok : connOK grid level c := by
    apply frcLoop_connOK grid level (rowMajorCells grid.length) [] []
      (fun v hv => absurd hv (List.not_mem_nil v))
      (fun c0 hc0 => absurd hc0 (List.not_mem_nil c0))
    exact hc
  obtain ⟨h1, h2, h3, h4, h5, h6, h7⟩ := hok
  have hspecial : ∀ s : Symbol, IsRegularBirdSymbol s = true →
      IsStageClearedSymbol s = false ∧ s ≠ Symbol.freeGame := by
    intro s
    cases s <;> decide
  refine ⟨h1, h2, h3, h4, ?_, h6, h7⟩
  intro p hp
  obtain ⟨hb, hcell⟩ := h5 p hp
  obtain ⟨hs1, hs2⟩ := hspecial c.symbol h1
  exact ⟨hb, hcell, by rw [hcell]; exact hs1, by rw [hcell]; exact hs2⟩

theorem mem_getD_zero {α : Type} (l : List α) (d : α) (h : 0 < l.length) :
    l.getD 0 d ∈ l := by
  cases l with
  | nil => simp at h
  | cons a l => exact List.mem_cons_self ..

/-- The 4-by-4 level-1 grid of the C2 witness (one purple 2-by-2 block). -/
def gridC2 : Grid :=
  [[.purpleOwl, .purpleOwl, .greenOwl, .blueOwl],
   [.purpleOwl, .purpleOwl, .redOwl, .greenOwl],
   [.yellowOwl, .blueOwl, .orangeSlice, .redOwl],
   [.blueOwl, .greenOwl, .redOwl, .yellowOwl]]

/-- The first connection returned on `gridC2`. -/
def connC2 : Connection :=
  (FindRegularConnections gridC2 1).getD 0 ⟨Symbol.purpleOwl, [], 0, 0⟩

/-- Witness for `spec_C2`: the purple component returned on `gridC2` enjoys
all the component properties. -/
theorem spec_C2_witness :
    connC2 ∈ FindRegularConnections gridC2 1 ∧
    (IsRegularBirdSymbol connC2.symbol = true ∧
      connC2.count = connC2.positions.length ∧
      GetMinConnection 1 ≤ connC2.positions.length ∧
      connC2.positions.Nodup ∧
      (∀ p ∈ connC2.positions, inBoundsB gridC2.length p = true ∧
        cellAtP gridC2 p = connC2.symbol ∧
        IsStageClearedSymbol (cellAtP gridC2 p) = false ∧
        cellAtP gridC2 p ≠ Symbol.freeGame) ∧
      (∀ p ∈ connC2.positions, ∀ q ∈ connC2.positions, Relation.ReflTransGen
        (fun a b => adjacent a b ∧ a ∈ connC2.positions ∧ b ∈ connC2.positions) p q) ∧
      (∀ p ∈ connC2.positions, ∀ q, adjacent p q → inBoundsB gridC2.length q = true →
        cellAtP gridC2 q = connC2.symbol → q ∈ connC2.positions)) :=
  have hmem : connC2 ∈ FindRegularConnections gridC2 1 :=
    mem_getD_zero _ _ (by decide)
  ⟨hmem, spec_C2 gridC2 1 connC2 hmem⟩

/-! ### Payout formula -/

/-- The largest tabulated connection count of a level: the full grid,
`gridSize * gridSize` (16, 25, 36; out-of-range levels fall back to the
level-1 value, mirroring `GetPaytable` and `GetGridSize`). -/
def maxTabulatedCount (level : ℕ) : ℕ := GetGridSize level * GetGridSize level

/-- The payout formula exactly as the specification words it:
`paytable[symbol][min(count, maxTabulatedCount)] * 0.01 * betMultiplier`,
rounded once to 2 decimals.  This definition follows the spec text and is
compared against the code's `calculatePayout`. -/
def specPayoutFormula (symbol : Symbol) (count level : ℕ) (betMultiplier : ℤ) : ℚ :=
  match GetPaytable level symbol with
  | some payoutMap =>
    match lookupPay payoutMap (min count (maxTabulatedCount level)) with
    | some payout => round (payout * (1 / 100) * (betMultiplier : ℚ))
    | none => 0
  | none => 0

theorem calculatePayout_eq_spec (symbol : Symbol) (count level : ℕ)
    (betMultiplier : ℤ) (h : count ≤ maxTabulatedCount level) :
    calculatePayout symbol count level betMultiplier =
      specPayoutFormula symbol count level betMultiplier := by
  unfold calculatePayout specPayoutFormula
  rw [Nat.min_eq_left h]

/-- All in-bounds positions of an `n`-sized grid. -/
def inCells (n : ℕ) : List Position :=
  (List.range n).flatMap fun (y : ℕ) =>
    (List.range n).map fun (x : ℕ) => (⟨(x : ℤ), (y : ℤ)⟩ : Position)

theorem inCells_length (n : ℕ) : (inCells n).length = n * n := by
  unfold inCells
  rw [List.length_flatMap]
  have hmap : List.map (List.length ∘ fun (y : ℕ) => (List.range n).map
      (fun (x : ℕ) => (⟨(x : ℤ), (y : ℤ)⟩ : Position))) (List.range n) =
      List.map (fun (_ : ℕ) => n) (List.range n) := by
    apply List.map_congr_left
    intro y _
    simp
  rw [hmap, List.map_const', List.sum_replicate, List.length_range, smul_eq_mul]

theorem inBoundsB_mem_inCells {n : ℕ} {p : Position} (h : inBoundsB n p = true) :
    p ∈ inCells n := by
  obtain ⟨px, py⟩ := p
  simp only [inBoundsB, decide_eq_true_eq] at h
  simp only [inCells, List.mem_flatMap, List.mem_map, List.mem_range]
  have hy : py.toNat < n := by omega
  have hx : px.toNat < n := by omega
  refine ⟨py.toNat, hy, ⟨px.toNat, hx, ?_⟩⟩
  simp only [Position.mk.injEq]
  omega

theorem FindRegularConnections_count_le (grid : Grid) (level : ℕ) (c : Connection)
    (hshape : gridShape grid (GetGridSize level))
    (hc : c ∈ FindRegularConnections grid level) :
    c.count ≤ maxTabulatedCount level := by
  have hok : connOK grid level c :=
    frcLoop_connOK grid level (rowMajorCells grid.length) [] []
      (fun v hv => absurd hv (List.not_mem_nil v))
      (fun c0 hc0 => absurd hc0 (List.not_mem_nil c0)) c hc
  obtain ⟨_, hcount, _, hnd, hmem, _, _⟩ := hok
  have hsub : c.positions ⊆ inCells grid.length :=
    fun p hp => inBoundsB_mem_inCells (hmem p hp).1
  have hlen := (List.subperm_of_subset hnd hsub).length_le
  rw [inCells_length, hshape.1] at hlen
  rw [hcount]
  exact hlen

theorem lookupPay_mem_keys :
    ∀ (tbl : List (ℕ × ℚ)) (k : ℕ) (v : ℚ), lookupPay tbl k = some v →
    k ∈ tbl.map Prod.fst := by
  intro tbl
  induction tbl with
  | nil => intro k v h; exact Option.noConfusion h
  | cons kv rest ih =>
    intro k v h
    obtain ⟨k0, v0⟩ := kv
    rw [lookupPay] at h
    split at h
    next heq =>
      subst heq
      exact List.mem_cons_self ..
    next => exact List.mem_cons_of_mem _ (ih k v h)

theorem GetPaytable_cases (level : ℕ) :
    (GetPaytable level = PaytableLevel1 ∧ GetGridSize level = 4) ∨
    (GetPaytable level = PaytableLevel2 ∧ GetGridSize level = 5) ∨
    (GetPaytable level = PaytableLevel3 ∧ GetGridSize level = 6) := by
  unfold GetPaytable GetGridSize
  rcases level with _ | _ | _ | _ | n
  · exact Or.inl ⟨rfl, rfl⟩
  · exact Or.inl ⟨rfl, rfl⟩
  · exact Or.inr (Or.inl ⟨rfl, rfl⟩)
  · exact Or.inr (Or.inr ⟨rfl, rfl⟩)
  · exact Or.inl ⟨rfl, rfl⟩

theorem paytable_keys_bounded (level : ℕ) (s : Symbol)
    (hreg : IsRegularBirdSymbol s = true) :
    ∃ tbl, GetPaytable level s = some tbl ∧
      (lookupPay tbl (maxTabulatedCount level)).isSome = true ∧
      ∀ k v, lookupPay tbl k = some v → k ≤ maxTabulatedCount level := by
  have hs : s = .purpleOwl ∨ s = .greenOwl ∨ s = .yellowOwl ∨ s = .blueOwl ∨
      s = .redOwl := by
    revert hreg
    cases s <;> decide
  have hbound : ∀ (tbl : List (ℕ × ℚ)) (m : ℕ),
      (tbl.map Prod.fst).all (fun k => decide (k ≤ m)) = true →
      ∀ k v, lookupPay tbl k = some v → k ≤ m := by
    intro tbl m hall k v hk
    have := List.all_eq_true.1 hall k (lookupPay_mem_keys tbl k v hk)
    exact of_decide_eq_true this
  rcases hs with h | h | h | h | h <;> subst h <;>
    obtain ⟨hP, hG⟩ | ⟨hP, hG⟩ | ⟨hP, hG⟩ := GetPaytable_cases level <;>
    rw [show maxTabulatedCount level = GetGridSize level * GetGridSize level from rfl,
      hG, hP] <;>
    exact ⟨_, rfl, by decide, hbound _ _ (by decide)⟩

theorem handlerWinnings_spec (conns : List Connection) (level : ℕ) (mult : ℤ) :
    handlerWinnings conns level mult =
      (conns.map (fun c =>
        { c with payout := calculatePayout c.symbol c.count level mult }),
       (conns.map (fun c => calculatePayout c.symbol c.count level mult)).sum) := by
  unfold handlerWinnings
  have H : ∀ (cs : List Connection) (acc : List Connection × ℚ),
      cs.foldl (fun (acc : List Connection × ℚ) connection =>
        let payout := calculatePayout connection.symbol connection.count level mult
        (acc.1 ++ [{ connection with payout := payout }], acc.2 + payout)) acc =
      (acc.1 ++ cs.map (fun c =>
          { c with payout := calculatePayout c.symbol c.count level mult }),
        acc.2 + (cs.map (fun c => calculatePayout c.symbol c.count level mult)).sum) := by
    intro cs
    induction cs with
    | nil => intro acc; simp
    | cons c cs ih =>
      intro acc
      rw [List.foldl_cons, ih]
      dsimp only
      rw [Prod.mk.injEq]
      constructor
      · simp [List.append_assoc]
      · simp [add_assoc]
  rw [H]
  simp

theorem scaleWinnings_freeSpins (tw m : ℚ) :
    scaleWinnings tw "freeSpins" m = round (tw * m) := by
  simp [scaleWinnings]

theorem scaleWinnings_base (tw m : ℚ) (mode : String) (h : mode ≠ "freeSpins") :
    scaleWinnings tw mode m = round tw := by
  simp [scaleWinnings, h]

/-- C1: the per-connection payout formula and the handlers' total pass.
`calculatePayout` equals the spec's formula
`paytable[symbol][min(count, maxTabulatedCount)] * 0.01 * betMultiplier`
rounded once to 2 decimals for every count within the tabulated range, and
every qualifying connection's count is within that range (so the code's
plain lookup and the spec's min-clamp agree on every reachable input);
for every regular bird symbol the clamp target is tabulated and is the
largest tabulated count.  The handlers' winnings loop stores exactly that
per-connection payout (rounded once, at computation time) and sums the
unmodified payouts; the free-spin multiplier is applied by the caller to
the summed total only, which is then rounded, and outside free spins the
sum is only rounded — per-connection payouts are never re-scaled or
re-rounded. -/
theorem spec_C1 :
    (∀ (symbol : Symbol) (count level : ℕ) (betMultiplier : ℤ),
      count ≤ maxTabulatedCount level →
      calculatePayout symbol count level betMultiplier =
        specPayoutFormula symbol count level betMultiplier) ∧
    (∀ (grid : Grid) (level : ℕ) (c : Connection),
      gridShape grid (GetGridSize level) → c ∈ FindRegularConnections grid level →
      c.count ≤ maxTabulatedCount level) ∧
    (∀ (level : ℕ) (s : Symbol), IsRegularBirdSymbol s = true →
      ∃ tbl, GetPaytable level s = some tbl ∧
        (lookupPay tbl (maxTabulatedCount level)).isSome = true ∧
        ∀ k v, lookupPay tbl k = some v → k ≤ maxTabulatedCount level) ∧
    (∀ (conns : List Connection) (level : ℕ) (mult : ℤ),
      handlerWinnings conns level mult =
        (conns.map (fun c =>
          { c with payout := calculatePayout c.symbol c.count level mult }),
         (conns.map (fun c => calculatePayout c.symbol c.count level mult)).sum)) ∧
    (∀ (tw m : ℚ), scaleWinnings tw "freeSpins" m = round (tw * m)) ∧
    (∀ (tw m : ℚ) (mode : String), mode ≠ "freeSpins" →
      scaleWinnings tw mode m = round tw) :=
  ⟨calculatePayout_eq_spec, FindRegularConnections_count_le, paytable_keys_bounded,
    handlerWinnings_spec, scaleWinnings_freeSpins,
    fun tw m mode h => scaleWinnings_base tw m mode h⟩

/-- Witness for `spec_C1`: the purple 4-connection at level 1 with bet
multiplier 1, the component bound on `gridC2`, the red-owl level-1 table,
a two-connection winnings pass, and both scaling modes. -/
theorem spec_C1_witness :
    ((4 : ℕ) ≤ maxTabulatedCount 1 ∧
      calculatePayout Symbol.purpleOwl 4 1 1 = specPayoutFormula Symbol.purpleOwl 4 1 1) ∧
    (gridShape gridC2 (GetGridSize 1) ∧
      connC2.count ≤ maxTabulatedCount 1) ∧
    (IsRegularBirdSymbol Symbol.redOwl = true ∧
      ∃ tbl, GetPaytable 1 Symbol.redOwl = some tbl ∧
        (lookupPay tbl (maxTabulatedCount 1)).isSome = true ∧
        ∀ k v, lookupPay tbl k = some v → k ≤ maxTabulatedCount 1) ∧
    (handlerWinnings [⟨Symbol.purpleOwl, [], 4, 0⟩, ⟨Symbol.redOwl, [], 5, 0⟩] 1 2 =
      ([⟨Symbol.purpleOwl, [], 4, calculatePayout Symbol.purpleOwl 4 1 2⟩,
        ⟨Symbol.redOwl, [], 5, calculatePayout Symbol.redOwl 5 1 2⟩],
       calculatePayout Symbol.purpleOwl 4 1 2 + (calculatePayout Symbol.redOwl 5 1 2 + 0))) ∧
    (scaleWinnings 5 "freeSpins" 10 = round ((5 : ℚ) * 10)) ∧
    (("base" : String) ≠ "freeSpins" ∧ scaleWinnings 5 "base" 10 = round (5 : ℚ)) :=
  have hmem : connC2 ∈ FindRegularConnections gridC2 1 :=
    mem_getD_zero _ _ (by decide)
  ⟨⟨by decide, spec_C1.1 Symbol.purpleOwl 4 1 1 (by decide)⟩,
    ⟨⟨rfl, by decide⟩,
      spec_C1.2.1 gridC2 1 connC2 ⟨rfl, by decide⟩ hmem⟩,
    ⟨by decide, spec_C1.2.2.1 1 Symbol.redOwl (by decide)⟩,
    spec_C1.2.2.2.1 [⟨Symbol.purpleOwl, [], 4, 0⟩, ⟨Symbol.redOwl, [], 5, 0⟩] 1 2,
    spec_C1.2.2.2.2.1 5 10,
    ⟨by decide, spec_C1.2.2.2.2.2 5 10 "base" (by decide)⟩⟩

end BirdsParty
